import Mathlib

/-!
# loadh5.cpp : loading an Octave HDF5 file into a MATLAB value tree

A shallow embedding of `loadh5.cpp`.

* The reader library (`VSOctaveH5Reader.hpp`) is not part of the source file; a reader is
  modelled by the answers it gives.  A `Location` holds the answers for one address, which is
  `(c, row, col)` in a cell array reader and `(s, fn)` in a struct reader.  Every query may
  throw a `VSOctaveH5Exception`, the only failure the loaders can see (return codes of the
  reader are discarded by the source).
* The MATLAB array API (`mx...`) is modelled by a value type `mxArray`; allocation always
  succeeds.
* `unsigned` variables hold their value modulo `2^32`.
* C strings end at the first NUL character (`c_str`).
* Numbers read from the file are carried as rationals; the loaders only move them.
-/

namespace LoadH5

/-! ## Machine types -/

/-- Number of values of a C `unsigned`. -/
def UINT_RANGE : Nat := 2 ^ 32

/-- Conversion of a non-negative integer to `unsigned`. -/
def toUnsigned (n : Nat) : Nat := n % UINT_RANGE

/-- The text a `const char*` denotes when it points at the buffer of `s`: the characters before
the first NUL (`std::string::c_str` read by `strcpy` or `mxCreateString`). -/
def c_str (s : String) : String := String.mk (s.data.takeWhile (fun ch => ch != Char.ofNat 0))

/-- Exception of the reader library; the gateway reports its message. -/
structure VSOctaveH5Exception where
  message : String
deriving DecidableEq, Repr

/-- Outcome of code that may throw a `VSOctaveH5Exception`. -/
abbrev Throws (α : Type) : Type := Except VSOctaveH5Exception α

/-- The C++ types the loaders ask the reader to fill. -/
inductive CType where
  | int8_t | uint8_t | int16_t | uint16_t | int32_t | uint32_t | int64_t | uint64_t
  | float | double | unsigned | mxLogical
deriving DecidableEq, Repr

/-- Class identifiers of MATLAB arrays. -/
inductive mxClassID where
  | mxUNKNOWN_CLASS | mxCELL_CLASS | mxSTRUCT_CLASS | mxLOGICAL_CLASS | mxCHAR_CLASS
  | mxDOUBLE_CLASS | mxSINGLE_CLASS
  | mxINT8_CLASS | mxUINT8_CLASS | mxINT16_CLASS | mxUINT16_CLASS
  | mxINT32_CLASS | mxUINT32_CLASS | mxINT64_CLASS | mxUINT64_CLASS
deriving DecidableEq, Repr

/-- The template `ClassID<T>::get()`: the generic template returns 0, the `DEFCLASSID`
specialisations return the class of the ten numeric types. -/
def ClassID.get : CType → mxClassID
  | .int8_t => .mxINT8_CLASS
  | .uint8_t => .mxUINT8_CLASS
  | .int16_t => .mxINT16_CLASS
  | .uint16_t => .mxUINT16_CLASS
  | .int32_t => .mxINT32_CLASS
  | .uint32_t => .mxUINT32_CLASS
  | .int64_t => .mxINT64_CLASS
  | .uint64_t => .mxUINT64_CLASS
  | .float => .mxSINGLE_CLASS
  | .double => .mxDOUBLE_CLASS
  | _ => .mxUNKNOWN_CLASS

/-! ## The MATLAB value model -/

/-- MATLAB arrays as the loaders build them.  `null` is the 0 pointer held by a slot of a
struct or cell array that has not been set. -/
inductive mxArray where
  | null
  | logical (m n : Nat) (data : List Bool)
  | numeric (classid : mxClassID) (m n : Nat) (data : List ℚ)
  | char (m n : Nat) (text : String)
  | struct (fieldnames : List String) (fields : List mxArray)
  | cell (m n : Nat) (data : List mxArray)

/-- Modelled from the spec: the typedef `mxLogical` (matrix.h) is missing, so the conversion of
the `unsigned` read to a logical follows section 4.2, any non-zero value is true. -/
def mxCreateLogicalScalar (value : ℚ) : mxArray := .logical 1 1 [decide (value ≠ 0)]

/-- An `m`-by-`n` logical matrix, all false. -/
def mxCreateLogicalMatrix (m n : Nat) : mxArray := .logical m n (List.replicate (m * n) false)

/-- An `m`-by-`n` real numeric matrix of class `classid`, all zero. -/
def mxCreateNumericMatrix (m n : Nat) (classid : mxClassID) : mxArray :=
  .numeric classid m n (List.replicate (m * n) 0)

/-- A 1-by-1 double. -/
def mxCreateDoubleScalar (value : ℚ) : mxArray := .numeric .mxDOUBLE_CLASS 1 1 [value]

/-- A 1-by-N character row holding the C string `str`. -/
def mxCreateString (str : String) : mxArray := .char 1 str.length str

/-- An `m`-by-`n` cell array with every cell unset. -/
def mxCreateCellMatrix (m n : Nat) : mxArray := .cell m n (List.replicate (m * n) .null)

/-- The call `mxCreateStructMatrix(1, 1, nfields, fnames)`: a 1-by-1 struct with the first
`nfields` names and every field unset. -/
def mxCreateStructMatrix (nfields : Nat) (fnames : List String) : mxArray :=
  .struct (fnames.take nfields) (List.replicate nfields .null)

/-- The call `mxSetFieldByNumber(pm, index, fieldnumber, value)` on a 1-by-1 struct, where it
sets field `fieldnumber` of element `index = 0`.  The source also calls it on the cell array it
fills, with the flat cell index as `fieldnumber`; there it is taken to set that cell. -/
def mxSetFieldByNumber (pm : mxArray) (index fieldnumber : Nat) (value : mxArray) : mxArray :=
  if index = 0 then
    match pm with
    | .struct names fields => .struct names (fields.set fieldnumber value)
    | .cell m n data => .cell m n (data.set fieldnumber value)
    | other => other
  else pm

/-- A reader writing the values `src` from the start of a buffer of fixed size. -/
def fillBuffer {α : Type} (buf src : List α) : List α :=
  (src ++ buf.drop src.length).take buf.length

/-- The data buffer of a numeric or logical array (`mxGetData`, `mxGetLogicals`) after a reader
wrote `src` into it. -/
def mxArray.written (mv : mxArray) (src : List ℚ) : mxArray :=
  match mv with
  | .numeric classid m n data => .numeric classid m n (fillBuffer data src)
  | .logical m n data => .logical m n (fillBuffer data (src.map (fun v => decide (v ≠ 0))))
  | other => other

/-- Number of rows (`mxGetM`). -/
def mxGetM : mxArray → Nat
  | .null => 0
  | .logical m _ _ => m
  | .numeric _ m _ _ => m
  | .char m _ _ => m
  | .struct _ _ => 1
  | .cell m _ _ => m

/-- Number of columns (`mxGetN`). -/
def mxGetN : mxArray → Nat
  | .null => 0
  | .logical _ n _ => n
  | .numeric _ _ n _ => n
  | .char _ n _ => n
  | .struct _ _ => 1
  | .cell _ n _ => n

/-- Whether the array is a character array (`mxIsChar`). -/
def mxIsChar : mxArray → Bool
  | .char _ _ _ => true
  | _ => false

/-- The call `mxGetString(pm, buf, buflen)`: status 0 and the text when `pm` is a character
array that fits `buflen` with its terminator, status 1 otherwise. -/
def mxGetString (pm : mxArray) (buflen : Nat) : Nat × String :=
  match pm with
  | .char m n text => if m * n + 1 ≤ buflen then (0, text) else (1, String.mk (text.data.take (buflen - 1)))
  | _ => (1, "")

/-! ## The reader -/

mutual
/-- The answers of a reader at one address. `readStruct` and `readCellArray` give the nested
reader, which is `failed e` when the call throws `e`. -/
inductive Location where
  | mk (isStruct isCellArray isString isScalar isMatrix : Throws Bool)
       (readStruct : VSOctaveH5ReaderStruct)
       (readCellArray : VSOctaveH5ReaderCellArray)
       (readString : Throws String)
       (elementType : Throws String)
       (readScalar : CType → Throws ℚ)
       (dimensions : Throws (Nat × Nat))
       (readMatrix : CType → Throws (List ℚ))
/-- A struct reader: the enumeration of its field names and the location of every name.
`failed e` stands for a reader whose creation threw `e`. -/
inductive VSOctaveH5ReaderStruct where
  | failed (e : VSOctaveH5Exception)
  | mk (fieldnames : Throws (List String)) (field : String → Location)
/-- A cell array reader: its shape and the location of every cell. -/
inductive VSOctaveH5ReaderCellArray where
  | failed (e : VSOctaveH5Exception)
  | mk (dims : Throws (Nat × Nat)) (cell : Nat → Nat → Location)
end

/-- A pair of `unsigned` out-parameters. -/
def unsignedPair (d : Nat × Nat) : Nat × Nat := (toUnsigned d.1, toUnsigned d.2)

namespace Location

def isStruct : Location → Throws Bool
  | .mk a _ _ _ _ _ _ _ _ _ _ _ => a
def isCellArray : Location → Throws Bool
  | .mk _ a _ _ _ _ _ _ _ _ _ _ => a
def isString : Location → Throws Bool
  | .mk _ _ a _ _ _ _ _ _ _ _ _ => a
def isScalar : Location → Throws Bool
  | .mk _ _ _ a _ _ _ _ _ _ _ _ => a
def isMatrix : Location → Throws Bool
  | .mk _ _ _ _ a _ _ _ _ _ _ _ => a
def readStruct : Location → VSOctaveH5ReaderStruct
  | .mk _ _ _ _ _ a _ _ _ _ _ _ => a
def readCellArray : Location → VSOctaveH5ReaderCellArray
  | .mk _ _ _ _ _ _ a _ _ _ _ _ => a
def readString : Location → Throws String
  | .mk _ _ _ _ _ _ _ a _ _ _ _ => a
def elementType : Location → Throws String
  | .mk _ _ _ _ _ _ _ _ a _ _ _ => a
def readScalar : Location → CType → Throws ℚ
  | .mk _ _ _ _ _ _ _ _ _ a _ _ => a
/-- The method `dimensions(..., unsigned& nrow, unsigned& ncol)` at a matrix location. -/
def dimensions : Location → Throws (Nat × Nat)
  | .mk _ _ _ _ _ _ _ _ _ _ a _ => a.map unsignedPair
def readMatrix : Location → CType → Throws (List ℚ)
  | .mk _ _ _ _ _ _ _ _ _ _ _ a => a

end Location

/-- The method `variables()` of a struct reader. -/
def VSOctaveH5ReaderStruct.variables_ : VSOctaveH5ReaderStruct → Throws (List String)
  | .failed e => .error e
  | .mk names _ => names

/-- The location `(s, fn)`. -/
def VSOctaveH5ReaderStruct.loc : VSOctaveH5ReaderStruct → String → Throws Location
  | .failed e, _ => .error e
  | .mk _ field, fn => .ok (field fn)

/-- The method `dimensions(unsigned& nrow, unsigned& ncol)` of a cell array reader. -/
def VSOctaveH5ReaderCellArray.dimensions : VSOctaveH5ReaderCellArray → Throws (Nat × Nat)
  | .failed e => .error e
  | .mk dims _ => dims.map unsignedPair

/-- The location `(c, row, col)`. -/
def VSOctaveH5ReaderCellArray.loc : VSOctaveH5ReaderCellArray → Nat → Nat → Throws Location
  | .failed e, _, _ => .error e
  | .mk _ cell, row, col => .ok (cell row col)

/-! ## Loaders for primitives -/

namespace VSOctaveH5ReaderCellArray

/-- The function `loadLogicalScalar(c, row, col)`, at the location `(c, row, col)`. -/
def loadLogicalScalar (l : Location) : Throws mxArray := do
  let val ← l.readScalar .unsigned
  pure (mxCreateLogicalScalar val)

/-- The function `loadLogicalMatrix(c, row, col)`. -/
def loadLogicalMatrix (l : Location) : Throws mxArray := do
  let (nrow, ncol) ← l.dimensions
  let mv := mxCreateLogicalMatrix nrow ncol
  let src ← l.readMatrix .mxLogical
  pure (mv.written src)

/-- The function `loadRealScalar<T>(c, row, col)`. -/
def loadRealScalar (T : CType) (l : Location) : Throws mxArray := do
  let mv := mxCreateNumericMatrix 1 1 (ClassID.get T)
  let val ← l.readScalar T
  pure (mv.written [val])

/-- The function `loadRealMatrix<T>(c, row, col)`. -/
def loadRealMatrix (T : CType) (l : Location) : Throws mxArray := do
  let (nrow, ncol) ← l.dimensions
  let mv := mxCreateNumericMatrix nrow ncol (ClassID.get T)
  let src ← l.readMatrix T
  pure (mv.written src)

/-- The scalar branch of `loadCell`: the chain over the element type of a scalar cell. -/
def loadScalar (l : Location) : Throws mxArray := do
  let eltype ← l.elementType
  if eltype = "bool" then loadLogicalScalar l
  else if eltype = "uint8" then loadRealScalar .uint8_t l
  else if eltype = "uint16" then loadRealScalar .uint16_t l
  else if eltype = "uint32" then loadRealScalar .uint32_t l
  else if eltype = "uint64" then loadRealScalar .uint64_t l
  else if eltype = "int8" then loadRealScalar .int8_t l
  else if eltype = "int16" then loadRealScalar .int16_t l
  else if eltype = "int32" then loadRealScalar .int32_t l
  else if eltype = "int64" then loadRealScalar .int64_t l
  else loadRealScalar .double l

/-- The matrix branch of `loadCell`: the chain over the element type of a matrix cell. -/
def loadMatrix (l : Location) : Throws mxArray := do
  let eltype ← l.elementType
  if eltype = "bool" then loadLogicalMatrix l
  else if eltype = "uint8" then loadRealMatrix .uint8_t l
  else if eltype = "uint16" then loadRealMatrix .uint16_t l
  else if eltype = "uint32" then loadRealMatrix .uint32_t l
  else if eltype = "uint64" then loadRealMatrix .uint64_t l
  else if eltype = "int8" then loadRealMatrix .int8_t l
  else if eltype = "int16" then loadRealMatrix .int16_t l
  else if eltype = "int32" then loadRealMatrix .int32_t l
  else if eltype = "int64" then loadRealMatrix .int64_t l
  else loadRealMatrix .double l

/-- The string branch of `loadCell`. -/
def loadString (l : Location) : Throws mxArray := do
  let str ← l.readString
  pure (mxCreateString (c_str str))

end VSOctaveH5ReaderCellArray

namespace VSOctaveH5ReaderStruct

/-- The function `loadLogicalScalar(s, fn)`, at the location `(s, fn)`. -/
def loadLogicalScalar (l : Location) : Throws mxArray := do
  let val ← l.readScalar .unsigned
  pure (mxCreateLogicalScalar val)

/-- The function `loadLogicalMatrix(s, fn)`. -/
def loadLogicalMatrix (l : Location) : Throws mxArray := do
  let (nrow, ncol) ← l.dimensions
  let mv := mxCreateLogicalMatrix nrow ncol
  let src ← l.readMatrix .mxLogical
  pure (mv.written src)

/-- The function `loadRealScalar<T>(s, fn)`. -/
def loadRealScalar (T : CType) (l : Location) : Throws mxArray := do
  let mv := mxCreateNumericMatrix 1 1 (ClassID.get T)
  let val ← l.readScalar T
  pure (mv.written [val])

/-- The function `loadRealMatrix<T>(s, fn)`. -/
def loadRealMatrix (T : CType) (l : Location) : Throws mxArray := do
  let (nrow, ncol) ← l.dimensions
  let mv := mxCreateNumericMatrix nrow ncol (ClassID.get T)
  let src ← l.readMatrix T
  pure (mv.written src)

/-- The scalar branch of `loadStruct`: the chain over the element type of a scalar field. -/
def loadScalar (l : Location) : Throws mxArray := do
  let eltype ← l.elementType
  if eltype = "bool" then loadLogicalScalar l
  else if eltype = "uint8" then loadRealScalar .uint8_t l
  else if eltype = "uint16" then loadRealScalar .uint16_t l
  else if eltype = "uint32" then loadRealScalar .uint32_t l
  else if eltype = "uint64" then loadRealScalar .uint64_t l
  else if eltype = "int8" then loadRealScalar .int8_t l
  else if eltype = "int16" then loadRealScalar .int16_t l
  else if eltype = "int32" then loadRealScalar .int32_t l
  else if eltype = "int64" then loadRealScalar .int64_t l
  else loadRealScalar .double l

/-- The matrix branch of `loadStruct`: the chain over the element type of a matrix field. -/
def loadMatrix (l : Location) : Throws mxArray := do
  let eltype ← l.elementType
  if eltype = "bool" then loadLogicalMatrix l
  else if eltype = "uint8" then loadRealMatrix .uint8_t l
  else if eltype = "uint16" then loadRealMatrix .uint16_t l
  else if eltype = "uint32" then loadRealMatrix .uint32_t l
  else if eltype = "uint64" then loadRealMatrix .uint64_t l
  else if eltype = "int8" then loadRealMatrix .int8_t l
  else if eltype = "int16" then loadRealMatrix .int16_t l
  else if eltype = "int32" then loadRealMatrix .int32_t l
  else if eltype = "int64" then loadRealMatrix .int64_t l
  else loadRealMatrix .double l

/-- The string branch of `loadStruct`. -/
def loadString (l : Location) : Throws mxArray := do
  let str ← l.readString
  pure (mxCreateString (c_str str))

end VSOctaveH5ReaderStruct

/-! ## The cell and struct loaders -/

/-- The loop `for(unsigned i=0;i<n;i++) body`, threading the array being filled; an exception
thrown by the body leaves the loop. -/
def forLoop {σ : Type} (n : Nat) (body : Nat → σ → Throws σ) (init : σ) : Throws σ :=
  (List.range n).foldlM (fun st i => body i st) init

/-- The flat cell index `ifield = icol*nrow+irow`, computed in `unsigned`. -/
def cellIndex (nrow irow icol : Nat) : Nat := toUnsigned (icol * nrow + irow)

/-- The function `newStrCpy`: a fresh C string copied from `s` by `strcpy`. -/
def newStrCpy (s : String) : String := c_str s

mutual
/-- The function `loadCell(c)`. -/
def loadCell : VSOctaveH5ReaderCellArray → Throws mxArray
  | .failed e => throw e
  | .mk dims cell => do
    let (nrow, ncol) ← dims.map unsignedPair
    let cv := mxCreateCellMatrix nrow ncol
    forLoop nrow (fun irow cv =>
      forLoop ncol (fun icol cv => do
        let ifield := cellIndex nrow irow icol
        let ev ← loadCell.element (cell irow icol) ifield
        pure (mxSetFieldByNumber cv 0 ifield ev)) cv) cv
/-- The function `loadStruct(s)`. -/
def loadStruct : VSOctaveH5ReaderStruct → Throws mxArray
  | .failed e => throw e
  | .mk names field => do
    let fieldnames ← names
    let nfield := toUnsigned fieldnames.length
    let fnames := (fieldnames.take nfield).map newStrCpy
    let sv := mxCreateStructMatrix nfield fnames
    forLoop nfield (fun ifield sv => do
      let fn := fieldnames.getD ifield ""
      let ev ← loadStruct.element (field fn) ifield
      pure (mxSetFieldByNumber sv 0 ifield ev)) sv
/-- The body of the loop of `loadCell` that computes `ev` for the cell at location `l`. -/
def loadCell.element : Location → Nat → Throws mxArray
  | l@(.mk isStruct isCellArray isString isScalar isMatrix rs rc _ _ _ _ _), ifield => do
    if (← isStruct) then loadStruct rs
    else if (← isCellArray) then loadCell rc
    else if (← isString) then VSOctaveH5ReaderCellArray.loadString l
    else if (← isScalar) then VSOctaveH5ReaderCellArray.loadScalar l
    else if (← isMatrix) then VSOctaveH5ReaderCellArray.loadMatrix l
    else pure (mxCreateDoubleScalar (ifield : ℚ))
/-- The body of the loop of `loadStruct` that computes `ev` for the field at location `l`. -/
def loadStruct.element : Location → Nat → Throws mxArray
  | l@(.mk isStruct isCellArray isString isScalar isMatrix rs rc _ _ _ _ _), ifield => do
    if (← isStruct) then loadStruct rs
    else if (← isCellArray) then loadCell rc
    else if (← isString) then VSOctaveH5ReaderStruct.loadString l
    else if (← isScalar) then VSOctaveH5ReaderStruct.loadScalar l
    else if (← isMatrix) then VSOctaveH5ReaderStruct.loadMatrix l
    else pure (mxCreateDoubleScalar (ifield : ℚ))
end

/-! ## The gateway -/

/-- What MATLAB sees after a call of the MEX function: the output assigned to `plhs[0]`, if
any, and the message of `mexErrMsgTxt`, if it was called. -/
structure MexOutcome where
  plhs0 : Option mxArray
  errmsg : Option String

/-- The call `mexErrMsgTxt(msg)`, which ends the MEX function. -/
def mexErrMsgTxt (msg : String) : MexOutcome := { plhs0 := none, errmsg := some msg }

/-- The gateway `mexFunction(nlhs, plhs, nrhs, prhs)`; `newReader filename` is the reader that
`new VSOctaveH5Reader(filename)` gives. -/
def mexFunction (newReader : String → VSOctaveH5ReaderStruct) (nlhs : Int)
    (prhs : List mxArray) : MexOutcome :=
  let nrhs := prhs.length
  let prhs0 := prhs.headD .null
  if nrhs ≠ 1 then mexErrMsgTxt "One input required."
  else if nlhs > 1 then mexErrMsgTxt "Too many output arguments."
  else if mxIsChar prhs0 ≠ true then mexErrMsgTxt "Input must be a string."
  else if mxGetM prhs0 ≠ 1 then mexErrMsgTxt "Input must be a row vector."
  else
    let filenamelen := toUnsigned (mxGetM prhs0 * mxGetN prhs0 + 1)
    let (status, filenamebuf) := mxGetString prhs0 filenamelen
    if status ≠ 0 then mexErrMsgTxt "Not enough space for filename string."
    else
      match loadStruct (newReader (c_str filenamebuf)) with
      | .ok sv => { plhs0 := some sv, errmsg := none }
      | .error e => mexErrMsgTxt e.message

/-! ## Synthetic sources

Readers built from explicit content, used to run the loaders on concrete inputs. -/

namespace Synthetic

/-- The exception of a query the content does not answer. -/
def noSuch : VSOctaveH5Exception := { message := "no such object" }

/-- A location that answers no to the five predicates and throws on every read. -/
def unrecognized : Location :=
  .mk (.ok false) (.ok false) (.ok false) (.ok false) (.ok false)
    (.failed noSuch) (.failed noSuch) (.error noSuch) (.error noSuch)
    (fun _ => .error noSuch) (.error noSuch) (fun _ => .error noSuch)

/-- A location holding the string `str`. -/
def text (str : String) : Location :=
  .mk (.ok false) (.ok false) (.ok true) (.ok false) (.ok false)
    (.failed noSuch) (.failed noSuch) (.ok str) (.error noSuch)
    (fun _ => .error noSuch) (.error noSuch) (fun _ => .error noSuch)

/-- A location holding one scalar `value` with element type `tag`. -/
def scalar (tag : String) (value : ℚ) : Location :=
  .mk (.ok false) (.ok false) (.ok false) (.ok true) (.ok false)
    (.failed noSuch) (.failed noSuch) (.error noSuch) (.ok tag)
    (fun _ => .ok value) (.ok (1, 1)) (fun _ => .ok [value])

/-- A location holding a `rows`-by-`cols` matrix with element type `tag`. -/
def matrix (tag : String) (rows cols : Nat) (data : List ℚ) : Location :=
  .mk (.ok false) (.ok false) (.ok false) (.ok false) (.ok true)
    (.failed noSuch) (.failed noSuch) (.error noSuch) (.ok tag)
    (fun _ => .error noSuch) (.ok (rows, cols)) (fun _ => .ok data)

/-- A location holding the nested struct read by `rs`. -/
def nested (rs : VSOctaveH5ReaderStruct) : Location :=
  .mk (.ok true) (.ok false) (.ok false) (.ok false) (.ok false)
    rs (.failed noSuch) (.error noSuch) (.error noSuch)
    (fun _ => .error noSuch) (.error noSuch) (fun _ => .error noSuch)

/-- A location holding the nested cell array read by `rc`. -/
def grid (rc : VSOctaveH5ReaderCellArray) : Location :=
  .mk (.ok false) (.ok true) (.ok false) (.ok false) (.ok false)
    (.failed noSuch) rc (.error noSuch) (.error noSuch)
    (fun _ => .error noSuch) (.error noSuch) (fun _ => .error noSuch)

/-- A location at which every query throws `e`. -/
def broken (e : VSOctaveH5Exception) : Location :=
  .mk (.error e) (.error e) (.error e) (.error e) (.error e)
    (.failed e) (.failed e) (.error e) (.error e)
    (fun _ => .error e) (.error e) (fun _ => .error e)

/-- The content of the first field called `fn`. -/
def lookup (fields : List (String × Location)) (fn : String) : Location :=
  match fields with
  | [] => unrecognized
  | (name, l) :: rest => if name = fn then l else lookup rest fn

/-- A struct reader over the listed fields, enumerated in the order given. -/
def structOf (fields : List (String × Location)) : VSOctaveH5ReaderStruct :=
  .mk (.ok (fields.map (fun f => f.1))) (lookup fields)

/-- A cell array reader of the given shape over `cells`, listed column by column. -/
def cellArrayOf (rows cols : Nat) (cells : List Location) : VSOctaveH5ReaderCellArray :=
  .mk (.ok (rows, cols)) (fun row col => cells.getD (col * rows + row) unrecognized)

/-- A cell array reader of the given shape whose cell `(row, col)` is `cells row col`. -/
def cellArrayFn (rows cols : Nat) (cells : Nat → Nat → Location) : VSOctaveH5ReaderCellArray :=
  .mk (.ok (rows, cols)) cells

/-- The struct of the first scenario of section 8. -/
def sensor : VSOctaveH5ReaderStruct :=
  structOf [("name", text "sensor-1"),
            ("readings", matrix "double" 2 3 [1, 2, 3, 4, 5, 6]),
            ("calibrated", scalar "bool" 1)]

/-- A struct whose single field name contains a NUL character. -/
def nulNamed : VSOctaveH5ReaderStruct := structOf [("a\x00b", text "v")]

/-- A struct that enumerates `2^32` distinct field names. -/
def hugeStruct : VSOctaveH5ReaderStruct :=
  .mk (.ok ((List.range UINT_RANGE).map (fun i => "f" ++ toString i))) (fun _ => unrecognized)

end Synthetic

/-! ## Auxiliary definitions for the statements -/

/-- The value of a load that succeeded. -/
def valueOrNull : Throws mxArray → mxArray
  | .ok v => v
  | .error _ => .null

/-- The six ways a location is handled. -/
inductive Handling where
  | struct | cellArray | string | scalar | matrix | unrecognized
deriving DecidableEq, Repr

/-- The classification of section 4.3: the handling of the first predicate that holds, in the
order struct, cell array, string, scalar, matrix, and unrecognized when none holds. -/
def firstThatHolds (isStruct isCellArray isString isScalar isMatrix : Bool) : Handling :=
  match [(isStruct, Handling.struct), (isCellArray, Handling.cellArray),
         (isString, Handling.string), (isScalar, Handling.scalar),
         (isMatrix, Handling.matrix)].find? (fun p => p.1) with
  | some p => p.2
  | none => .unrecognized

/-- What `loadCell` does for a cell once its handling is chosen. -/
def loadCell.handle (l : Location) (ifield : Nat) : Handling → Throws mxArray
  | .struct => loadStruct l.readStruct
  | .cellArray => loadCell l.readCellArray
  | .string => VSOctaveH5ReaderCellArray.loadString l
  | .scalar => VSOctaveH5ReaderCellArray.loadScalar l
  | .matrix => VSOctaveH5ReaderCellArray.loadMatrix l
  | .unrecognized => .ok (mxCreateDoubleScalar (ifield : ℚ))

/-- What `loadStruct` does for a field once its handling is chosen. -/
def loadStruct.handle (l : Location) (ifield : Nat) : Handling → Throws mxArray
  | .struct => loadStruct l.readStruct
  | .cellArray => loadCell l.readCellArray
  | .string => VSOctaveH5ReaderStruct.loadString l
  | .scalar => VSOctaveH5ReaderStruct.loadScalar l
  | .matrix => VSOctaveH5ReaderStruct.loadMatrix l
  | .unrecognized => .ok (mxCreateDoubleScalar (ifield : ℚ))

namespace Synthetic

/-- A location that answers yes to both `isString` and `isMatrix`. -/
def stringAndMatrix : Location :=
  .mk (.ok false) (.ok false) (.ok true) (.ok false) (.ok true)
    (.failed noSuch) (.failed noSuch) (.ok "both") (.ok "double")
    (fun _ => .error noSuch) (.ok (1, 2)) (fun _ => .ok [7, 8])

/-- A location that answers yes to both `isScalar` and `isMatrix`. -/
def scalarAndMatrix : Location :=
  .mk (.ok false) (.ok false) (.ok false) (.ok true) (.ok true)
    (.failed noSuch) (.failed noSuch) (.error noSuch) (.ok "int16")
    (fun _ => .ok 5) (.ok (1, 1)) (fun _ => .ok [5])

end Synthetic

/-- The eleven element kinds of section 4.1. -/
inductive ElementKind where
  | Bool | UInt8 | UInt16 | UInt32 | UInt64 | Int8 | Int16 | Int32 | Int64 | Float32 | Float64
deriving DecidableEq, Repr

/-- The tags the resolver recognizes, with their kinds. -/
def recognizedTags : List (String × ElementKind) :=
  [("bool", .Bool), ("uint8", .UInt8), ("uint16", .UInt16), ("uint32", .UInt32),
   ("uint64", .UInt64), ("int8", .Int8), ("int16", .Int16), ("int32", .Int32),
   ("int64", .Int64)]

/-- The element-kind resolver of section 4.1: an exact match against the recognized tags, and
`Float64` for every other tag. -/
def resolveKind (tag : String) : ElementKind :=
  match recognizedTags.lookup tag with
  | some k => k
  | none => .Float64

/-- The C++ type that holds one element of a numeric kind. -/
def ElementKind.ctype : ElementKind → CType
  | .Bool => .mxLogical
  | .UInt8 => .uint8_t
  | .UInt16 => .uint16_t
  | .UInt32 => .uint32_t
  | .UInt64 => .uint64_t
  | .Int8 => .int8_t
  | .Int16 => .int16_t
  | .Int32 => .int32_t
  | .Int64 => .int64_t
  | .Float32 => .float
  | .Float64 => .double

/-- The scalar decoder of a kind. `logical` and `real` are the two primitive loaders of the
dispatch chain at hand. -/
def decodeWith (logical : Location → Throws mxArray)
    (real : CType → Location → Throws mxArray) (k : ElementKind) (l : Location) :
    Throws mxArray :=
  match k with
  | .Bool => logical l
  | k => real k.ctype l

/-- The class of an array (`mxGetClassID`). -/
def mxGetClassID : mxArray → mxClassID
  | .null => .mxUNKNOWN_CLASS
  | .logical _ _ _ => .mxLOGICAL_CLASS
  | .numeric classid _ _ _ => classid
  | .char _ _ _ => .mxCHAR_CLASS
  | .struct _ _ => .mxSTRUCT_CLASS
  | .cell _ _ _ => .mxCELL_CLASS

/-- The MATLAB class that has the width and signedness of an element kind. -/
def ElementKind.classid : ElementKind → mxClassID
  | .Bool => .mxLOGICAL_CLASS
  | .UInt8 => .mxUINT8_CLASS
  | .UInt16 => .mxUINT16_CLASS
  | .UInt32 => .mxUINT32_CLASS
  | .UInt64 => .mxUINT64_CLASS
  | .Int8 => .mxINT8_CLASS
  | .Int16 => .mxINT16_CLASS
  | .Int32 => .mxINT32_CLASS
  | .Int64 => .mxINT64_CLASS
  | .Float32 => .mxSINGLE_CLASS
  | .Float64 => .mxDOUBLE_CLASS

/-- A tag for each element kind: the recognized tag of the kind, `double` and `float` for the
two floating-point kinds. -/
def ElementKind.tag : ElementKind → String
  | .Bool => "bool"
  | .UInt8 => "uint8"
  | .UInt16 => "uint16"
  | .UInt32 => "uint32"
  | .UInt64 => "uint64"
  | .Int8 => "int8"
  | .Int16 => "int16"
  | .Int32 => "int32"
  | .Int64 => "int64"
  | .Float32 => "float"
  | .Float64 => "double"

/-- The 1-by-2 cell grid of the second scenario of section 8: a 32-bit integer 42 and a nested
struct whose field `x` holds the 32-bit float 1.5. -/
def Synthetic.mixedGrid : VSOctaveH5ReaderCellArray :=
  cellArrayOf 1 2 [scalar "int32" 42, nested (structOf [("x", scalar "float" 1.5)])]

/-- The order in which the two nested loops of `loadCell` visit the cells: row by row, and
within a row column by column. -/
def cellOrder (nrow ncol : Nat) : List (Nat × Nat) :=
  (List.range nrow).flatMap (fun irow => (List.range ncol).map (fun icol => (irow, icol)))

/-- The cells of a grid after the loops of `loadCell` stored `val irow icol` for every cell, in
the order of the visit. -/
def storedCells (nrow ncol : Nat) (val : Nat → Nat → mxArray) : List mxArray :=
  (cellOrder nrow ncol).foldl
    (fun data p => data.set (cellIndex nrow p.1 p.2) (val p.1 p.2))
    (List.replicate (nrow * ncol) .null)

/-- The value that `loadCell` computes for the cell `(irow, icol)` of a grid with `nrow` rows. -/
def VSOctaveH5ReaderCellArray.cellValue (c : VSOctaveH5ReaderCellArray) (nrow irow icol : Nat) :
    Throws mxArray :=
  match c with
  | .failed e => .error e
  | .mk _ cell => loadCell.element (cell irow icol) (cellIndex nrow irow icol)

/-- The value that `loadStruct` computes for the field called `fn` at position `ifield`. -/
def VSOctaveH5ReaderStruct.fieldValue (s : VSOctaveH5ReaderStruct) (fn : String) (ifield : Nat) :
    Throws mxArray :=
  match s with
  | .failed e => .error e
  | .mk _ field => loadStruct.element (field fn) ifield

/-- A grid of 2 rows and `2^31 + 1` columns, every cell unrecognized. -/
def Synthetic.wideGrid : VSOctaveH5ReaderCellArray :=
  cellArrayFn 2 (2 ^ 31 + 1) (fun _ _ => unrecognized)

/-- A grid of 2 rows and 3 columns whose cell `(row, col)` holds a string naming the cell. -/
def Synthetic.labelledGrid : VSOctaveH5ReaderCellArray :=
  cellArrayFn 2 3 (fun row col =>
    match row, col with
    | 0, 0 => text "r0c0"
    | 0, 1 => text "r0c1"
    | 0, 2 => text "r0c2"
    | 1, 0 => text "r1c0"
    | 1, 1 => text "r1c1"
    | _, _ => text "r1c2")

/-- A node of the source tree that a loader is called on: a struct reader or a cell array
reader. -/
inductive Reader where
  | struct (s : VSOctaveH5ReaderStruct)
  | cellArray (c : VSOctaveH5ReaderCellArray)

/-- The loader of a node. -/
def Reader.load : Reader → Throws mxArray
  | .struct s => loadStruct s
  | .cellArray c => loadCell c

/-- The nested reader that the dispatch of `loadCell` and `loadStruct` descends into at a
location: the struct reader when `isStruct` holds, the cell array reader when it does not and
`isCellArray` holds. -/
inductive Location.Opens : Location → Reader → Prop where
  | struct (l : Location) : l.isStruct = .ok true → Location.Opens l (.struct l.readStruct)
  | cellArray (l : Location) : l.isStruct = .ok false → l.isCellArray = .ok true →
      Location.Opens l (.cellArray l.readCellArray)

/-- One step down the source tree, as the loaders take it: from a struct reader to the nested
reader of one of its enumerated fields, from a cell array reader to the nested reader of one of
its cells. -/
inductive Descends : Reader → Reader → Prop where
  | field (s : VSOctaveH5ReaderStruct) (names : List String) (ifield : Nat) (l : Location)
      (child : Reader) :
      s.variables_ = .ok names → ifield < toUnsigned names.length →
      s.loc (names.getD ifield "") = .ok l → l.Opens child → Descends (.struct s) child
  | cell (c : VSOctaveH5ReaderCellArray) (nrow ncol irow icol : Nat) (l : Location)
      (child : Reader) :
      c.dimensions = .ok (nrow, ncol) → irow < nrow → icol < ncol →
      c.loc irow icol = .ok l → l.Opens child → Descends (.cellArray c) child

/-- A nested reader whose enumeration throws `e`. -/
def Synthetic.brokenStruct (e : VSOctaveH5Exception) : VSOctaveH5ReaderStruct :=
  .mk (.error e) (fun _ => unrecognized)

/-- A file whose root struct holds, three levels down (struct, grid, struct), a scalar whose
read throws. -/
def Synthetic.deepFailure : VSOctaveH5ReaderStruct :=
  structOf [("ok", text "fine"),
            ("outer", nested (structOf
              [("grid", grid (cellArrayOf 1 2
                [scalar "int8" 1,
                 nested (structOf [("leaf",
                   .mk (.ok false) (.ok false) (.ok false) (.ok true) (.ok false)
                     (.failed noSuch) (.failed noSuch) (.error noSuch) (.ok "double")
                     (fun _ => .error { message := "truncated file" }) (.error noSuch)
                     (fun _ => .error noSuch))])]))])),
            ("after", text "never read")]


/-- The C++ type a scalar of the given kind is read into. -/
def ElementKind.scalarType : ElementKind → CType
  | .Bool => .unsigned
  | k => k.ctype

/-- The ways the queries of one location make the dispatch of the loaders throw `e`: a
predicate that is reached throws, or the location is a string, a scalar or a matrix and one of
the reads of its decoder throws. -/
inductive Location.LeafFailure (l : Location) (e : VSOctaveH5Exception) : Prop where
  | isStruct : l.isStruct = .error e → Location.LeafFailure l e
  | isCellArray : l.isStruct = .ok false → l.isCellArray = .error e → Location.LeafFailure l e
  | isString : l.isStruct = .ok false → l.isCellArray = .ok false → l.isString = .error e →
      Location.LeafFailure l e
  | readString : l.isStruct = .ok false → l.isCellArray = .ok false → l.isString = .ok true →
      l.readString = .error e → Location.LeafFailure l e
  | isScalar : l.isStruct = .ok false → l.isCellArray = .ok false → l.isString = .ok false →
      l.isScalar = .error e → Location.LeafFailure l e
  | scalarType : l.isStruct = .ok false → l.isCellArray = .ok false → l.isString = .ok false →
      l.isScalar = .ok true → l.elementType = .error e → Location.LeafFailure l e
  | readScalar (tag : String) : l.isStruct = .ok false → l.isCellArray = .ok false →
      l.isString = .ok false → l.isScalar = .ok true → l.elementType = .ok tag →
      l.readScalar (resolveKind tag).scalarType = .error e → Location.LeafFailure l e
  | isMatrix : l.isStruct = .ok false → l.isCellArray = .ok false → l.isString = .ok false →
      l.isScalar = .ok false → l.isMatrix = .error e → Location.LeafFailure l e
  | matrixType : l.isStruct = .ok false → l.isCellArray = .ok false → l.isString = .ok false →
      l.isScalar = .ok false → l.isMatrix = .ok true → l.elementType = .error e →
      Location.LeafFailure l e
  | dimensions (tag : String) : l.isStruct = .ok false → l.isCellArray = .ok false →
      l.isString = .ok false → l.isScalar = .ok false → l.isMatrix = .ok true →
      l.elementType = .ok tag → l.dimensions = .error e → Location.LeafFailure l e
  | readMatrix (tag : String) (d : Nat × Nat) : l.isStruct = .ok false →
      l.isCellArray = .ok false → l.isString = .ok false → l.isScalar = .ok false →
      l.isMatrix = .ok true → l.elementType = .ok tag → l.dimensions = .ok d →
      l.readMatrix (resolveKind tag).ctype = .error e → Location.LeafFailure l e

/-- One step down the source tree to the nested reader of the first element that can fail: every
field before it, or every cell visited before it, has its value computed. -/
inductive FirstFailure : Reader → Reader → Prop where
  | field (s : VSOctaveH5ReaderStruct) (names : List String) (ifield : Nat) (l : Location)
      (child : Reader) :
      s.variables_ = .ok names → ifield < toUnsigned names.length →
      (∀ i, i < ifield → ∃ v, s.fieldValue (names.getD i "") i = .ok v) →
      s.loc (names.getD ifield "") = .ok l → l.Opens child → FirstFailure (.struct s) child
  | cell (c : VSOctaveH5ReaderCellArray) (nrow ncol irow icol : Nat) (l : Location)
      (child : Reader) :
      c.dimensions = .ok (nrow, ncol) → irow < nrow → icol < ncol →
      (∀ r k, r < nrow → k < ncol → (r < irow ∨ (r = irow ∧ k < icol)) →
        ∃ v, c.cellValue nrow r k = .ok v) →
      c.loc irow icol = .ok l → l.Opens child → FirstFailure (.cellArray c) child

/-- A 2-by-2 grid in which the cell `(0, 1)` and the cell `(1, 0)` both throw, each its own
exception, and the two other cells hold strings. -/
def Synthetic.twoFailures : VSOctaveH5ReaderCellArray :=
  cellArrayFn 2 2 (fun row col =>
    match row, col with
    | 0, 1 => broken { message := "cell (0,1)" }
    | 1, 0 => broken { message := "cell (1,0)" }
    | _, _ => text "fine")

mutual
/-- The synthetic source of a value tree: every node answers the predicate that matches it, its
element tag, its dimensions and its data.  A struct answers by field name, a cell array by row
and column (cells listed column by column), a logical matrix carries the tag `bool`, a numeric
scalar the tag `int64`. -/
def encode : mxArray → Location
  | .null => Synthetic.unrecognized
  | .logical m n data => Synthetic.matrix "bool" m n (data.map (fun b => if b then 1 else 0))
  | .numeric _ _ _ data => Synthetic.scalar "int64" (data.headD 0)
  | .char _ _ text => Synthetic.text text
  | .struct names fields =>
      Synthetic.nested (.mk (.ok names) (Synthetic.lookup (names.zip (encodeAll fields))))
  | .cell m n data => Synthetic.grid (Synthetic.cellArrayOf m n (encodeAll data))
/-- The synthetic sources of a list of value trees. -/
def encodeAll : List mxArray → List Location
  | [] => []
  | t :: ts => encode t :: encodeAll ts
end

/-- The synthetic struct reader of the root struct with the given field names and values. -/
def encodeStruct (names : List String) (fields : List mxArray) : VSOctaveH5ReaderStruct :=
  .mk (.ok names) (Synthetic.lookup (names.zip (encodeAll fields)))

/-- The value trees that decoding gives back: strings without NUL, logical matrices, signed
64-bit integer scalars, structs with as many values as names, fewer than `2^32` names, all
distinct and without NUL, and grids of at most `2^32` cells. -/
inductive ValueTree : mxArray → Prop where
  | text (s : String) : c_str s = s → ValueTree (.char 1 s.length s)
  | boolMatrix (m n : Nat) (data : List Bool) : m < UINT_RANGE → n < UINT_RANGE →
      data.length = m * n → ValueTree (.logical m n data)
  | int64 (v : ℚ) : ValueTree (.numeric .mxINT64_CLASS 1 1 [v])
  | struct (names : List String) (fields : List mxArray) :
      names.length = fields.length → names.length < UINT_RANGE → names.Nodup →
      (∀ fn, fn ∈ names → c_str fn = fn) → (∀ t, t ∈ fields → ValueTree t) →
      ValueTree (.struct names fields)
  | cell (m n : Nat) (data : List mxArray) : m < UINT_RANGE → n < UINT_RANGE →
      m * n ≤ UINT_RANGE → data.length = m * n → (∀ t, t ∈ data → ValueTree t) →
      ValueTree (.cell m n data)


/-- The tree of the round-trip scenario of section 8: a struct holding a nested struct, a nested
1-by-2 cell grid, a string, a 2-by-2 logical matrix and a signed 64-bit scalar. -/
def Synthetic.sampleFields : List mxArray :=
  [.struct ["x"] [.numeric .mxINT64_CLASS 1 1 [7]],
   .cell 1 2 [mxCreateString "a", .numeric .mxINT64_CLASS 1 1 [2]],
   mxCreateString "hello",
   .logical 2 2 [true, false, false, true],
   .numeric .mxINT64_CLASS 1 1 [-5]]

/-- The field names of the round-trip scenario. -/
def Synthetic.sampleNames : List String := ["inner", "grid", "label", "mask", "count"]

/-- A struct reader whose enumeration repeats the name `a`. -/
def Synthetic.repeatedName : VSOctaveH5ReaderStruct :=
  .mk (.ok ["a", "b", "a"]) (Synthetic.lookup [("a", text "first"), ("b", text "second")])

/-- A struct reader with two distinct names that agree up to their first NUL character. -/
def Synthetic.nulTwins : VSOctaveH5ReaderStruct :=
  structOf [("a\x00b", text "first"), ("a\x00c", text "second")]

/-- A grid of 2 rows and `2^31 + 1` columns whose cells hold the string `same`, except the cell
`(0, 2^31)`, which holds the string `last`. -/
def Synthetic.wideGridEnding (last : String) : VSOctaveH5ReaderCellArray :=
  cellArrayFn 2 (2 ^ 31 + 1)
    (fun row col => if row = 0 ∧ col = 2 ^ 31 then text last else text "same")

/-- A struct with the fields `first` and `probe`, the second holding the string `probe`. -/
def Synthetic.pairWith (first : Location) : VSOctaveH5ReaderStruct :=
  structOf [("first", first), ("probe", text "probe")]

mutual
/-- The nesting depth of a struct reader, as the loader walks it: one more than the deepest
nested reader that the dispatch opens at one of the enumerated fields. -/
def VSOctaveH5ReaderStruct.nestingDepth : VSOctaveH5ReaderStruct → Nat
  | .failed _ => 0
  | .mk (.error _) _ => 0
  | .mk (.ok names) field =>
      1 + (List.range (toUnsigned names.length)).foldl
        (fun m i => max m (Location.nestingDepth (field (names.getD i "")))) 0
/-- The nesting depth of a cell array reader: one more than the deepest nested reader that the
dispatch opens at one of its cells. -/
def VSOctaveH5ReaderCellArray.nestingDepth : VSOctaveH5ReaderCellArray → Nat
  | .failed _ => 0
  | .mk (.error _) _ => 0
  | .mk (.ok d) cell =>
      1 + (cellOrder (toUnsigned d.1) (toUnsigned d.2)).foldl
        (fun m p => max m (Location.nestingDepth (cell p.1 p.2))) 0
/-- The nesting depth below a location: that of the nested reader the dispatch opens there,
0 when it opens none. -/
def Location.nestingDepth : Location → Nat
  | .mk (.ok true) _ _ _ _ rs _ _ _ _ _ _ => VSOctaveH5ReaderStruct.nestingDepth rs
  | .mk (.ok false) (.ok true) _ _ _ _ rc _ _ _ _ _ => VSOctaveH5ReaderCellArray.nestingDepth rc
  | _ => 0
end

/-- The nesting depth of a node of the source tree. -/
def Reader.nestingDepth : Reader → Nat
  | .struct s => s.nestingDepth
  | .cellArray c => c.nestingDepth

/-- An output tree without an unset slot: no field of a struct and no cell of a grid, at any
depth, is `null`, and the tree itself is not. -/
inductive NoNull : mxArray → Prop where
  | logical (m n : Nat) (data : List Bool) : NoNull (.logical m n data)
  | numeric (classid : mxClassID) (m n : Nat) (data : List ℚ) : NoNull (.numeric classid m n data)
  | char (m n : Nat) (text : String) : NoNull (.char m n text)
  | struct (names : List String) (fields : List mxArray) :
      (∀ v, v ∈ fields → NoNull v) → NoNull (.struct names fields)
  | cell (m n : Nat) (data : List mxArray) :
      (∀ v, v ∈ data → NoNull v) → NoNull (.cell m n data)

/-- An output tree in which every grid, at any depth, has at most `2^32` cells. -/
inductive GridsWithin : mxArray → Prop where
  | null : GridsWithin .null
  | logical (m n : Nat) (data : List Bool) : GridsWithin (.logical m n data)
  | numeric (classid : mxClassID) (m n : Nat) (data : List ℚ) :
      GridsWithin (.numeric classid m n data)
  | char (m n : Nat) (text : String) : GridsWithin (.char m n text)
  | struct (names : List String) (fields : List mxArray) :
      (∀ v, v ∈ fields → GridsWithin v) → GridsWithin (.struct names fields)
  | cell (m n : Nat) (data : List mxArray) : m * n ≤ UINT_RANGE →
      (∀ v, v ∈ data → GridsWithin v) → GridsWithin (.cell m n data)

/-- A file whose root struct holds the grid of 2 rows and `2^31 + 1` columns. -/
def Synthetic.wideFile : VSOctaveH5ReaderStruct := structOf [("g", grid wideGrid)]

/-! # Theorems -/

open Synthetic

/-! ## Loops -/

theorem forLoop_zero {σ : Type} (body : Nat → σ → Throws σ) (init : σ) :
    forLoop 0 body init = .ok init := by
  simp [forLoop, pure, Except.pure]

theorem forLoop_succ {σ : Type} (n : Nat) (body : Nat → σ → Throws σ) (init : σ) :
    forLoop (n + 1) body init = forLoop n body init >>= body n := by
  simp [forLoop, List.range_succ, List.foldlM_append]

/-- A loop whose body succeeds at every index runs to the end. -/
theorem forLoop_ok {σ : Type} (n : Nat) (body : Nat → σ → Throws σ) (step : Nat → σ → σ)
    (init : σ) (h : ∀ i, i < n → ∀ st, body i st = .ok (step i st)) :
    forLoop n body init = .ok ((List.range n).foldl (fun st i => step i st) init) := by
  induction n with
  | zero => simp [forLoop_zero]
  | succ n ih =>
    rw [forLoop_succ, ih (fun i hi => h i (Nat.lt_succ_of_lt hi))]
    simp [List.range_succ, List.foldl_append, bind, Except.bind, h n (Nat.lt_succ_self n)]

/-- A loop ends with the exception of the first index at which the body throws. -/
theorem forLoop_error {σ : Type} (n k : Nat) (body : Nat → σ → Throws σ) (step : Nat → σ → σ)
    (init : σ) (e : VSOctaveH5Exception) (hk : k < n)
    (h : ∀ i, i < k → ∀ st, body i st = .ok (step i st))
    (he : ∀ st, body k st = .error e) :
    forLoop n body init = .error e := by
  induction n with
  | zero => omega
  | succ n ih =>
    rw [forLoop_succ]
    rcases Nat.lt_succ_iff_lt_or_eq.mp hk with hlt | heq
    · rw [ih hlt]; rfl
    · subst heq
      rw [forLoop_ok k body step init h]
      simp [bind, Except.bind, he]

/-- A loop that ran to the end succeeded at every index. -/
theorem forLoop_inv {σ : Type} (n : Nat) (body : Nat → σ → Throws σ) (step : Nat → σ → σ)
    (P : Nat → Prop) (init out : σ)
    (h : ∀ i, i < n → ∀ st st2, body i st = .ok st2 → P i ∧ st2 = step i st)
    (hrun : forLoop n body init = .ok out) :
    (∀ i, i < n → P i) ∧ out = (List.range n).foldl (fun st i => step i st) init := by
  induction n generalizing out with
  | zero =>
    rw [forLoop_zero] at hrun
    cases hrun
    simp
  | succ n ih =>
    rw [forLoop_succ] at hrun
    cases hmid : forLoop n body init with
    | error e => rw [hmid] at hrun; cases hrun
    | ok mid =>
      rw [hmid] at hrun
      have ⟨hP, hm⟩ := ih mid (fun i hi => h i (Nat.lt_succ_of_lt hi)) hmid
      have ⟨hPn, ho⟩ := h n (Nat.lt_succ_self n) mid out hrun
      refine ⟨?_, ?_⟩
      · intro i hi
        rcases Nat.lt_succ_iff_lt_or_eq.mp hi with hlt | heq
        · exact hP i hlt
        · subst heq; exact hPn
      · rw [ho, hm]
        simp [List.range_succ, List.foldl_append]

theorem eq_ok_valueOrNull {r : Throws mxArray} {v : mxArray} (h : r = .ok v) :
    r = .ok (valueOrNull r) := by
  subst h; rfl

/-- Writing `v i` at every index `i < n` of a list with at least `n` slots. -/
theorem foldl_set_range {α : Type} (v : Nat → α) (n : Nat) (init : List α)
    (hn : n ≤ init.length) :
    (List.range n).foldl (fun l i => l.set i (v i)) init
      = (List.range n).map v ++ init.drop n := by
  induction n with
  | zero => simp
  | succ n ih =>
    have hlt : n < init.length := hn
    rw [List.range_succ, List.foldl_append, ih (Nat.le_of_lt hlt)]
    have hlen : ((List.range n).map v).length = n := by simp
    simp only [List.foldl_cons, List.foldl_nil, List.map_append, List.map_cons, List.map_nil]
    rw [List.set_append_right _ _ (by simp), hlen, Nat.sub_self]
    rw [List.drop_eq_getElem_cons hlt, List.set_cons_zero]
    simp

theorem foldl_setField_struct (names : List String) (v : Nat → mxArray) (idx : List Nat)
    (fields : List mxArray) :
    idx.foldl (fun sv i => mxSetFieldByNumber sv 0 i (v i)) (mxArray.struct names fields)
      = mxArray.struct names (idx.foldl (fun l i => l.set i (v i)) fields) := by
  induction idx generalizing fields with
  | nil => rfl
  | cons i rest ih =>
    simp only [List.foldl_cons]
    exact ih (fields.set i (v i))

theorem toUnsigned_of_lt {n : Nat} (h : n < UINT_RANGE) : toUnsigned n = n :=
  Nat.mod_eq_of_lt h

theorem bind_eq_ok {α β : Type} {x : Throws α} {f : α → Throws β} {b : β}
    (h : x >>= f = .ok b) : ∃ a, x = .ok a ∧ f a = .ok b := by
  cases x with
  | error e => cases h
  | ok a => exact ⟨a, rfl, h⟩

/-- The struct that `loadStruct` returns when it returns. -/
theorem loadStruct_ok_inv (names : Throws (List String)) (field : String → Location)
    (sv : mxArray) (hload : loadStruct (.mk names field) = .ok sv) :
    ∃ fieldnames, names = .ok fieldnames ∧
      (∀ i, i < toUnsigned fieldnames.length →
        loadStruct.element (field (fieldnames.getD i "")) i
          = .ok (valueOrNull (loadStruct.element (field (fieldnames.getD i "")) i))) ∧
      sv = .struct ((fieldnames.take (toUnsigned fieldnames.length)).map newStrCpy)
            ((List.range (toUnsigned fieldnames.length)).map
              (fun i => valueOrNull (loadStruct.element (field (fieldnames.getD i "")) i))) := by
  rw [loadStruct] at hload
  obtain ⟨fieldnames, hn, hrun⟩ := bind_eq_ok hload
  refine ⟨fieldnames, hn, ?_⟩
  have key := forLoop_inv (toUnsigned fieldnames.length) _
    (fun i sv => mxSetFieldByNumber sv 0 i
      (valueOrNull (loadStruct.element (field (fieldnames.getD i "")) i)))
    (fun i => loadStruct.element (field (fieldnames.getD i "")) i
          = .ok (valueOrNull (loadStruct.element (field (fieldnames.getD i "")) i)))
    _ sv ?_ hrun
  · refine ⟨key.1, ?_⟩
    rw [key.2, mxCreateStructMatrix, foldl_setField_struct, foldl_set_range _ _ _ (by simp)]
    simp
  · intro i _ st st2 hb
    dsimp only at hb
    obtain ⟨ev, hev, hst⟩ := bind_eq_ok hb
    refine ⟨eq_ok_valueOrNull hev, ?_⟩
    show st2 = mxSetFieldByNumber st 0 i
      (valueOrNull (loadStruct.element (field (fieldnames.getD i "")) i))
    rw [hev]
    cases hst
    rfl

/-! ## C1: field names and field values of a loaded struct -/

/-- The run of `loadStruct` on a reader whose enumeration succeeds. -/
theorem loadStruct_mk_ok (fieldnames : List String) (field : String → Location) :
    loadStruct (.mk (.ok fieldnames) field)
      = forLoop (toUnsigned fieldnames.length)
          (fun ifield sv => do
            let ev ← loadStruct.element (field (fieldnames.getD ifield "")) ifield
            pure (mxSetFieldByNumber sv 0 ifield ev))
          (mxCreateStructMatrix (toUnsigned fieldnames.length)
            ((fieldnames.take (toUnsigned fieldnames.length)).map newStrCpy)) := by
  rw [loadStruct]
  rfl

/-- A struct reader that enumerates exactly `2^32` names loads as the struct without fields. -/
theorem loadStruct_wraps_count (fieldnames : List String) (field : String → Location)
    (h : fieldnames.length = UINT_RANGE) :
    loadStruct (.mk (.ok fieldnames) field) = .ok (.struct [] []) := by
  have h0 : toUnsigned fieldnames.length = 0 := by
    rw [h]; exact Nat.mod_self _
  rw [loadStruct_mk_ok, h0, forLoop_zero]
  simp [mxCreateStructMatrix]

/-- C1, as stated, fails: a field name is cut at a NUL character on its way to the output, and
a count of `2^32` names is 0 as an `unsigned`, so the struct of `2^32` fields loads as the empty
struct. -/
theorem c1_counterexample :
    (nulNamed.variables_ = .ok ["a\x00b"]
      ∧ loadStruct nulNamed = .ok (.struct ["a"] [mxCreateString "v"])
      ∧ ["a"] ≠ ["a\x00b"])
    ∧ (∃ names, hugeStruct.variables_ = .ok names ∧ names.length = UINT_RANGE
      ∧ loadStruct hugeStruct = .ok (.struct [] [])) := by
  exact ⟨⟨rfl, rfl, by decide⟩, _, rfl, List.length_map _ _ |>.trans (List.length_range _),
    loadStruct_wraps_count _ _ (List.length_map _ _ |>.trans (List.length_range _))⟩

/-- C1 (amended): for every struct reader that enumerates fewer than `2^32` names, none with a
NUL character, and whose load succeeds, the result is a struct whose field names are the
enumeration itself, in the same order and of the same length, and whose `i`-th value is what
the loop body of `loadStruct` computes at index `i` for the location of the `i`-th name. -/
theorem loadStruct_preserves_enumeration (s : VSOctaveH5ReaderStruct) (names : List String)
    (sv : mxArray) (hvars : s.variables_ = .ok names) (hcount : names.length < UINT_RANGE)
    (hnul : ∀ fn, fn ∈ names → c_str fn = fn) (hload : loadStruct s = .ok sv) :
    ∃ vals, sv = .struct names vals ∧ vals.length = names.length ∧
      ∀ i fn, names[i]? = some fn →
        ∃ l v, s.loc fn = .ok l ∧ loadStruct.element l i = .ok v ∧ vals[i]? = some v := by
  cases s with
  | failed e => cases hvars
  | mk ns field =>
    obtain ⟨fieldnames, hn, helem, hsv⟩ := loadStruct_ok_inv ns field sv hload
    have hnames : fieldnames = names := by
      simp only [VSOctaveH5ReaderStruct.variables_] at hvars
      rw [hn] at hvars
      cases hvars
      rfl
    subst hnames
    rw [toUnsigned_of_lt hcount] at helem hsv
    have hmap : (fieldnames.take fieldnames.length).map newStrCpy = fieldnames := by
      rw [List.take_length]
      conv_rhs => rw [← List.map_id fieldnames]
      exact List.map_congr_left (fun fn hfn => hnul fn hfn)
    rw [hmap] at hsv
    refine ⟨_, hsv, by simp, ?_⟩
    intro i fn hi
    obtain ⟨hlt, hget⟩ := List.getElem?_eq_some_iff.mp hi
    have hfn : fieldnames.getD i "" = fn := by
      simp [List.getD, hi]
    refine ⟨field fn, valueOrNull (loadStruct.element (field fn) i), rfl, ?_, ?_⟩
    · have := helem i hlt
      rw [hfn] at this
      exact this
    · simp [hlt, hget]

/-- C1, the scenario of section 8: the struct with a string `name`, a 2-by-3 double matrix
`readings` and a boolean `calibrated` loads to those three fields in that order. -/
theorem loadStruct_preserves_enumeration_witness :
    loadStruct sensor
        = .ok (.struct ["name", "readings", "calibrated"]
            [mxCreateString "sensor-1", .numeric .mxDOUBLE_CLASS 2 3 [1, 2, 3, 4, 5, 6],
             .logical 1 1 [true]])
    ∧ ∃ vals, mxArray.struct ["name", "readings", "calibrated"]
            [mxCreateString "sensor-1", .numeric .mxDOUBLE_CLASS 2 3 [1, 2, 3, 4, 5, 6],
             .logical 1 1 [true]] = .struct ["name", "readings", "calibrated"] vals
        ∧ vals.length = ["name", "readings", "calibrated"].length
        ∧ ∀ i fn, ["name", "readings", "calibrated"][i]? = some fn →
            ∃ l v, sensor.loc fn = .ok l ∧ loadStruct.element l i = .ok v ∧ vals[i]? = some v :=
  ⟨rfl, loadStruct_preserves_enumeration sensor ["name", "readings", "calibrated"] _ rfl
    (by decide)
    (by
      intro fn hfn
      simp only [List.mem_cons, List.mem_singleton, List.not_mem_nil, or_false] at hfn
      rcases hfn with h | h | h <;> subst h <;> rfl)
    rfl⟩

/-! ## C2: precedence of the five predicates -/

/-- C2: in `loadCell` and in `loadStruct` alike, a location whose five predicates answer
`b1 .. b5` is handled as the first predicate that holds prescribes, in the order struct, cell
array, string, scalar, matrix; it is unrecognized exactly when none holds. -/
theorem dispatch_first_predicate (l : Location) (ifield : Nat) (b1 b2 b3 b4 b5 : Bool)
    (h1 : l.isStruct = .ok b1) (h2 : l.isCellArray = .ok b2) (h3 : l.isString = .ok b3)
    (h4 : l.isScalar = .ok b4) (h5 : l.isMatrix = .ok b5) :
    loadCell.element l ifield = loadCell.handle l ifield (firstThatHolds b1 b2 b3 b4 b5)
    ∧ loadStruct.element l ifield = loadStruct.handle l ifield (firstThatHolds b1 b2 b3 b4 b5)
    ∧ (firstThatHolds b1 b2 b3 b4 b5 = .unrecognized
        ↔ (b1 = false ∧ b2 = false ∧ b3 = false ∧ b4 = false ∧ b5 = false)) := by
  cases l with
  | mk a1 a2 a3 a4 a5 rs rc str ty sc dims mat =>
    simp only [Location.isStruct, Location.isCellArray, Location.isString, Location.isScalar,
      Location.isMatrix] at h1 h2 h3 h4 h5
    subst h1 h2 h3 h4 h5
    refine ⟨?_, ?_, ?_⟩
    · rw [loadCell.element]
      cases b1 <;> cases b2 <;> cases b3 <;> cases b4 <;> cases b5 <;> rfl
    · rw [loadStruct.element]
      cases b1 <;> cases b2 <;> cases b3 <;> cases b4 <;> cases b5 <;> rfl
    · cases b1 <;> cases b2 <;> cases b3 <;> cases b4 <;> cases b5 <;> decide

/-- C2 at two ambiguous locations: one that is both a string and a matrix is loaded as a
string, one that is both a scalar and a matrix as a scalar, by either loader. -/
theorem dispatch_first_predicate_witness :
    (loadCell.element stringAndMatrix 3 = .ok (mxCreateString "both")
      ∧ loadStruct.element stringAndMatrix 3 = .ok (mxCreateString "both")
      ∧ loadCell.element scalarAndMatrix 3 = .ok (.numeric .mxINT16_CLASS 1 1 [5])
      ∧ loadStruct.element scalarAndMatrix 3 = .ok (.numeric .mxINT16_CLASS 1 1 [5]))
    ∧ (loadCell.element stringAndMatrix 3
          = loadCell.handle stringAndMatrix 3 (firstThatHolds false false true false true)
      ∧ loadStruct.element stringAndMatrix 3
          = loadStruct.handle stringAndMatrix 3 (firstThatHolds false false true false true)
      ∧ (firstThatHolds false false true false true = .unrecognized
        ↔ (false = false ∧ false = false ∧ true = false ∧ false = false ∧ true = false))) :=
  ⟨⟨rfl, rfl, rfl, rfl⟩,
    dispatch_first_predicate stringAndMatrix 3 false false true false true rfl rfl rfl rfl rfl⟩

/-! ## C3: the element-kind resolution of the four dispatch chains -/

theorem beq_false_of_not_eq {a b : String} (h : ¬ a = b) : (a == b) = false := by
  simpa using h

theorem resolveKind_of_not_recognized (tag : String)
    (h : ∀ p, p ∈ recognizedTags → tag ≠ p.1) : resolveKind tag = .Float64 := by
  have h1 := h ("bool", .Bool) (by simp [recognizedTags])
  have h2 := h ("uint8", .UInt8) (by simp [recognizedTags])
  have h3 := h ("uint16", .UInt16) (by simp [recognizedTags])
  have h4 := h ("uint32", .UInt32) (by simp [recognizedTags])
  have h5 := h ("uint64", .UInt64) (by simp [recognizedTags])
  have h6 := h ("int8", .Int8) (by simp [recognizedTags])
  have h7 := h ("int16", .Int16) (by simp [recognizedTags])
  have h8 := h ("int32", .Int32) (by simp [recognizedTags])
  have h9 := h ("int64", .Int64) (by simp [recognizedTags])
  simp only [ne_eq] at h1 h2 h3 h4 h5 h6 h7 h8 h9
  simp [resolveKind, recognizedTags, List.lookup, beq_false_of_not_eq h1,
    beq_false_of_not_eq h2, beq_false_of_not_eq h3, beq_false_of_not_eq h4,
    beq_false_of_not_eq h5, beq_false_of_not_eq h6, beq_false_of_not_eq h7,
    beq_false_of_not_eq h8, beq_false_of_not_eq h9]

theorem chain_eq_decode (logical : Location → Throws mxArray)
    (real : CType → Location → Throws mxArray) (tag : String) (l : Location) :
    (if tag = "bool" then logical l
      else if tag = "uint8" then real .uint8_t l
      else if tag = "uint16" then real .uint16_t l
      else if tag = "uint32" then real .uint32_t l
      else if tag = "uint64" then real .uint64_t l
      else if tag = "int8" then real .int8_t l
      else if tag = "int16" then real .int16_t l
      else if tag = "int32" then real .int32_t l
      else if tag = "int64" then real .int64_t l
      else real .double l) = decodeWith logical real (resolveKind tag) l := by
  split_ifs with h1 h2 h3 h4 h5 h6 h7 h8 h9
  · subst h1; rfl
  · subst h2; rfl
  · subst h3; rfl
  · subst h4; rfl
  · subst h5; rfl
  · subst h6; rfl
  · subst h7; rfl
  · subst h8; rfl
  · subst h9; rfl
  · have : resolveKind tag = .Float64 := by
      simp [resolveKind, recognizedTags, List.lookup, beq_false_of_not_eq h1,
    beq_false_of_not_eq h2, beq_false_of_not_eq h3, beq_false_of_not_eq h4,
    beq_false_of_not_eq h5, beq_false_of_not_eq h6, beq_false_of_not_eq h7,
    beq_false_of_not_eq h8, beq_false_of_not_eq h9]
    rw [this]; rfl

theorem loadScalar_cell_eq (l : Location) (tag : String) (htag : l.elementType = .ok tag) :
    VSOctaveH5ReaderCellArray.loadScalar l
      = decodeWith VSOctaveH5ReaderCellArray.loadLogicalScalar
          VSOctaveH5ReaderCellArray.loadRealScalar (resolveKind tag) l := by
  rw [← chain_eq_decode, VSOctaveH5ReaderCellArray.loadScalar, htag]
  rfl

theorem loadMatrix_cell_eq (l : Location) (tag : String) (htag : l.elementType = .ok tag) :
    VSOctaveH5ReaderCellArray.loadMatrix l
      = decodeWith VSOctaveH5ReaderCellArray.loadLogicalMatrix
          VSOctaveH5ReaderCellArray.loadRealMatrix (resolveKind tag) l := by
  rw [← chain_eq_decode, VSOctaveH5ReaderCellArray.loadMatrix, htag]
  rfl

theorem loadScalar_struct_eq (l : Location) (tag : String) (htag : l.elementType = .ok tag) :
    VSOctaveH5ReaderStruct.loadScalar l
      = decodeWith VSOctaveH5ReaderStruct.loadLogicalScalar
          VSOctaveH5ReaderStruct.loadRealScalar (resolveKind tag) l := by
  rw [← chain_eq_decode, VSOctaveH5ReaderStruct.loadScalar, htag]
  rfl

theorem loadMatrix_struct_eq (l : Location) (tag : String) (htag : l.elementType = .ok tag) :
    VSOctaveH5ReaderStruct.loadMatrix l
      = decodeWith VSOctaveH5ReaderStruct.loadLogicalMatrix
          VSOctaveH5ReaderStruct.loadRealMatrix (resolveKind tag) l := by
  rw [← chain_eq_decode, VSOctaveH5ReaderStruct.loadMatrix, htag]
  rfl

/-- With every scalar read answered, the scalar decoder of any kind returns a value. -/
theorem decode_scalar_returns (l : Location) (k : ElementKind)
    (hread : ∀ T, ∃ v, l.readScalar T = .ok v) :
    (∃ out, decodeWith VSOctaveH5ReaderCellArray.loadLogicalScalar
        VSOctaveH5ReaderCellArray.loadRealScalar k l = .ok out)
    ∧ (∃ out, decodeWith VSOctaveH5ReaderStruct.loadLogicalScalar
        VSOctaveH5ReaderStruct.loadRealScalar k l = .ok out) := by
  constructor
  · cases k <;>
      simp only [decodeWith, VSOctaveH5ReaderCellArray.loadLogicalScalar,
        VSOctaveH5ReaderCellArray.loadRealScalar]
    all_goals first
      | (obtain ⟨v, hv⟩ := hread .unsigned; rw [hv]; exact ⟨_, rfl⟩)
      | (obtain ⟨v, hv⟩ := hread (ElementKind.ctype _); rw [hv]; exact ⟨_, rfl⟩)
  · cases k <;>
      simp only [decodeWith, VSOctaveH5ReaderStruct.loadLogicalScalar,
        VSOctaveH5ReaderStruct.loadRealScalar]
    all_goals first
      | (obtain ⟨v, hv⟩ := hread .unsigned; rw [hv]; exact ⟨_, rfl⟩)
      | (obtain ⟨v, hv⟩ := hread (ElementKind.ctype _); rw [hv]; exact ⟨_, rfl⟩)

/-- With the dimensions and every matrix read answered, the matrix decoder of any kind returns
a value. -/
theorem decode_matrix_returns (l : Location) (k : ElementKind)
    (hdims : ∃ d, l.dimensions = .ok d) (hread : ∀ T, ∃ src, l.readMatrix T = .ok src) :
    (∃ out, decodeWith VSOctaveH5ReaderCellArray.loadLogicalMatrix
        VSOctaveH5ReaderCellArray.loadRealMatrix k l = .ok out)
    ∧ (∃ out, decodeWith VSOctaveH5ReaderStruct.loadLogicalMatrix
        VSOctaveH5ReaderStruct.loadRealMatrix k l = .ok out) := by
  obtain ⟨d, hd⟩ := hdims
  constructor
  · cases k <;>
      simp only [decodeWith, VSOctaveH5ReaderCellArray.loadLogicalMatrix,
        VSOctaveH5ReaderCellArray.loadRealMatrix, hd]
    all_goals first
      | (obtain ⟨v, hv⟩ := hread .mxLogical; rw [hv]; exact ⟨_, rfl⟩)
      | (obtain ⟨v, hv⟩ := hread (ElementKind.ctype _); rw [hv]; exact ⟨_, rfl⟩)
  · cases k <;>
      simp only [decodeWith, VSOctaveH5ReaderStruct.loadLogicalMatrix,
        VSOctaveH5ReaderStruct.loadRealMatrix, hd]
    all_goals first
      | (obtain ⟨v, hv⟩ := hread .mxLogical; rw [hv]; exact ⟨_, rfl⟩)
      | (obtain ⟨v, hv⟩ := hread (ElementKind.ctype _); rw [hv]; exact ⟨_, rfl⟩)

/-- C3: the four dispatch chains (cell scalar, cell matrix, struct scalar, struct matrix)
resolve the element type by one and the same total function of the tag: `bool` gives the
boolean decoder, `uint8 .. uint64` and `int8 .. int64` the decoder of that C type, and every
other tag, `UINT8` and the empty tag among them, the decoder for `double`.  The resolution
itself never throws: when the reads of the location are answered, every chain returns. -/
theorem tag_resolution (l : Location) (tag : String) (htag : l.elementType = .ok tag) :
    (VSOctaveH5ReaderCellArray.loadScalar l
        = decodeWith VSOctaveH5ReaderCellArray.loadLogicalScalar
            VSOctaveH5ReaderCellArray.loadRealScalar (resolveKind tag) l
      ∧ VSOctaveH5ReaderCellArray.loadMatrix l
        = decodeWith VSOctaveH5ReaderCellArray.loadLogicalMatrix
            VSOctaveH5ReaderCellArray.loadRealMatrix (resolveKind tag) l
      ∧ VSOctaveH5ReaderStruct.loadScalar l
        = decodeWith VSOctaveH5ReaderStruct.loadLogicalScalar
            VSOctaveH5ReaderStruct.loadRealScalar (resolveKind tag) l
      ∧ VSOctaveH5ReaderStruct.loadMatrix l
        = decodeWith VSOctaveH5ReaderStruct.loadLogicalMatrix
            VSOctaveH5ReaderStruct.loadRealMatrix (resolveKind tag) l)
    ∧ (resolveKind "bool" = .Bool
      ∧ resolveKind "uint8" = .UInt8 ∧ resolveKind "uint16" = .UInt16
      ∧ resolveKind "uint32" = .UInt32 ∧ resolveKind "uint64" = .UInt64
      ∧ resolveKind "int8" = .Int8 ∧ resolveKind "int16" = .Int16
      ∧ resolveKind "int32" = .Int32 ∧ resolveKind "int64" = .Int64
      ∧ resolveKind "UINT8" = .Float64 ∧ resolveKind "" = .Float64)
    ∧ ((∀ p, p ∈ recognizedTags → tag ≠ p.1) → resolveKind tag = .Float64)
    ∧ ((∀ T, ∃ v, l.readScalar T = .ok v) →
        (∃ out, VSOctaveH5ReaderCellArray.loadScalar l = .ok out)
        ∧ (∃ out, VSOctaveH5ReaderStruct.loadScalar l = .ok out))
    ∧ ((∃ d, l.dimensions = .ok d) → (∀ T, ∃ src, l.readMatrix T = .ok src) →
        (∃ out, VSOctaveH5ReaderCellArray.loadMatrix l = .ok out)
        ∧ (∃ out, VSOctaveH5ReaderStruct.loadMatrix l = .ok out)) := by
  refine ⟨⟨loadScalar_cell_eq l tag htag, loadMatrix_cell_eq l tag htag,
    loadScalar_struct_eq l tag htag, loadMatrix_struct_eq l tag htag⟩,
    ⟨rfl, rfl, rfl, rfl, rfl, rfl, rfl, rfl, rfl, rfl, rfl⟩,
    resolveKind_of_not_recognized tag, ?_, ?_⟩
  · intro hread
    rw [loadScalar_cell_eq l tag htag, loadScalar_struct_eq l tag htag]
    exact decode_scalar_returns l _ hread
  · intro hdims hread
    rw [loadMatrix_cell_eq l tag htag, loadMatrix_struct_eq l tag htag]
    exact decode_matrix_returns l _ hdims hread

/-- C3 at a scalar location tagged `UINT8`: the tag is not recognized (matching is
case-sensitive), so the value is read as a double. -/
theorem tag_resolution_witness :
    (scalar "UINT8" 3).elementType = .ok "UINT8"
    ∧ VSOctaveH5ReaderCellArray.loadScalar (scalar "UINT8" 3)
        = .ok (.numeric .mxDOUBLE_CLASS 1 1 [3])
    ∧ VSOctaveH5ReaderStruct.loadScalar (scalar "UINT8" 3)
        = decodeWith VSOctaveH5ReaderStruct.loadLogicalScalar
            VSOctaveH5ReaderStruct.loadRealScalar (resolveKind "UINT8") (scalar "UINT8" 3) :=
  ⟨rfl, rfl, (tag_resolution (scalar "UINT8" 3) "UINT8" rfl).1.2.2.1⟩

/-! ## The primitive loaders -/

theorem length_fillBuffer {α : Type} (buf src : List α) :
    (fillBuffer buf src).length = buf.length := by
  simp only [fillBuffer, List.length_take, List.length_append, List.length_drop]
  omega

theorem cell_loadLogicalScalar_inv (l : Location) (out : mxArray)
    (h : VSOctaveH5ReaderCellArray.loadLogicalScalar l = .ok out) :
    ∃ v, l.readScalar .unsigned = .ok v ∧ out = .logical 1 1 [decide (v ≠ 0)] := by
  obtain ⟨v, hv, ho⟩ := bind_eq_ok h
  cases ho
  exact ⟨v, hv, rfl⟩

theorem struct_loadLogicalScalar_inv (l : Location) (out : mxArray)
    (h : VSOctaveH5ReaderStruct.loadLogicalScalar l = .ok out) :
    ∃ v, l.readScalar .unsigned = .ok v ∧ out = .logical 1 1 [decide (v ≠ 0)] := by
  obtain ⟨v, hv, ho⟩ := bind_eq_ok h
  cases ho
  exact ⟨v, hv, rfl⟩

theorem cell_loadRealScalar_inv (T : CType) (l : Location) (out : mxArray)
    (h : VSOctaveH5ReaderCellArray.loadRealScalar T l = .ok out) :
    ∃ v, l.readScalar T = .ok v ∧ out = .numeric (ClassID.get T) 1 1 [v] := by
  obtain ⟨v, hv, ho⟩ := bind_eq_ok h
  cases ho
  exact ⟨v, hv, rfl⟩

theorem struct_loadRealScalar_inv (T : CType) (l : Location) (out : mxArray)
    (h : VSOctaveH5ReaderStruct.loadRealScalar T l = .ok out) :
    ∃ v, l.readScalar T = .ok v ∧ out = .numeric (ClassID.get T) 1 1 [v] := by
  obtain ⟨v, hv, ho⟩ := bind_eq_ok h
  cases ho
  exact ⟨v, hv, rfl⟩

theorem cell_loadLogicalMatrix_inv (l : Location) (out : mxArray)
    (h : VSOctaveH5ReaderCellArray.loadLogicalMatrix l = .ok out) :
    ∃ nrow ncol data, l.dimensions = .ok (nrow, ncol)
      ∧ out = .logical nrow ncol data ∧ data.length = nrow * ncol := by
  obtain ⟨d, hd, h2⟩ := bind_eq_ok h
  obtain ⟨src, _, ho⟩ := bind_eq_ok h2
  cases ho
  exact ⟨d.1, d.2, _, hd, rfl, by simp [length_fillBuffer]⟩

theorem struct_loadLogicalMatrix_inv (l : Location) (out : mxArray)
    (h : VSOctaveH5ReaderStruct.loadLogicalMatrix l = .ok out) :
    ∃ nrow ncol data, l.dimensions = .ok (nrow, ncol)
      ∧ out = .logical nrow ncol data ∧ data.length = nrow * ncol := by
  obtain ⟨d, hd, h2⟩ := bind_eq_ok h
  obtain ⟨src, _, ho⟩ := bind_eq_ok h2
  cases ho
  exact ⟨d.1, d.2, _, hd, rfl, by simp [length_fillBuffer]⟩

theorem cell_loadRealMatrix_inv (T : CType) (l : Location) (out : mxArray)
    (h : VSOctaveH5ReaderCellArray.loadRealMatrix T l = .ok out) :
    ∃ nrow ncol data, l.dimensions = .ok (nrow, ncol)
      ∧ out = .numeric (ClassID.get T) nrow ncol data ∧ data.length = nrow * ncol := by
  obtain ⟨d, hd, h2⟩ := bind_eq_ok h
  obtain ⟨src, _, ho⟩ := bind_eq_ok h2
  cases ho
  exact ⟨d.1, d.2, _, hd, rfl, by simp [length_fillBuffer]⟩

theorem struct_loadRealMatrix_inv (T : CType) (l : Location) (out : mxArray)
    (h : VSOctaveH5ReaderStruct.loadRealMatrix T l = .ok out) :
    ∃ nrow ncol data, l.dimensions = .ok (nrow, ncol)
      ∧ out = .numeric (ClassID.get T) nrow ncol data ∧ data.length = nrow * ncol := by
  obtain ⟨d, hd, h2⟩ := bind_eq_ok h
  obtain ⟨src, _, ho⟩ := bind_eq_ok h2
  cases ho
  exact ⟨d.1, d.2, _, hd, rfl, by simp [length_fillBuffer]⟩

/-! ## C4: the element kinds the loaders produce -/

/-- The class of whatever a decoder returns is the class of its kind. -/
theorem decode_class (k : ElementKind) (l : Location) (out : mxArray)
    (h : decodeWith VSOctaveH5ReaderCellArray.loadLogicalScalar
            VSOctaveH5ReaderCellArray.loadRealScalar k l = .ok out
        ∨ decodeWith VSOctaveH5ReaderCellArray.loadLogicalMatrix
            VSOctaveH5ReaderCellArray.loadRealMatrix k l = .ok out
        ∨ decodeWith VSOctaveH5ReaderStruct.loadLogicalScalar
            VSOctaveH5ReaderStruct.loadRealScalar k l = .ok out
        ∨ decodeWith VSOctaveH5ReaderStruct.loadLogicalMatrix
            VSOctaveH5ReaderStruct.loadRealMatrix k l = .ok out) :
    mxGetClassID out = k.classid := by
  rcases h with h | h | h | h <;> cases k <;> simp only [decodeWith] at h <;>
    first
      | (obtain ⟨v, _, ho⟩ := cell_loadLogicalScalar_inv _ _ h; subst ho; rfl)
      | (obtain ⟨v, _, ho⟩ := cell_loadRealScalar_inv _ _ _ h; subst ho; rfl)
      | (obtain ⟨r, c, d, _, ho, _⟩ := cell_loadLogicalMatrix_inv _ _ h; subst ho; rfl)
      | (obtain ⟨r, c, d, _, ho, _⟩ := cell_loadRealMatrix_inv _ _ _ h; subst ho; rfl)

/-- Whatever one of the four chains returns has the class of the kind its tag resolves to. -/
theorem chain_class (l : Location) (tag : String) (out : mxArray)
    (htag : l.elementType = .ok tag)
    (h : VSOctaveH5ReaderCellArray.loadScalar l = .ok out
        ∨ VSOctaveH5ReaderCellArray.loadMatrix l = .ok out
        ∨ VSOctaveH5ReaderStruct.loadScalar l = .ok out
        ∨ VSOctaveH5ReaderStruct.loadMatrix l = .ok out) :
    mxGetClassID out = (resolveKind tag).classid := by
  rw [loadScalar_cell_eq l tag htag, loadMatrix_cell_eq l tag htag,
    loadScalar_struct_eq l tag htag, loadMatrix_struct_eq l tag htag] at h
  exact decode_class _ l out h

theorem resolveKind_ne_Float32 (tag : String) : resolveKind tag ≠ .Float32 := by
  by_cases h : ∀ p, p ∈ recognizedTags → tag ≠ p.1
  · rw [resolveKind_of_not_recognized tag h]; decide
  · push_neg at h
    obtain ⟨p, hp, rfl⟩ := h
    simp only [recognizedTags, List.mem_cons, List.mem_singleton, List.not_mem_nil,
      or_false] at hp
    rcases hp with h | h | h | h | h | h | h | h | h <;> subst h <;> decide

/-- No chain returns a single-precision array. -/
theorem chain_never_single :
    ¬ ∃ (l : Location) (out : mxArray),
      (VSOctaveH5ReaderCellArray.loadScalar l = .ok out
        ∨ VSOctaveH5ReaderCellArray.loadMatrix l = .ok out
        ∨ VSOctaveH5ReaderStruct.loadScalar l = .ok out
        ∨ VSOctaveH5ReaderStruct.loadMatrix l = .ok out)
      ∧ mxGetClassID out = .mxSINGLE_CLASS := by
  rintro ⟨l, out, h, hc⟩
  cases htag : l.elementType with
  | error e =>
    simp only [VSOctaveH5ReaderCellArray.loadScalar, VSOctaveH5ReaderCellArray.loadMatrix,
      VSOctaveH5ReaderStruct.loadScalar, VSOctaveH5ReaderStruct.loadMatrix, htag] at h
    rcases h with h | h | h | h <;> cases h
  | ok tag =>
    have hk := chain_class l tag out htag h
    rw [hc] at hk
    have := resolveKind_ne_Float32 tag
    cases hr : resolveKind tag <;> rw [hr] at hk this <;> first | exact this rfl | cases hk

/-- C4, as stated, fails for the kind `Float32`: no tag resolves to it and no chain returns a
single-precision array; the 32-bit float of the scenario is decoded as a double. -/
theorem c4_counterexample :
    (¬ ∃ tag, resolveKind tag = .Float32)
    ∧ (¬ ∃ (l : Location) (out : mxArray),
        (VSOctaveH5ReaderCellArray.loadScalar l = .ok out
          ∨ VSOctaveH5ReaderCellArray.loadMatrix l = .ok out
          ∨ VSOctaveH5ReaderStruct.loadScalar l = .ok out
          ∨ VSOctaveH5ReaderStruct.loadMatrix l = .ok out)
        ∧ mxGetClassID out = .mxSINGLE_CLASS)
    ∧ loadCell mixedGrid
        = .ok (.cell 1 2 [.numeric .mxINT32_CLASS 1 1 [42],
                          .struct ["x"] [.numeric .mxDOUBLE_CLASS 1 1 [1.5]]]) :=
  ⟨fun ⟨tag, h⟩ => resolveKind_ne_Float32 tag h, chain_never_single, rfl⟩

/-- C4 (amended): each of the ten kinds other than `Float32` is produced by its tag: the tag
resolves to the kind, a scalar and a matrix of that tag decode (in a cell and in a struct) to a
node of the class of the kind, and so does every location with that tag whose decoding
returns.  `Float32` is produced by no tag. -/
theorem kinds_produced (k : ElementKind) (hk : k ≠ .Float32) :
    resolveKind k.tag = k
    ∧ (∀ v : ℚ,
        VSOctaveH5ReaderCellArray.loadScalar (scalar k.tag v)
          = .ok (if k = .Bool then .logical 1 1 [decide (v ≠ 0)]
                 else .numeric k.classid 1 1 [v])
        ∧ VSOctaveH5ReaderStruct.loadScalar (scalar k.tag v)
          = .ok (if k = .Bool then .logical 1 1 [decide (v ≠ 0)]
                 else .numeric k.classid 1 1 [v])
        ∧ VSOctaveH5ReaderCellArray.loadMatrix (matrix k.tag 1 1 [v])
          = .ok (if k = .Bool then .logical 1 1 [decide (v ≠ 0)]
                 else .numeric k.classid 1 1 [v])
        ∧ VSOctaveH5ReaderStruct.loadMatrix (matrix k.tag 1 1 [v])
          = .ok (if k = .Bool then .logical 1 1 [decide (v ≠ 0)]
                 else .numeric k.classid 1 1 [v]))
    ∧ (∀ (l : Location) (out : mxArray), l.elementType = .ok k.tag →
        (VSOctaveH5ReaderCellArray.loadScalar l = .ok out
          ∨ VSOctaveH5ReaderCellArray.loadMatrix l = .ok out
          ∨ VSOctaveH5ReaderStruct.loadScalar l = .ok out
          ∨ VSOctaveH5ReaderStruct.loadMatrix l = .ok out) →
        mxGetClassID out = k.classid)
    ∧ (¬ ∃ tag, resolveKind tag = .Float32) := by
  have hres : resolveKind k.tag = k := by
    cases k <;> first | rfl | exact absurd rfl hk
  refine ⟨hres, ?_, ?_, fun ⟨tag, h⟩ => resolveKind_ne_Float32 tag h⟩
  · intro v
    cases k <;> first | exact absurd rfl hk | exact ⟨rfl, rfl, rfl, rfl⟩
  · intro l out htag h
    have := chain_class l k.tag out htag h
    rw [hres] at this
    exact this

/-- C4 at the kind `Int32`, with the scenario of section 8: the grid holding the 32-bit
integer 42 and the struct with the float field loads to a 1-by-2 cell whose first element has
class `int32` and whose nested field is a double. -/
theorem kinds_produced_witness :
    ElementKind.Int32 ≠ .Float32
    ∧ loadCell mixedGrid
        = .ok (.cell 1 2 [.numeric .mxINT32_CLASS 1 1 [42],
                          .struct ["x"] [.numeric .mxDOUBLE_CLASS 1 1 [1.5]]])
    ∧ resolveKind ElementKind.Int32.tag = .Int32 :=
  ⟨by decide, rfl, (kinds_produced .Int32 (by decide)).1⟩

/-! ## The loops of `loadCell` -/

theorem foldl_setField_cell {ι : Type} (m n : Nat) (g : ι → Nat) (v : ι → mxArray)
    (idx : List ι) (data : List mxArray) :
    idx.foldl (fun cv p => mxSetFieldByNumber cv 0 (g p) (v p)) (mxArray.cell m n data)
      = mxArray.cell m n (idx.foldl (fun l p => l.set (g p) (v p)) data) := by
  induction idx generalizing data with
  | nil => rfl
  | cons i rest ih =>
    simp only [List.foldl_cons]
    exact ih (data.set (g i) (v i))

/-- Two nested loops over rows and columns are one loop over `cellOrder`. -/
theorem foldl_rows_cols {σ : Type} (g : σ → Nat → Nat → σ) (rows cols : List Nat) (init : σ) :
    rows.foldl (fun st r => cols.foldl (fun st k => g st r k) st) init
      = (rows.flatMap (fun r => cols.map (fun k => (r, k)))).foldl
          (fun st p => g st p.1 p.2) init := by
  induction rows generalizing init with
  | nil => rfl
  | cons r rest ih =>
    simp only [List.foldl_cons, List.flatMap_cons, List.foldl_append, List.foldl_map]
    exact ih _

theorem length_foldl_set {ι α : Type} (g : ι → Nat) (v : ι → α) (idx : List ι)
    (init : List α) :
    (idx.foldl (fun l p => l.set (g p) (v p)) init).length = init.length := by
  induction idx generalizing init with
  | nil => rfl
  | cons i rest ih => simp only [List.foldl_cons]; rw [ih]; simp

/-- A slot that no write addresses keeps its content. -/
theorem getElem?_foldl_set_of_not_mem {ι α : Type} (g : ι → Nat) (v : ι → α) (idx : List ι)
    (init : List α) (j : Nat) (hj : ∀ p, p ∈ idx → g p ≠ j) :
    (idx.foldl (fun l p => l.set (g p) (v p)) init)[j]? = init[j]? := by
  induction idx generalizing init with
  | nil => rfl
  | cons i rest ih =>
    simp only [List.foldl_cons]
    rw [ih _ (fun p hp => hj p (List.mem_cons_of_mem _ hp))]
    exact List.getElem?_set_ne (hj i (List.mem_cons_self _ _))

/-- When no two writes address the same slot, every write is found in its slot at the end. -/
theorem getElem?_foldl_set_of_mem {ι α : Type} (g : ι → Nat) (v : ι → α) (idx : List ι)
    (init : List α) (p : ι) (hp : p ∈ idx) (hnd : (idx.map g).Nodup)
    (hlt : g p < init.length) :
    (idx.foldl (fun l p => l.set (g p) (v p)) init)[g p]? = some (v p) := by
  induction idx generalizing init with
  | nil => cases hp
  | cons i rest ih =>
    simp only [List.foldl_cons]
    rw [List.map_cons, List.nodup_cons] at hnd
    rcases List.mem_cons.mp hp with heq | hmem
    · subst heq
      rw [getElem?_foldl_set_of_not_mem]
      · exact List.getElem?_set_self hlt
      · intro q hq hgq
        exact hnd.1 (hgq ▸ List.mem_map_of_mem g hq)
    · exact ih _ hmem hnd.2 (by simpa using hlt)

/-- The run of `loadCell` on a reader whose shape query succeeds. -/
theorem loadCell_mk_ok (d : Nat × Nat) (cell : Nat → Nat → Location) :
    loadCell (.mk (.ok d) cell)
      = forLoop (toUnsigned d.1) (fun irow cv =>
          forLoop (toUnsigned d.2) (fun icol cv => do
            let ev ← loadCell.element (cell irow icol) (cellIndex (toUnsigned d.1) irow icol)
            pure (mxSetFieldByNumber cv 0 (cellIndex (toUnsigned d.1) irow icol) ev)) cv)
          (mxCreateCellMatrix (toUnsigned d.1) (toUnsigned d.2)) := by
  rw [loadCell]
  rfl

theorem loadCell_dims_error (e : VSOctaveH5Exception) (cell : Nat → Nat → Location) :
    loadCell (.mk (.error e) cell) = .error e := by
  rw [loadCell]
  rfl

/-- The grid that `loadCell` returns when it returns. -/
theorem loadCell_ok_inv (c : VSOctaveH5ReaderCellArray) (out : mxArray)
    (hload : loadCell c = .ok out) :
    ∃ nrow ncol, c.dimensions = .ok (nrow, ncol) ∧
      (∀ irow, irow < nrow → ∀ icol, icol < ncol →
        c.cellValue nrow irow icol = .ok (valueOrNull (c.cellValue nrow irow icol))) ∧
      out = .cell nrow ncol
        (storedCells nrow ncol (fun irow icol => valueOrNull (c.cellValue nrow irow icol))) := by
  cases c with
  | failed e => rw [loadCell] at hload; cases hload
  | mk dims cell =>
    cases dims with
    | error e => rw [loadCell_dims_error] at hload; cases hload
    | ok d =>
      rw [loadCell_mk_ok] at hload
      refine ⟨toUnsigned d.1, toUnsigned d.2, rfl, ?_⟩
      have key := forLoop_inv (toUnsigned d.1) _
        (fun irow cv => (List.range (toUnsigned d.2)).foldl
          (fun cv icol => mxSetFieldByNumber cv 0 (cellIndex (toUnsigned d.1) irow icol)
            (valueOrNull (loadCell.element (cell irow icol)
              (cellIndex (toUnsigned d.1) irow icol)))) cv)
        (fun irow => ∀ icol, icol < toUnsigned d.2 →
          loadCell.element (cell irow icol) (cellIndex (toUnsigned d.1) irow icol)
            = .ok (valueOrNull (loadCell.element (cell irow icol)
                (cellIndex (toUnsigned d.1) irow icol))))
        _ out ?_ hload
      · refine ⟨key.1, ?_⟩
        rw [key.2, mxCreateCellMatrix]
        rw [foldl_rows_cols (fun cv r k => mxSetFieldByNumber cv 0 (cellIndex (toUnsigned d.1) r k)
            (valueOrNull (loadCell.element (cell r k) (cellIndex (toUnsigned d.1) r k))))]
        rw [foldl_setField_cell _ _ (fun p : Nat × Nat => cellIndex (toUnsigned d.1) p.1 p.2)
            (fun p : Nat × Nat => valueOrNull (loadCell.element (cell p.1 p.2)
              (cellIndex (toUnsigned d.1) p.1 p.2)))]
        rfl
      · intro irow _ st st2 hrow
        refine forLoop_inv (toUnsigned d.2) _
          (fun icol cv => mxSetFieldByNumber cv 0 (cellIndex (toUnsigned d.1) irow icol)
            (valueOrNull (loadCell.element (cell irow icol)
              (cellIndex (toUnsigned d.1) irow icol))))
          (fun icol => loadCell.element (cell irow icol) (cellIndex (toUnsigned d.1) irow icol)
            = .ok (valueOrNull (loadCell.element (cell irow icol)
                (cellIndex (toUnsigned d.1) irow icol))))
          st st2 ?_ hrow
        intro icol _ cv cv2 hb
        obtain ⟨ev, hev, hst⟩ := bind_eq_ok hb
        refine ⟨eq_ok_valueOrNull hev, ?_⟩
        show cv2 = mxSetFieldByNumber cv 0 (cellIndex (toUnsigned d.1) irow icol)
          (valueOrNull (loadCell.element (cell irow icol)
            (cellIndex (toUnsigned d.1) irow icol)))
        rw [hev]
        cases hst
        rfl

theorem length_storedCells (nrow ncol : Nat) (val : Nat → Nat → mxArray) :
    (storedCells nrow ncol val).length = nrow * ncol := by
  rw [storedCells, length_foldl_set (fun p : Nat × Nat => cellIndex nrow p.1 p.2)
    (fun p : Nat × Nat => val p.1 p.2)]
  simp

/-! ## C5: shapes of matrices and grids -/

theorem fillBuffer_nil {α : Type} (buf src : List α) (h : buf.length = 0) :
    fillBuffer buf src = [] := by
  simp [fillBuffer, h]

theorem loadRealMatrix_empty (T : CType) (l : Location) (nrow ncol : Nat) (src : List ℚ)
    (hd : l.dimensions = .ok (nrow, ncol)) (h0 : nrow * ncol = 0)
    (hsrc : l.readMatrix T = .ok src) :
    VSOctaveH5ReaderCellArray.loadRealMatrix T l = .ok (.numeric (ClassID.get T) nrow ncol [])
    ∧ VSOctaveH5ReaderStruct.loadRealMatrix T l
        = .ok (.numeric (ClassID.get T) nrow ncol []) := by
  simp only [VSOctaveH5ReaderCellArray.loadRealMatrix, VSOctaveH5ReaderStruct.loadRealMatrix,
    hd, hsrc, mxCreateNumericMatrix, mxArray.written, bind, Except.bind, pure, Except.pure]
  rw [fillBuffer_nil _ _ (by simp [h0])]
  exact ⟨rfl, rfl⟩

theorem loadLogicalMatrix_empty (l : Location) (nrow ncol : Nat) (src : List ℚ)
    (hd : l.dimensions = .ok (nrow, ncol)) (h0 : nrow * ncol = 0)
    (hsrc : l.readMatrix .mxLogical = .ok src) :
    VSOctaveH5ReaderCellArray.loadLogicalMatrix l = .ok (.logical nrow ncol [])
    ∧ VSOctaveH5ReaderStruct.loadLogicalMatrix l = .ok (.logical nrow ncol []) := by
  simp only [VSOctaveH5ReaderCellArray.loadLogicalMatrix,
    VSOctaveH5ReaderStruct.loadLogicalMatrix,
    hd, hsrc, mxCreateLogicalMatrix, mxArray.written, bind, Except.bind, pure, Except.pure]
  rw [fillBuffer_nil _ _ (by simp [h0])]
  exact ⟨rfl, rfl⟩

/-- A grid without cells loads to the empty cell array; no cell is queried. -/
theorem loadCell_empty (c : VSOctaveH5ReaderCellArray) (nrow ncol : Nat)
    (hd : c.dimensions = .ok (nrow, ncol)) (h0 : nrow * ncol = 0) :
    loadCell c = .ok (.cell nrow ncol []) := by
  cases c with
  | failed e => cases hd
  | mk dims cell =>
    cases dims with
    | error e => cases hd
    | ok d =>
      have h1 : toUnsigned d.1 = nrow := by
        have := hd; simp only [VSOctaveH5ReaderCellArray.dimensions] at this
        cases this; rfl
      have h2 : toUnsigned d.2 = ncol := by
        have := hd; simp only [VSOctaveH5ReaderCellArray.dimensions] at this
        cases this; rfl
      rw [loadCell_mk_ok, h1, h2]
      rw [forLoop_ok nrow _ (fun _ cv => cv)]
      · have hfold : ∀ (rows : List Nat) (cv : mxArray),
            rows.foldl (fun st _ => st) cv = cv := by
          intro rows
          induction rows with
          | nil => intro cv; rfl
          | cons r rest ih => intro cv; exact ih cv
        rw [hfold, mxCreateCellMatrix, h0]
        rfl
      · intro irow hirow st
        have hc : ncol = 0 := by
          rcases Nat.mul_eq_zero.mp h0 with h | h
          · omega
          · exact h
        subst hc
        exact forLoop_zero _ _

/-- C5: a matrix of any element type, numeric or logical, loaded from a cell or from a struct
field, has the rows and columns that `dimensions` reports and a buffer of rows times columns
elements; so has a loaded grid.  A shape with no rows or no columns gives the empty matrix or
the empty grid, not an error. -/
theorem shape_fidelity (l : Location) (c : VSOctaveH5ReaderCellArray) (T : CType)
    (out : mxArray) :
    ((VSOctaveH5ReaderCellArray.loadRealMatrix T l = .ok out
        ∨ VSOctaveH5ReaderStruct.loadRealMatrix T l = .ok out) →
      ∃ nrow ncol data, l.dimensions = .ok (nrow, ncol)
        ∧ out = .numeric (ClassID.get T) nrow ncol data ∧ data.length = nrow * ncol)
    ∧ ((VSOctaveH5ReaderCellArray.loadLogicalMatrix l = .ok out
        ∨ VSOctaveH5ReaderStruct.loadLogicalMatrix l = .ok out) →
      ∃ nrow ncol data, l.dimensions = .ok (nrow, ncol)
        ∧ out = .logical nrow ncol data ∧ data.length = nrow * ncol)
    ∧ (loadCell c = .ok out →
      ∃ nrow ncol data, c.dimensions = .ok (nrow, ncol)
        ∧ out = .cell nrow ncol data ∧ data.length = nrow * ncol)
    ∧ (∀ nrow ncol src, l.dimensions = .ok (nrow, ncol) → nrow * ncol = 0 →
        l.readMatrix T = .ok src →
        VSOctaveH5ReaderCellArray.loadRealMatrix T l
            = .ok (.numeric (ClassID.get T) nrow ncol [])
        ∧ VSOctaveH5ReaderStruct.loadRealMatrix T l
            = .ok (.numeric (ClassID.get T) nrow ncol []))
    ∧ (∀ nrow ncol src, l.dimensions = .ok (nrow, ncol) → nrow * ncol = 0 →
        l.readMatrix .mxLogical = .ok src →
        VSOctaveH5ReaderCellArray.loadLogicalMatrix l = .ok (.logical nrow ncol [])
        ∧ VSOctaveH5ReaderStruct.loadLogicalMatrix l = .ok (.logical nrow ncol []))
    ∧ (∀ nrow ncol, c.dimensions = .ok (nrow, ncol) → nrow * ncol = 0 →
        loadCell c = .ok (.cell nrow ncol [])) := by
  refine ⟨?_, ?_, ?_, ?_, ?_, ?_⟩
  · rintro (h | h)
    · exact cell_loadRealMatrix_inv T l out h
    · exact struct_loadRealMatrix_inv T l out h
  · rintro (h | h)
    · exact cell_loadLogicalMatrix_inv l out h
    · exact struct_loadLogicalMatrix_inv l out h
  · intro h
    obtain ⟨nrow, ncol, hd, _, ho⟩ := loadCell_ok_inv c out h
    exact ⟨nrow, ncol, _, hd, ho, length_storedCells _ _ _⟩
  · intro nrow ncol src hd h0 hsrc
    exact loadRealMatrix_empty T l nrow ncol src hd h0 hsrc
  · intro nrow ncol src hd h0 hsrc
    exact loadLogicalMatrix_empty l nrow ncol src hd h0 hsrc
  · intro nrow ncol hd h0
    exact loadCell_empty c nrow ncol hd h0

/-- C5 on concrete shapes: a 0-by-3 matrix of 16-bit integers, a 2-by-0 logical matrix and a
2-by-0 grid whose cells would all throw load to empty containers of those shapes, and a 2-by-3
matrix keeps its shape and its six elements. -/
theorem shape_fidelity_witness :
    VSOctaveH5ReaderStruct.loadMatrix (matrix "int16" 0 3 [])
        = .ok (.numeric .mxINT16_CLASS 0 3 [])
    ∧ VSOctaveH5ReaderCellArray.loadMatrix (matrix "bool" 2 0 [])
        = .ok (.logical 2 0 [])
    ∧ loadCell (cellArrayFn 2 0 (fun _ _ => broken noSuch)) = .ok (.cell 2 0 [])
    ∧ VSOctaveH5ReaderCellArray.loadMatrix (matrix "uint8" 2 3 [1, 2, 3, 4, 5, 6])
        = .ok (.numeric .mxUINT8_CLASS 2 3 [1, 2, 3, 4, 5, 6]) :=
  ⟨rfl, rfl,
    (shape_fidelity unrecognized (cellArrayFn 2 0 (fun _ _ => broken noSuch)) .double
      .null).2.2.2.2.2 2 0 rfl rfl,
    rfl⟩

/-! ## C6: the slot of every cell -/

/-- The grid that `loadCell` returns when every cell loads. -/
theorem loadCell_all_ok (c : VSOctaveH5ReaderCellArray) (nrow ncol : Nat)
    (val : Nat → Nat → mxArray) (hd : c.dimensions = .ok (nrow, ncol))
    (hval : ∀ irow, irow < nrow → ∀ icol, icol < ncol →
      c.cellValue nrow irow icol = .ok (val irow icol)) :
    loadCell c = .ok (.cell nrow ncol (storedCells nrow ncol val)) := by
  cases c with
  | failed e => cases hd
  | mk dims cell =>
    cases dims with
    | error e => cases hd
    | ok d =>
      have h1 : toUnsigned d.1 = nrow := by
        have := hd; simp only [VSOctaveH5ReaderCellArray.dimensions] at this
        cases this; rfl
      have h2 : toUnsigned d.2 = ncol := by
        have := hd; simp only [VSOctaveH5ReaderCellArray.dimensions] at this
        cases this; rfl
      rw [loadCell_mk_ok, h1, h2]
      rw [forLoop_ok nrow _ (fun irow cv => (List.range ncol).foldl
          (fun cv icol => mxSetFieldByNumber cv 0 (cellIndex nrow irow icol) (val irow icol))
          cv)]
      · rw [mxCreateCellMatrix,
          foldl_rows_cols (fun cv r k => mxSetFieldByNumber cv 0 (cellIndex nrow r k) (val r k)),
          foldl_setField_cell _ _ (fun p : Nat × Nat => cellIndex nrow p.1 p.2)
            (fun p : Nat × Nat => val p.1 p.2)]
        rfl
      · intro irow hirow st
        refine forLoop_ok ncol _ (fun icol cv =>
          mxSetFieldByNumber cv 0 (cellIndex nrow irow icol) (val irow icol)) st ?_
        intro icol hicol cv
        have := hval irow hirow icol hicol
        simp only [VSOctaveH5ReaderCellArray.cellValue] at this
        rw [this]
        rfl

theorem cellIndex_lt_range (nrow irow icol : Nat) : cellIndex nrow irow icol < UINT_RANGE :=
  Nat.mod_lt _ (by decide)

/-- A slot beyond the range of `unsigned` is never written. -/
theorem storedCells_beyond_unsigned (nrow ncol : Nat) (val : Nat → Nat → mxArray) (j : Nat)
    (hj : UINT_RANGE ≤ j) (hlt : j < nrow * ncol) :
    (storedCells nrow ncol val)[j]? = some .null := by
  rw [storedCells, getElem?_foldl_set_of_not_mem (fun p : Nat × Nat => cellIndex nrow p.1 p.2)
    (fun p : Nat × Nat => val p.1 p.2)]
  · simp [hlt]
  · intro p _ h
    have := cellIndex_lt_range nrow p.1 p.2
    omega

theorem element_unrecognized (ifield : Nat) :
    loadCell.element unrecognized ifield = .ok (mxCreateDoubleScalar (ifield : ℚ))
    ∧ loadStruct.element unrecognized ifield = .ok (mxCreateDoubleScalar (ifield : ℚ)) := by
  constructor
  · rw [unrecognized, loadCell.element]; rfl
  · rw [unrecognized, loadStruct.element]; rfl

theorem mem_cellOrder {nrow ncol : Nat} {p : Nat × Nat} :
    p ∈ cellOrder nrow ncol ↔ p.1 < nrow ∧ p.2 < ncol := by
  simp only [cellOrder, List.mem_flatMap, List.mem_map, List.mem_range]
  constructor
  · rintro ⟨r, hr, k, hk, rfl⟩; exact ⟨hr, hk⟩
  · rintro ⟨hr, hk⟩; exact ⟨p.1, hr, p.2, hk, rfl⟩

theorem nodup_cellOrder (nrow ncol : Nat) : (cellOrder nrow ncol).Nodup :=
  List.Nodup.product (List.nodup_range nrow) (List.nodup_range ncol)

theorem length_cellOrder (nrow ncol : Nat) : (cellOrder nrow ncol).length = nrow * ncol := by
  have h := List.length_product (List.range nrow) (List.range ncol)
  rw [List.length_range, List.length_range] at h
  exact h

/-- The flat index stays inside the grid. -/
theorem flat_index_lt {nrow ncol irow icol : Nat} (hr : irow < nrow) (hk : icol < ncol) :
    icol * nrow + irow < nrow * ncol := by
  calc icol * nrow + irow < icol * nrow + nrow := by omega
    _ = (icol + 1) * nrow := by ring
    _ ≤ ncol * nrow := Nat.mul_le_mul_right nrow hk
    _ = nrow * ncol := Nat.mul_comm _ _

/-- The flat index determines the cell. -/
theorem flat_index_inj {nrow irow icol irow2 icol2 : Nat} (hr : irow < nrow)
    (hr2 : irow2 < nrow) (h : icol * nrow + irow = icol2 * nrow + irow2) :
    irow = irow2 ∧ icol = icol2 := by
  have hpos : 0 < nrow := by omega
  have hm : (icol * nrow + irow) % nrow = (icol2 * nrow + irow2) % nrow := by rw [h]
  have hq : (icol * nrow + irow) / nrow = (icol2 * nrow + irow2) / nrow := by rw [h]
  rw [Nat.mul_add_mod_of_lt hr, Nat.mul_add_mod_of_lt hr2] at hm
  rw [Nat.mul_comm icol, Nat.mul_comm icol2, Nat.mul_add_div hpos, Nat.mul_add_div hpos,
    Nat.div_eq_of_lt hr, Nat.div_eq_of_lt hr2, Nat.add_zero, Nat.add_zero] at hq
  exact ⟨hm, hq⟩

/-- Without wrap-around the index computed in `unsigned` is the flat index. -/
theorem cellIndex_eq_flat {nrow ncol irow icol : Nat} (hsize : nrow * ncol ≤ UINT_RANGE)
    (hr : irow < nrow) (hk : icol < ncol) :
    cellIndex nrow irow icol = icol * nrow + irow :=
  Nat.mod_eq_of_lt (Nat.lt_of_lt_of_le (flat_index_lt hr hk) hsize)

theorem nodup_written_slots {nrow ncol : Nat} (hsize : nrow * ncol ≤ UINT_RANGE) :
    ((cellOrder nrow ncol).map (fun p => cellIndex nrow p.1 p.2)).Nodup := by
  refine List.Nodup.map_on ?_ (nodup_cellOrder nrow ncol)
  intro p hp q hq h
  rw [mem_cellOrder] at hp hq
  rw [cellIndex_eq_flat hsize hp.1 hp.2, cellIndex_eq_flat hsize hq.1 hq.2] at h
  obtain ⟨h1, h2⟩ := flat_index_inj hp.1 hq.1 h
  exact Prod.ext h1 h2

/-- Without wrap-around every cell is found in the slot of its flat index. -/
theorem storedCells_flat {nrow ncol : Nat} (val : Nat → Nat → mxArray)
    (hsize : nrow * ncol ≤ UINT_RANGE) {irow icol : Nat} (hr : irow < nrow) (hk : icol < ncol) :
    (storedCells nrow ncol val)[icol * nrow + irow]? = some (val irow icol) := by
  have h := getElem?_foldl_set_of_mem (fun p : Nat × Nat => cellIndex nrow p.1 p.2)
    (fun p : Nat × Nat => val p.1 p.2) (cellOrder nrow ncol)
    (List.replicate (nrow * ncol) mxArray.null) (irow, icol)
    (mem_cellOrder.mpr ⟨hr, hk⟩) (nodup_written_slots hsize)
    (by simp only [List.length_replicate]
        rw [cellIndex_eq_flat hsize hr hk]; exact flat_index_lt hr hk)
  simp only [cellIndex_eq_flat hsize hr hk] at h
  exact h

theorem written_slots_perm {nrow ncol : Nat} (hsize : nrow * ncol ≤ UINT_RANGE) :
    ((cellOrder nrow ncol).map (fun p => cellIndex nrow p.1 p.2)).Perm
      (List.range (nrow * ncol)) := by
  refine List.Subperm.perm_of_length_le
    (List.subperm_of_subset (nodup_written_slots hsize) ?_) ?_
  · intro j hj
    simp only [List.mem_map] at hj
    obtain ⟨p, hp, rfl⟩ := hj
    rw [mem_cellOrder] at hp
    rw [List.mem_range, cellIndex_eq_flat hsize hp.1 hp.2]
    exact flat_index_lt hp.1 hp.2
  · simp [length_cellOrder]

/-- C6, as stated, fails on a grid of more than `2^32` cells: in the grid of 2 rows and
`2^31 + 1` columns the cell `(0, 2^31)` has the flat index `2^32`, inside the grid, but the
index computed in `unsigned` is 0, so the slot `2^32` of the result is never set. -/
theorem c6_counterexample :
    ∃ data, loadCell wideGrid = .ok (.cell 2 (2 ^ 31 + 1) data)
      ∧ (0 < 2 ∧ 2 ^ 31 < 2 ^ 31 + 1)
      ∧ wideGrid.cellValue 2 0 (2 ^ 31) = .ok (mxCreateDoubleScalar 0)
      ∧ data[2 ^ 31 * 2 + 0]? = some .null := by
  have hidx : cellIndex 2 0 (2 ^ 31) = 0 := by decide
  have hdims : wideGrid.dimensions = .ok (2, 2 ^ 31 + 1) := by
    have h1 : toUnsigned 2 = 2 := by decide
    have h2 : toUnsigned (2 ^ 31 + 1) = 2 ^ 31 + 1 := by decide
    show Except.ok (toUnsigned 2, toUnsigned (2 ^ 31 + 1)) = _
    rw [h1, h2]
  refine ⟨storedCells 2 (2 ^ 31 + 1) (fun r k => mxCreateDoubleScalar (cellIndex 2 r k : ℚ)),
    loadCell_all_ok wideGrid 2 (2 ^ 31 + 1) _ hdims
      (fun irow _ icol _ => (element_unrecognized (cellIndex 2 irow icol)).1),
    by decide, ?_, storedCells_beyond_unsigned 2 (2 ^ 31 + 1) _ _ (by decide) (by decide)⟩
  have h := (element_unrecognized (cellIndex 2 0 (2 ^ 31))).1
  rw [hidx, Nat.cast_zero] at h
  exact h

/-- C6 (amended): for every grid of at most `2^32` cells whose load succeeds, the element of the
result at the flat index `col*rows + row` is the value computed for the cell `(row, col)`, for
every row and column of the grid; the flat index is a bijection from the cells onto the slots
`0 .. rows*cols - 1`, and the slots written by the loops, in the order of the visit, are a
permutation of those slots, so every slot is written exactly once. -/
theorem grid_slots (c : VSOctaveH5ReaderCellArray) (nrow ncol : Nat) (out : mxArray)
    (hd : c.dimensions = .ok (nrow, ncol)) (hsize : nrow * ncol ≤ UINT_RANGE)
    (hload : loadCell c = .ok out) :
    ∃ data, out = .cell nrow ncol data ∧ data.length = nrow * ncol
      ∧ (∀ irow icol, irow < nrow → icol < ncol →
          ∃ v, c.cellValue nrow irow icol = .ok v ∧ data[icol * nrow + irow]? = some v)
      ∧ (∀ irow icol, irow < nrow → icol < ncol → icol * nrow + irow < nrow * ncol)
      ∧ (∀ irow icol irow2 icol2, irow < nrow → irow2 < nrow →
          icol * nrow + irow = icol2 * nrow + irow2 → irow = irow2 ∧ icol = icol2)
      ∧ (∀ j, j < nrow * ncol → ∃ irow icol, irow < nrow ∧ icol < ncol ∧ icol * nrow + irow = j)
      ∧ ((cellOrder nrow ncol).map (fun p => cellIndex nrow p.1 p.2)).Perm
          (List.range (nrow * ncol)) := by
  obtain ⟨nrow2, ncol2, hd2, hval, hout⟩ := loadCell_ok_inv c out hload
  rw [hd] at hd2
  cases hd2
  refine ⟨_, hout, length_storedCells _ _ _, ?_, ?_, ?_, ?_, written_slots_perm hsize⟩
  · intro irow icol hr hk
    exact ⟨_, hval irow hr icol hk, storedCells_flat _ hsize hr hk⟩
  · intro irow icol hr hk
    exact flat_index_lt hr hk
  · intro irow icol irow2 icol2 hr hr2 h
    exact flat_index_inj hr hr2 h
  · intro j hj
    have hpos : 0 < nrow := by
      rcases Nat.eq_zero_or_pos nrow with h | h
      · subst h; simp at hj
      · exact h
    refine ⟨j % nrow, j / nrow, Nat.mod_lt _ hpos, ?_, ?_⟩
    · exact Nat.div_lt_of_lt_mul hj
    · exact Nat.div_add_mod' j nrow

/-- C6 on a 2-by-3 grid whose cells are labelled by their row and column: the result lists them
column by column, the cell `(row, col)` at the index `col*2 + row`. -/
theorem grid_slots_witness :
    loadCell labelledGrid
        = .ok (.cell 2 3 [mxCreateString "r0c0", mxCreateString "r1c0", mxCreateString "r0c1",
            mxCreateString "r1c1", mxCreateString "r0c2", mxCreateString "r1c2"])
    ∧ ∃ data, mxArray.cell 2 3 [mxCreateString "r0c0", mxCreateString "r1c0",
            mxCreateString "r0c1", mxCreateString "r1c1", mxCreateString "r0c2",
            mxCreateString "r1c2"] = .cell 2 3 data
        ∧ data.length = 2 * 3
        ∧ (∀ irow icol, irow < 2 → icol < 3 →
            ∃ v, labelledGrid.cellValue 2 irow icol = .ok v ∧ data[icol * 2 + irow]? = some v)
        ∧ (∀ irow icol, irow < 2 → icol < 3 → icol * 2 + irow < 2 * 3)
        ∧ (∀ irow icol irow2 icol2, irow < 2 → irow2 < 2 →
            icol * 2 + irow = icol2 * 2 + irow2 → irow = irow2 ∧ icol = icol2)
        ∧ (∀ j, j < 2 * 3 → ∃ irow icol, irow < 2 ∧ icol < 3 ∧ icol * 2 + irow = j)
        ∧ ((cellOrder 2 3).map (fun p => cellIndex 2 p.1 p.2)).Perm (List.range (2 * 3)) :=
  ⟨rfl, grid_slots labelledGrid 2 3 _ rfl (by decide) rfl⟩

/-! ## C7: propagation of failures -/

/-- The first field whose value throws ends `loadStruct` with that exception. -/
theorem loadStruct_first_error (s : VSOctaveH5ReaderStruct) (names : List String)
    (k : Nat) (e : VSOctaveH5Exception) (hvars : s.variables_ = .ok names)
    (hk : k < toUnsigned names.length)
    (hbefore : ∀ i, i < k → ∃ v, s.fieldValue (names.getD i "") i = .ok v)
    (hfail : s.fieldValue (names.getD k "") k = .error e) :
    loadStruct s = .error e := by
  cases s with
  | failed e2 => cases hvars
  | mk ns field =>
    simp only [VSOctaveH5ReaderStruct.variables_] at hvars
    subst hvars
    rw [loadStruct_mk_ok]
    refine forLoop_error _ k _
      (fun i sv => mxSetFieldByNumber sv 0 i
        (valueOrNull (loadStruct.element (field (names.getD i "")) i))) _ e hk ?_ ?_
    · intro i hi st
      obtain ⟨v, hv⟩ := hbefore i hi
      simp only [VSOctaveH5ReaderStruct.fieldValue] at hv
      simp only [hv]
      rfl
    · intro st
      simp only [VSOctaveH5ReaderStruct.fieldValue] at hfail
      rw [hfail]
      rfl

/-- The first cell, in the order of the visit, whose value throws ends `loadCell` with that
exception. -/
theorem loadCell_first_error (c : VSOctaveH5ReaderCellArray) (nrow ncol irow icol : Nat)
    (e : VSOctaveH5Exception) (hd : c.dimensions = .ok (nrow, ncol))
    (hr : irow < nrow) (hk : icol < ncol)
    (hbefore : ∀ r k, r < nrow → k < ncol → (r < irow ∨ (r = irow ∧ k < icol)) →
      ∃ v, c.cellValue nrow r k = .ok v)
    (hfail : c.cellValue nrow irow icol = .error e) :
    loadCell c = .error e := by
  cases c with
  | failed e2 => cases hd
  | mk dims cell =>
    cases dims with
    | error e2 => cases hd
    | ok d =>
      have h1 : toUnsigned d.1 = nrow := by
        have := hd; simp only [VSOctaveH5ReaderCellArray.dimensions] at this
        cases this; rfl
      have h2 : toUnsigned d.2 = ncol := by
        have := hd; simp only [VSOctaveH5ReaderCellArray.dimensions] at this
        cases this; rfl
      rw [loadCell_mk_ok, h1, h2]
      simp only [VSOctaveH5ReaderCellArray.cellValue] at hbefore hfail
      refine forLoop_error nrow irow _
        (fun r cv => (List.range ncol).foldl
          (fun cv k => mxSetFieldByNumber cv 0 (cellIndex nrow r k)
            (valueOrNull (loadCell.element (cell r k) (cellIndex nrow r k)))) cv)
        _ e hr ?_ ?_
      · intro r hrlt st
        refine forLoop_ok ncol _ (fun k cv => mxSetFieldByNumber cv 0 (cellIndex nrow r k)
            (valueOrNull (loadCell.element (cell r k) (cellIndex nrow r k)))) st ?_
        intro k hklt cv
        obtain ⟨v, hv⟩ := hbefore r k (by omega) hklt (Or.inl hrlt)
        simp only [hv]
        rfl
      · intro st
        refine forLoop_error ncol icol _
          (fun k cv => mxSetFieldByNumber cv 0 (cellIndex nrow irow k)
            (valueOrNull (loadCell.element (cell irow k) (cellIndex nrow irow k)))) st e hk ?_ ?_
        · intro k hklt cv
          obtain ⟨v, hv⟩ := hbefore irow k hr (by omega) (Or.inr ⟨rfl, hklt⟩)
          simp only [hv]
          rfl
        · intro cv
          rw [hfail]
          rfl

/-- A struct is returned only when the value of every field was computed. -/
theorem loadStruct_ok_all_fields (s : VSOctaveH5ReaderStruct) (sv : mxArray)
    (hload : loadStruct s = .ok sv) :
    ∃ names vals, s.variables_ = .ok names ∧ vals.length = toUnsigned names.length
      ∧ sv = .struct ((names.take (toUnsigned names.length)).map newStrCpy) vals
      ∧ ∀ i, i < toUnsigned names.length →
          ∃ v, s.fieldValue (names.getD i "") i = .ok v ∧ vals[i]? = some v := by
  cases s with
  | failed e => rw [loadStruct] at hload; cases hload
  | mk ns field =>
    obtain ⟨fieldnames, hn, helem, hsv⟩ := loadStruct_ok_inv ns field sv hload
    subst hn
    refine ⟨fieldnames, _, rfl, by simp, hsv, ?_⟩
    intro i hi
    exact ⟨_, helem i hi, by simp [hi]⟩

/-- A grid is returned only when the value of every cell was computed. -/
theorem loadCell_ok_all_cells (c : VSOctaveH5ReaderCellArray) (out : mxArray)
    (hload : loadCell c = .ok out) :
    ∃ nrow ncol data, c.dimensions = .ok (nrow, ncol) ∧ out = .cell nrow ncol data
      ∧ data.length = nrow * ncol
      ∧ ∀ irow icol, irow < nrow → icol < ncol → ∃ v, c.cellValue nrow irow icol = .ok v := by
  obtain ⟨nrow, ncol, hd, hval, hout⟩ := loadCell_ok_inv c out hload
  exact ⟨nrow, ncol, _, hd, hout, length_storedCells _ _ _,
    fun irow icol hr hk => ⟨_, hval irow hr icol hk⟩⟩

/-- The value of a location is the load of the nested reader the dispatch opens there. -/
theorem element_of_opens (l : Location) (child : Reader) (ifield : Nat)
    (h : l.Opens child) :
    loadCell.element l ifield = child.load ∧ loadStruct.element l ifield = child.load := by
  cases h with
  | struct h1 =>
    cases l with
    | mk a1 a2 a3 a4 a5 rs rc str ty sc dims mat =>
      simp only [Location.isStruct] at h1
      subst h1
      constructor
      · rw [loadCell.element]; rfl
      · rw [loadStruct.element]; rfl
  | cellArray h1 h2 =>
    cases l with
    | mk a1 a2 a3 a4 a5 rs rc str ty sc dims mat =>
      simp only [Location.isStruct, Location.isCellArray] at h1 h2
      subst h1 h2
      constructor
      · rw [loadCell.element]; rfl
      · rw [loadStruct.element]; rfl

/-- When the load of a node returns, so did the load of every node one step below it. -/
theorem load_ok_of_descends (parent child : Reader) (h : Descends parent child)
    (v : mxArray) (hload : parent.load = .ok v) : ∃ w, child.load = .ok w := by
  cases h with
  | field s names ifield l child hvars hi hloc hopen =>
    obtain ⟨names2, vals, hvars2, _, _, hall⟩ := loadStruct_ok_all_fields s v hload
    rw [hvars] at hvars2
    cases hvars2
    obtain ⟨w, hw, _⟩ := hall ifield hi
    cases s with
    | failed e => cases hvars
    | mk ns field =>
      simp only [VSOctaveH5ReaderStruct.loc] at hloc
      cases hloc
      simp only [VSOctaveH5ReaderStruct.fieldValue] at hw
      rw [(element_of_opens _ child ifield hopen).2] at hw
      exact ⟨w, hw⟩
  | cell c nrow ncol irow icol l child hd hr hk hloc hopen =>
    obtain ⟨nrow2, ncol2, data, hd2, _, _, hall⟩ := loadCell_ok_all_cells c v hload
    rw [hd] at hd2
    cases hd2
    obtain ⟨w, hw⟩ := hall irow icol hr hk
    cases c with
    | failed e => cases hd
    | mk dims cell =>
      simp only [VSOctaveH5ReaderCellArray.loc] at hloc
      cases hloc
      simp only [VSOctaveH5ReaderCellArray.cellValue] at hw
      rw [(element_of_opens _ child _ hopen).1] at hw
      exact ⟨w, hw⟩

/-- When the load of the root returns, so did the load of every node below it, at any depth. -/
theorem load_ok_of_reachable (root node : Reader)
    (h : Relation.ReflTransGen Descends root node) (v : mxArray) (hload : root.load = .ok v) :
    ∃ w, node.load = .ok w := by
  induction h with
  | refl => exact ⟨v, hload⟩
  | tail _ hstep ih =>
    obtain ⟨w, hw⟩ := ih
    exact load_ok_of_descends _ _ hstep w hw


theorem decode_scalar_error (k : ElementKind) (l : Location) (e : VSOctaveH5Exception)
    (h : l.readScalar k.scalarType = .error e) :
    decodeWith VSOctaveH5ReaderCellArray.loadLogicalScalar
        VSOctaveH5ReaderCellArray.loadRealScalar k l = .error e
    ∧ decodeWith VSOctaveH5ReaderStruct.loadLogicalScalar
        VSOctaveH5ReaderStruct.loadRealScalar k l = .error e := by
  cases k <;>
    simp only [decodeWith, VSOctaveH5ReaderCellArray.loadLogicalScalar,
      VSOctaveH5ReaderCellArray.loadRealScalar, VSOctaveH5ReaderStruct.loadLogicalScalar,
      VSOctaveH5ReaderStruct.loadRealScalar] <;>
    simp only [ElementKind.scalarType] at h <;> rw [h] <;> exact ⟨rfl, rfl⟩

theorem decode_matrix_dims_error (k : ElementKind) (l : Location) (e : VSOctaveH5Exception)
    (h : l.dimensions = .error e) :
    decodeWith VSOctaveH5ReaderCellArray.loadLogicalMatrix
        VSOctaveH5ReaderCellArray.loadRealMatrix k l = .error e
    ∧ decodeWith VSOctaveH5ReaderStruct.loadLogicalMatrix
        VSOctaveH5ReaderStruct.loadRealMatrix k l = .error e := by
  cases k <;>
    simp only [decodeWith, VSOctaveH5ReaderCellArray.loadLogicalMatrix,
      VSOctaveH5ReaderCellArray.loadRealMatrix, VSOctaveH5ReaderStruct.loadLogicalMatrix,
      VSOctaveH5ReaderStruct.loadRealMatrix] <;>
    rw [h] <;> exact ⟨rfl, rfl⟩

theorem decode_matrix_read_error (k : ElementKind) (l : Location) (e : VSOctaveH5Exception)
    (d : Nat × Nat) (hd : l.dimensions = .ok d) (h : l.readMatrix k.ctype = .error e) :
    decodeWith VSOctaveH5ReaderCellArray.loadLogicalMatrix
        VSOctaveH5ReaderCellArray.loadRealMatrix k l = .error e
    ∧ decodeWith VSOctaveH5ReaderStruct.loadLogicalMatrix
        VSOctaveH5ReaderStruct.loadRealMatrix k l = .error e := by
  cases k <;>
    simp only [decodeWith, VSOctaveH5ReaderCellArray.loadLogicalMatrix,
      VSOctaveH5ReaderCellArray.loadRealMatrix, VSOctaveH5ReaderStruct.loadLogicalMatrix,
      VSOctaveH5ReaderStruct.loadRealMatrix] <;>
    first
      | (rw [hd, h]; exact ⟨rfl, rfl⟩)
      | (rw [hd, show l.readMatrix .mxLogical = .error e from h]; exact ⟨rfl, rfl⟩)

/-- A query of a location that the dispatch reaches and that throws makes the value of the
location throw the same exception, in `loadCell` and in `loadStruct`. -/
theorem element_leaf_failure (l : Location) (e : VSOctaveH5Exception) (ifield : Nat)
    (h : l.LeafFailure e) :
    loadCell.element l ifield = .error e ∧ loadStruct.element l ifield = .error e := by
  cases h with
  | isStruct h1 =>
    cases l
    simp only [Location.isStruct] at h1
    subst h1
    exact ⟨by rw [loadCell.element]; rfl, by rw [loadStruct.element]; rfl⟩
  | isCellArray h1 h2 =>
    cases l
    simp only [Location.isStruct, Location.isCellArray] at h1 h2
    subst h1 h2
    exact ⟨by rw [loadCell.element]; rfl, by rw [loadStruct.element]; rfl⟩
  | isString h1 h2 h3 =>
    cases l
    simp only [Location.isStruct, Location.isCellArray, Location.isString] at h1 h2 h3
    subst h1 h2 h3
    exact ⟨by rw [loadCell.element]; rfl, by rw [loadStruct.element]; rfl⟩
  | readString h1 h2 h3 h4 =>
    have hc : VSOctaveH5ReaderCellArray.loadString l = .error e := by
      rw [VSOctaveH5ReaderCellArray.loadString, h4]; rfl
    have hs : VSOctaveH5ReaderStruct.loadString l = .error e := by
      rw [VSOctaveH5ReaderStruct.loadString, h4]; rfl
    cases l
    simp only [Location.isStruct, Location.isCellArray, Location.isString] at h1 h2 h3
    subst h1 h2 h3
    exact ⟨by rw [loadCell.element]; exact hc, by rw [loadStruct.element]; exact hs⟩
  | isScalar h1 h2 h3 h4 =>
    cases l
    simp only [Location.isStruct, Location.isCellArray, Location.isString,
      Location.isScalar] at h1 h2 h3 h4
    subst h1 h2 h3 h4
    exact ⟨by rw [loadCell.element]; rfl, by rw [loadStruct.element]; rfl⟩
  | scalarType h1 h2 h3 h4 h5 =>
    have hc : VSOctaveH5ReaderCellArray.loadScalar l = .error e := by
      rw [VSOctaveH5ReaderCellArray.loadScalar, h5]; rfl
    have hs : VSOctaveH5ReaderStruct.loadScalar l = .error e := by
      rw [VSOctaveH5ReaderStruct.loadScalar, h5]; rfl
    cases l
    simp only [Location.isStruct, Location.isCellArray, Location.isString,
      Location.isScalar] at h1 h2 h3 h4
    subst h1 h2 h3 h4
    exact ⟨by rw [loadCell.element]; exact hc, by rw [loadStruct.element]; exact hs⟩
  | readScalar tag h1 h2 h3 h4 h5 h6 =>
    have hc : VSOctaveH5ReaderCellArray.loadScalar l = .error e := by
      rw [loadScalar_cell_eq l tag h5]; exact (decode_scalar_error _ l e h6).1
    have hs : VSOctaveH5ReaderStruct.loadScalar l = .error e := by
      rw [loadScalar_struct_eq l tag h5]; exact (decode_scalar_error _ l e h6).2
    cases l
    simp only [Location.isStruct, Location.isCellArray, Location.isString,
      Location.isScalar] at h1 h2 h3 h4
    subst h1 h2 h3 h4
    exact ⟨by rw [loadCell.element]; exact hc, by rw [loadStruct.element]; exact hs⟩
  | isMatrix h1 h2 h3 h4 h5 =>
    cases l
    simp only [Location.isStruct, Location.isCellArray, Location.isString,
      Location.isScalar, Location.isMatrix] at h1 h2 h3 h4 h5
    subst h1 h2 h3 h4 h5
    exact ⟨by rw [loadCell.element]; rfl, by rw [loadStruct.element]; rfl⟩
  | matrixType h1 h2 h3 h4 h5 h6 =>
    have hc : VSOctaveH5ReaderCellArray.loadMatrix l = .error e := by
      rw [VSOctaveH5ReaderCellArray.loadMatrix, h6]; rfl
    have hs : VSOctaveH5ReaderStruct.loadMatrix l = .error e := by
      rw [VSOctaveH5ReaderStruct.loadMatrix, h6]; rfl
    cases l
    simp only [Location.isStruct, Location.isCellArray, Location.isString,
      Location.isScalar, Location.isMatrix] at h1 h2 h3 h4 h5
    subst h1 h2 h3 h4 h5
    exact ⟨by rw [loadCell.element]; exact hc, by rw [loadStruct.element]; exact hs⟩
  | dimensions tag h1 h2 h3 h4 h5 h6 h7 =>
    have hc : VSOctaveH5ReaderCellArray.loadMatrix l = .error e := by
      rw [loadMatrix_cell_eq l tag h6]; exact (decode_matrix_dims_error _ l e h7).1
    have hs : VSOctaveH5ReaderStruct.loadMatrix l = .error e := by
      rw [loadMatrix_struct_eq l tag h6]; exact (decode_matrix_dims_error _ l e h7).2
    cases l
    simp only [Location.isStruct, Location.isCellArray, Location.isString,
      Location.isScalar, Location.isMatrix] at h1 h2 h3 h4 h5
    subst h1 h2 h3 h4 h5
    exact ⟨by rw [loadCell.element]; exact hc, by rw [loadStruct.element]; exact hs⟩
  | readMatrix tag d h1 h2 h3 h4 h5 h6 h7 h8 =>
    have hc : VSOctaveH5ReaderCellArray.loadMatrix l = .error e := by
      rw [loadMatrix_cell_eq l tag h6]; exact (decode_matrix_read_error _ l e d h7 h8).1
    have hs : VSOctaveH5ReaderStruct.loadMatrix l = .error e := by
      rw [loadMatrix_struct_eq l tag h6]; exact (decode_matrix_read_error _ l e d h7 h8).2
    cases l
    simp only [Location.isStruct, Location.isCellArray, Location.isString,
      Location.isScalar, Location.isMatrix] at h1 h2 h3 h4 h5
    subst h1 h2 h3 h4 h5
    exact ⟨by rw [loadCell.element]; exact hc, by rw [loadStruct.element]; exact hs⟩

/-- The exception of the first failing element of a node is the exception of the node. -/
theorem load_error_of_first_failure (parent child : Reader) (h : FirstFailure parent child)
    (e : VSOctaveH5Exception) (hload : child.load = .error e) : parent.load = .error e := by
  cases h with
  | field s names ifield l child hvars hi hbefore hloc hopen =>
    refine loadStruct_first_error s names ifield e hvars hi hbefore ?_
    cases s with
    | failed e2 => cases hvars
    | mk ns field =>
      simp only [VSOctaveH5ReaderStruct.loc] at hloc
      cases hloc
      simp only [VSOctaveH5ReaderStruct.fieldValue]
      rw [(element_of_opens _ child ifield hopen).2]
      exact hload
  | cell c nrow ncol irow icol l child hd hr hk hbefore hloc hopen =>
    refine loadCell_first_error c nrow ncol irow icol e hd hr hk hbefore ?_
    cases c with
    | failed e2 => cases hd
    | mk dims cell =>
      simp only [VSOctaveH5ReaderCellArray.loc] at hloc
      cases hloc
      simp only [VSOctaveH5ReaderCellArray.cellValue]
      rw [(element_of_opens _ child _ hopen).1]
      exact hload

/-- The exception of a node reached through first failing elements, at any depth, is the
exception of the root. -/
theorem load_error_of_failure_path (root node : Reader)
    (h : Relation.ReflTransGen FirstFailure root node) (e : VSOctaveH5Exception)
    (hload : node.load = .error e) : root.load = .error e := by
  induction h with
  | refl => exact hload
  | tail _ hstep ih => exact ih (load_error_of_first_failure _ _ hstep e hload)

/-- The gateway called with one row of characters naming a file whose load throws. -/
theorem mexFunction_load_error (newReader : String → VSOctaveH5ReaderStruct) (nlhs : Int)
    (n : Nat) (text : String) (e : VSOctaveH5Exception) (hl : nlhs ≤ 1)
    (hn : n + 1 < UINT_RANGE) (hload : loadStruct (newReader (c_str text)) = .error e) :
    mexFunction newReader nlhs [.char 1 n text] = { plhs0 := none, errmsg := some e.message } := by
  have h1 : ¬ (nlhs > 1) := by omega
  have h2 : toUnsigned (n + 1) = n + 1 := toUnsigned_of_lt hn
  simp only [mexFunction, List.length_singleton, ne_eq, not_true_eq_false, if_false, h1,
    List.headD_cons, mxIsChar, mxGetM, mxGetN, h2, mxGetString, Nat.one_mul, le_refl,
    if_true, hload, mexErrMsgTxt]

/-- The gateway assigns an output only from a load that returned. -/
theorem mexFunction_output (newReader : String → VSOctaveH5ReaderStruct) (nlhs : Int)
    (prhs : List mxArray) (sv : mxArray)
    (h : (mexFunction newReader nlhs prhs).plhs0 = some sv) :
    ∃ filename, loadStruct (newReader filename) = .ok sv := by
  simp only [mexFunction] at h
  split_ifs at h with h1 h2 h3 h4 h5
  all_goals first
    | (simp only [mexErrMsgTxt] at h; cases h)
    | skip
  split at h
  · rename_i sv2 hok
    simp only [Option.some.injEq] at h
    subst h
    exact ⟨_, hok⟩
  · simp only [mexErrMsgTxt] at h; cases h

theorem loadStruct_variables_error (s : VSOctaveH5ReaderStruct) (e : VSOctaveH5Exception)
    (h : s.variables_ = .error e) : loadStruct s = .error e := by
  cases s with
  | failed e2 =>
    simp only [VSOctaveH5ReaderStruct.variables_] at h
    cases h
    rw [loadStruct]; rfl
  | mk ns field =>
    simp only [VSOctaveH5ReaderStruct.variables_] at h
    subst h
    rw [loadStruct]; rfl

theorem loadCell_dimensions_error (c : VSOctaveH5ReaderCellArray) (e : VSOctaveH5Exception)
    (h : c.dimensions = .error e) : loadCell c = .error e := by
  cases c with
  | failed e2 =>
    simp only [VSOctaveH5ReaderCellArray.dimensions] at h
    cases h
    rw [loadCell]; rfl
  | mk dims cell =>
    cases dims with
    | ok d => cases h
    | error e2 =>
      cases h
      exact loadCell_dims_error _ _

/-- C7: an exception thrown by a query of the source ends the whole load with that exception.
The exception of the first failing field of a struct, or of the first failing cell of a grid in
the order of the visit, is the exception of `loadStruct`, or `loadCell`; so is the exception of
the enumeration or of the shape query; a failing query of a location (a predicate, or a read of
a string, scalar or matrix decoder) is the exception of the value of that location; and through
nested structs and grids, at any depth, the exception of a node on a path of first failures is
the exception of the load of the root.  No partial value is returned: when a load returns, the
value of every field and of every cell was computed and the load of every node below the root
returned.  The gateway reports the message of the exception and assigns no output; an output is
assigned only from a load that returned. -/
theorem failure_propagates (root node : Reader) (e : VSOctaveH5Exception) :
    (Relation.ReflTransGen FirstFailure root node → node.load = .error e →
        root.load = .error e)
    ∧ (∀ (s : VSOctaveH5ReaderStruct) (names : List String) (k : Nat),
        s.variables_ = .ok names → k < toUnsigned names.length →
        (∀ i, i < k → ∃ v, s.fieldValue (names.getD i "") i = .ok v) →
        s.fieldValue (names.getD k "") k = .error e → loadStruct s = .error e)
    ∧ (∀ (c : VSOctaveH5ReaderCellArray) (nrow ncol irow icol : Nat),
        c.dimensions = .ok (nrow, ncol) → irow < nrow → icol < ncol →
        (∀ r k, r < nrow → k < ncol → (r < irow ∨ (r = irow ∧ k < icol)) →
          ∃ v, c.cellValue nrow r k = .ok v) →
        c.cellValue nrow irow icol = .error e → loadCell c = .error e)
    ∧ (∀ (l : Location) (ifield : Nat), l.LeafFailure e →
        loadCell.element l ifield = .error e ∧ loadStruct.element l ifield = .error e)
    ∧ (∀ s : VSOctaveH5ReaderStruct, s.variables_ = .error e → loadStruct s = .error e)
    ∧ (∀ c : VSOctaveH5ReaderCellArray, c.dimensions = .error e → loadCell c = .error e)
    ∧ (∀ v, root.load = .ok v → Relation.ReflTransGen Descends root node →
        ∃ w, node.load = .ok w)
    ∧ (∀ (s : VSOctaveH5ReaderStruct) (sv : mxArray), loadStruct s = .ok sv →
        ∃ names vals, s.variables_ = .ok names ∧ vals.length = toUnsigned names.length
          ∧ sv = .struct ((names.take (toUnsigned names.length)).map newStrCpy) vals
          ∧ ∀ i, i < toUnsigned names.length →
              ∃ v, s.fieldValue (names.getD i "") i = .ok v ∧ vals[i]? = some v)
    ∧ (∀ (c : VSOctaveH5ReaderCellArray) (out : mxArray), loadCell c = .ok out →
        ∃ nrow ncol data, c.dimensions = .ok (nrow, ncol) ∧ out = .cell nrow ncol data
          ∧ data.length = nrow * ncol
          ∧ ∀ irow icol, irow < nrow → icol < ncol →
              ∃ v, c.cellValue nrow irow icol = .ok v)
    ∧ (∀ (newReader : String → VSOctaveH5ReaderStruct) (nlhs : Int) (n : Nat) (text : String),
        nlhs ≤ 1 → n + 1 < UINT_RANGE → loadStruct (newReader (c_str text)) = .error e →
        mexFunction newReader nlhs [.char 1 n text]
          = { plhs0 := none, errmsg := some e.message })
    ∧ (∀ (newReader : String → VSOctaveH5ReaderStruct) (nlhs : Int) (prhs : List mxArray)
        (sv : mxArray), (mexFunction newReader nlhs prhs).plhs0 = some sv →
        ∃ filename, loadStruct (newReader filename) = .ok sv) :=
  ⟨fun h hload => load_error_of_failure_path root node h e hload,
    fun s names k hv hk hb hf => loadStruct_first_error s names k e hv hk hb hf,
    fun c nrow ncol irow icol hd hr hk hb hf =>
      loadCell_first_error c nrow ncol irow icol e hd hr hk hb hf,
    fun l ifield h => element_leaf_failure l e ifield h,
    fun s h => loadStruct_variables_error s e h,
    fun c h => loadCell_dimensions_error c e h,
    fun v hload h => load_ok_of_reachable root node h v hload,
    loadStruct_ok_all_fields,
    loadCell_ok_all_cells,
    fun newReader nlhs n text hl hn hload =>
      mexFunction_load_error newReader nlhs n text e hl hn hload,
    mexFunction_output⟩

/-- C7 on a file whose root struct holds, three levels down (struct, grid, struct), a scalar
whose read throws: the load of the root throws that exception, and the gateway called on the
file reports its message and assigns no output. -/
theorem failure_propagates_witness :
    loadStruct deepFailure = .error { message := "truncated file" }
    ∧ mexFunction (fun _ => deepFailure) 1 [.char 1 7 "data.h5"]
        = { plhs0 := none, errmsg := some "truncated file" } :=
  ⟨rfl,
    (failure_propagates (.struct deepFailure) (.struct deepFailure)
      { message := "truncated file" }).2.2.2.2.2.2.2.2.2.1
      (fun _ => deepFailure) 1 7 "data.h5" (by decide) (by decide) rfl⟩

/-! ## C8: which exception a grid with several failing cells reports -/

/-- C8, as stated, fails: in the 2-by-2 grid where the cells `(0, 1)` and `(1, 0)` throw, the
failing cell with the smallest flat index is `(1, 0)`, at index 1, but `loadCell` visits the
cells row by row and throws the exception of `(0, 1)`, at index 2. -/
theorem c8_counterexample :
    loadCell twoFailures = .error { message := "cell (0,1)" }
    ∧ twoFailures.cellValue 2 0 0 = .ok (mxCreateString "fine")
    ∧ twoFailures.cellValue 2 1 0 = .error { message := "cell (1,0)" }
    ∧ twoFailures.cellValue 2 0 1 = .error { message := "cell (0,1)" }
    ∧ cellIndex 2 1 0 = 1 ∧ cellIndex 2 0 1 = 2
    ∧ ({ message := "cell (1,0)" } : VSOctaveH5Exception) ≠ { message := "cell (0,1)" } :=
  ⟨rfl, rfl, rfl, rfl, by decide, by decide, by decide⟩

/-- C8 (amended): when several cells of a grid fail, `loadCell` throws the exception of the
first failing cell in the order of the visit, which goes row by row: the failing cell of the
smallest row and, in that row, of the smallest column.  Nested content is visited depth-first:
when that cell holds a nested struct or grid, the exception is the one of the load of the
nested reader. -/
theorem first_error_in_visit_order (c : VSOctaveH5ReaderCellArray)
    (nrow ncol irow icol : Nat) (e : VSOctaveH5Exception)
    (hd : c.dimensions = .ok (nrow, ncol)) (hr : irow < nrow) (hk : icol < ncol)
    (hbefore : ∀ r k, r < nrow → k < ncol → (r < irow ∨ (r = irow ∧ k < icol)) →
      ∃ v, c.cellValue nrow r k = .ok v)
    (hfail : c.cellValue nrow irow icol = .error e) :
    loadCell c = .error e
    ∧ (∀ l child, c.loc irow icol = .ok l → l.Opens child → child.load = .error e) := by
  refine ⟨loadCell_first_error c nrow ncol irow icol e hd hr hk hbefore hfail, ?_⟩
  intro l child hloc hopen
  cases c with
  | failed e2 => cases hd
  | mk dims cell =>
    simp only [VSOctaveH5ReaderCellArray.loc] at hloc
    cases hloc
    simp only [VSOctaveH5ReaderCellArray.cellValue] at hfail
    rw [(element_of_opens _ child _ hopen).1] at hfail
    exact hfail

/-- C8 on the 2-by-2 grid with the two failing cells: the cell `(0, 1)` is the first failing
cell of the visit, and its exception is the one `loadCell` throws. -/
theorem first_error_in_visit_order_witness :
    twoFailures.dimensions = .ok (2, 2)
    ∧ twoFailures.cellValue 2 0 1 = .error { message := "cell (0,1)" }
    ∧ loadCell twoFailures = .error { message := "cell (0,1)" } :=
  ⟨rfl, rfl,
    (first_error_in_visit_order twoFailures 2 2 0 1 { message := "cell (0,1)" } rfl
      (by decide) (by decide)
      (by
        intro r k _ hk h
        rcases h with h | ⟨h1, h2⟩
        · omega
        · have hk0 : k = 0 := by omega
          subst h1 hk0
          exact ⟨_, rfl⟩)
      rfl).1⟩

/-! ## C9: the placeholder of an unrecognized location -/

theorem element_none_holds (l : Location) (ifield : Nat)
    (h1 : l.isStruct = .ok false) (h2 : l.isCellArray = .ok false)
    (h3 : l.isString = .ok false) (h4 : l.isScalar = .ok false)
    (h5 : l.isMatrix = .ok false) :
    loadCell.element l ifield = .ok (mxCreateDoubleScalar (ifield : ℚ))
    ∧ loadStruct.element l ifield = .ok (mxCreateDoubleScalar (ifield : ℚ)) := by
  cases l
  simp only [Location.isStruct, Location.isCellArray, Location.isString,
    Location.isScalar, Location.isMatrix] at h1 h2 h3 h4 h5
  subst h1 h2 h3 h4 h5
  exact ⟨by rw [loadCell.element]; rfl, by rw [loadStruct.element]; rfl⟩

/-- C9, as stated, fails on a grid of more than `2^32` cells: in the grid of 2 rows and
`2^31 + 1` columns the unrecognized cell `(0, 2^31)` has the flat index `2^32`, but its
placeholder has the value 0, the index computed in `unsigned`. -/
theorem c9_counterexample :
    (0 < 2 ∧ 2 ^ 31 < 2 ^ 31 + 1)
    ∧ wideGrid.dimensions = .ok (2, 2 ^ 31 + 1)
    ∧ wideGrid.loc 0 (2 ^ 31) = .ok unrecognized
    ∧ wideGrid.cellValue 2 0 (2 ^ 31) = .ok (mxCreateDoubleScalar 0)
    ∧ (((2 ^ 31 * 2 + 0 : Nat) : ℚ) ≠ 0) := by
  have hidx : cellIndex 2 0 (2 ^ 31) = 0 := by decide
  have hdims : wideGrid.dimensions = .ok (2, 2 ^ 31 + 1) := by
    have h1 : toUnsigned 2 = 2 := by decide
    have h2 : toUnsigned (2 ^ 31 + 1) = 2 ^ 31 + 1 := by decide
    show Except.ok (toUnsigned 2, toUnsigned (2 ^ 31 + 1)) = _
    rw [h1, h2]
  refine ⟨by decide, hdims, rfl, ?_, by norm_num⟩
  have h := (element_unrecognized (cellIndex 2 0 (2 ^ 31))).1
  rw [hidx, Nat.cast_zero] at h
  exact h

/-- C9 (amended): a location for which none of the five predicates holds is not an error.  Its
value is a 1-by-1 double holding the index `ifield` of the slot it is stored in.  In a grid the
index is `icol*nrow + irow` computed in `unsigned`, which is the flat index when the grid has at
most `2^32` cells, and the loaded grid then holds the placeholder at its flat index.  In a
struct the index is the position of the field in the enumeration, and the loaded struct holds
the placeholder at that position. -/
theorem placeholder_value (l : Location)
    (h1 : l.isStruct = .ok false) (h2 : l.isCellArray = .ok false)
    (h3 : l.isString = .ok false) (h4 : l.isScalar = .ok false)
    (h5 : l.isMatrix = .ok false) :
    (∀ ifield, loadCell.element l ifield = .ok (.numeric .mxDOUBLE_CLASS 1 1 [(ifield : ℚ)])
        ∧ loadStruct.element l ifield = .ok (.numeric .mxDOUBLE_CLASS 1 1 [(ifield : ℚ)]))
    ∧ (∀ (c : VSOctaveH5ReaderCellArray) (nrow ncol irow icol : Nat),
        c.loc irow icol = .ok l →
        c.cellValue nrow irow icol
            = .ok (.numeric .mxDOUBLE_CLASS 1 1 [((icol * nrow + irow) % 2 ^ 32 : Nat)])
        ∧ (nrow * ncol ≤ 2 ^ 32 → irow < nrow → icol < ncol →
            c.cellValue nrow irow icol
              = .ok (.numeric .mxDOUBLE_CLASS 1 1 [((icol * nrow + irow : Nat) : ℚ)])
            ∧ ∀ out, c.dimensions = .ok (nrow, ncol) → loadCell c = .ok out →
                ∃ data, out = .cell nrow ncol data
                  ∧ data[icol * nrow + irow]?
                      = some (.numeric .mxDOUBLE_CLASS 1 1 [((icol * nrow + irow : Nat) : ℚ)])))
    ∧ (∀ (s : VSOctaveH5ReaderStruct) (names : List String) (ifield : Nat) (sv : mxArray),
        s.variables_ = .ok names → ifield < toUnsigned names.length →
        s.loc (names.getD ifield "") = .ok l → loadStruct s = .ok sv →
        ∃ fnames vals, sv = .struct fnames vals
          ∧ vals[ifield]? = some (.numeric .mxDOUBLE_CLASS 1 1 [(ifield : ℚ)])) := by
  have hel := fun ifield => element_none_holds l ifield h1 h2 h3 h4 h5
  refine ⟨hel, ?_, ?_⟩
  · intro c nrow ncol irow icol hloc
    have hval : c.cellValue nrow irow icol
        = .ok (mxCreateDoubleScalar ((cellIndex nrow irow icol : Nat) : ℚ)) := by
      cases c with
      | failed e => cases hloc
      | mk dims cell =>
        simp only [VSOctaveH5ReaderCellArray.loc] at hloc
        cases hloc
        exact (hel _).1
    refine ⟨hval, ?_⟩
    intro hsize hr hk
    have hflat : cellIndex nrow irow icol = icol * nrow + irow :=
      cellIndex_eq_flat hsize hr hk
    rw [hflat] at hval
    refine ⟨hval, ?_⟩
    intro out hd hload
    obtain ⟨nrow2, ncol2, hd2, hall, hout⟩ := loadCell_ok_inv c out hload
    rw [hd] at hd2
    cases hd2
    refine ⟨_, hout, ?_⟩
    rw [storedCells_flat _ hsize hr hk, hval]
    rfl
  · intro s names ifield sv hvars hi hloc hload
    obtain ⟨names2, vals, hvars2, _, hsv, hall⟩ := loadStruct_ok_all_fields s sv hload
    rw [hvars] at hvars2
    cases hvars2
    obtain ⟨v, hv, hget⟩ := hall ifield hi
    refine ⟨_, vals, hsv, ?_⟩
    cases s with
    | failed e => cases hvars
    | mk ns field =>
      simp only [VSOctaveH5ReaderStruct.loc] at hloc
      cases hloc
      simp only [VSOctaveH5ReaderStruct.fieldValue] at hv
      rw [(hel _).2] at hv
      cases hv
      exact hget

/-- C9 at the unrecognized location: stored in the slot 5 it is the double 5, in a cell and in
a struct field. -/
theorem placeholder_value_witness :
    unrecognized.isStruct = .ok false ∧ unrecognized.isMatrix = .ok false
    ∧ loadCell.element unrecognized 5 = .ok (.numeric .mxDOUBLE_CLASS 1 1 [((5 : Nat) : ℚ)])
    ∧ loadStruct.element unrecognized 5 = .ok (.numeric .mxDOUBLE_CLASS 1 1 [((5 : Nat) : ℚ)]) :=
  ⟨rfl, rfl, (placeholder_value unrecognized rfl rfl rfl rfl rfl).1 5⟩

/-! ## C10: boolean scalars -/

/-- C10: a scalar location tagged `bool` whose read into the `unsigned` gives `v` decodes to
the logical scalar `v != 0`, in the cell chain and in the struct chain: 0 gives false and every
other value true. -/
theorem logical_scalar (l : Location) (v : ℚ) (htag : l.elementType = .ok "bool")
    (hread : l.readScalar .unsigned = .ok v) :
    VSOctaveH5ReaderCellArray.loadLogicalScalar l = .ok (.logical 1 1 [decide (v ≠ 0)])
    ∧ VSOctaveH5ReaderStruct.loadLogicalScalar l = .ok (.logical 1 1 [decide (v ≠ 0)])
    ∧ VSOctaveH5ReaderCellArray.loadScalar l = .ok (.logical 1 1 [decide (v ≠ 0)])
    ∧ VSOctaveH5ReaderStruct.loadScalar l = .ok (.logical 1 1 [decide (v ≠ 0)])
    ∧ (v = 0 → mxCreateLogicalScalar v = .logical 1 1 [false])
    ∧ (v ≠ 0 → mxCreateLogicalScalar v = .logical 1 1 [true]) := by
  have hc : VSOctaveH5ReaderCellArray.loadLogicalScalar l
      = .ok (.logical 1 1 [decide (v ≠ 0)]) := by
    rw [VSOctaveH5ReaderCellArray.loadLogicalScalar, hread]; rfl
  have hs : VSOctaveH5ReaderStruct.loadLogicalScalar l
      = .ok (.logical 1 1 [decide (v ≠ 0)]) := by
    rw [VSOctaveH5ReaderStruct.loadLogicalScalar, hread]; rfl
  refine ⟨hc, hs, ?_, ?_, ?_, ?_⟩
  · rw [VSOctaveH5ReaderCellArray.loadScalar, htag]; exact hc
  · rw [VSOctaveH5ReaderStruct.loadScalar, htag]; exact hs
  · intro h0; subst h0; simp [mxCreateLogicalScalar]
  · intro hne; simp [mxCreateLogicalScalar, hne]

/-- C10 at the values 0, 1 and 256: false, true and true. -/
theorem logical_scalar_witness :
    VSOctaveH5ReaderCellArray.loadScalar (scalar "bool" 0) = .ok (.logical 1 1 [false])
    ∧ VSOctaveH5ReaderStruct.loadScalar (scalar "bool" 1) = .ok (.logical 1 1 [true])
    ∧ VSOctaveH5ReaderCellArray.loadScalar (scalar "bool" 256)
        = .ok (.logical 1 1 [decide ((256 : ℚ) ≠ 0)])
    ∧ mxCreateLogicalScalar 256 = .logical 1 1 [true] :=
  ⟨rfl, rfl, (logical_scalar (scalar "bool" 256) 256 rfl rfl).2.2.1,
    (logical_scalar (scalar "bool" 256) 256 rfl rfl).2.2.2.2.2 (by norm_num)⟩

/-! ## C11: decoding the encoding of a value tree -/

/-- The struct that `loadStruct` returns when every field loads. -/
theorem loadStruct_all_ok (names : List String) (field : String → Location)
    (val : Nat → mxArray)
    (hval : ∀ i, i < toUnsigned names.length →
      loadStruct.element (field (names.getD i "")) i = .ok (val i)) :
    loadStruct (.mk (.ok names) field)
      = .ok (.struct ((names.take (toUnsigned names.length)).map newStrCpy)
          ((List.range (toUnsigned names.length)).map val)) := by
  rw [loadStruct_mk_ok]
  rw [forLoop_ok (toUnsigned names.length) _ (fun i sv => mxSetFieldByNumber sv 0 i (val i))]
  · rw [mxCreateStructMatrix, foldl_setField_struct, foldl_set_range _ _ _ (by simp)]
    simp
  · intro i hi st
    simp only [hval i hi]
    rfl

theorem length_encodeAll (ts : List mxArray) : (encodeAll ts).length = ts.length := by
  induction ts with
  | nil => simp [encodeAll]
  | cons t ts ih => simp [encodeAll, ih]

theorem getD_encodeAll (ts : List mxArray) (i : Nat) :
    (encodeAll ts).getD i unrecognized = encode (ts.getD i .null) := by
  induction ts generalizing i with
  | nil => simp [encodeAll, encode]
  | cons t ts ih =>
    cases i with
    | zero => simp [encodeAll]
    | succ i => simpa [encodeAll] using ih i

/-- In a list of distinct names the lookup of the `i`-th name finds the `i`-th location. -/
theorem lookup_zip (names : List String) (locs : List Location) (i : Nat)
    (hnd : names.Nodup) (hlen : names.length = locs.length) (hi : i < names.length) :
    lookup (names.zip locs) (names.getD i "") = locs.getD i unrecognized := by
  induction names generalizing locs i with
  | nil => simp at hi
  | cons n ns ih =>
    cases locs with
    | nil => simp at hlen
    | cons l ls =>
      rw [List.nodup_cons] at hnd
      cases i with
      | zero => simp [lookup]
      | succ i =>
        have hi2 : i < ns.length := by simpa using hi
        have hne : ¬ n = ns.getD i "" := by
          intro h
          apply hnd.1
          rw [h, List.getD_eq_getElem _ _ hi2]
          exact List.getElem_mem _
        simp only [List.zip_cons_cons, lookup, List.getD_cons_succ, hne, if_false]
        exact ih ls i hnd.2 (by simpa using hlen) hi2

theorem fillBuffer_of_length_eq {α : Type} (buf src : List α) (h : src.length = buf.length) :
    fillBuffer buf src = src := by
  simp [fillBuffer, h]

theorem map_bool_roundtrip (data : List Bool) :
    (data.map (fun b => if b then (1 : ℚ) else 0)).map (fun v => decide (v ≠ 0)) = data := by
  rw [List.map_map]
  conv_rhs => rw [← List.map_id data]
  apply List.map_congr_left
  intro b _
  cases b <;> simp

theorem roundtrip_text (s : String) (h : c_str s = s) (ifield : Nat) :
    loadCell.element (encode (.char 1 s.length s)) ifield = .ok (.char 1 s.length s)
    ∧ loadStruct.element (encode (.char 1 s.length s)) ifield = .ok (.char 1 s.length s) := by
  have hc : VSOctaveH5ReaderCellArray.loadString (text s) = .ok (.char 1 s.length s) := by
    show Except.ok (mxCreateString (c_str s)) = _
    rw [h]; rfl
  have hs : VSOctaveH5ReaderStruct.loadString (text s) = .ok (.char 1 s.length s) := hc
  constructor
  · rw [encode, text, loadCell.element]; exact hc
  · rw [encode, text, loadStruct.element]; exact hs

theorem roundtrip_boolMatrix (m n : Nat) (data : List Bool) (hm : m < UINT_RANGE)
    (hn : n < UINT_RANGE) (hlen : data.length = m * n) (ifield : Nat) :
    loadCell.element (encode (.logical m n data)) ifield = .ok (.logical m n data)
    ∧ loadStruct.element (encode (.logical m n data)) ifield = .ok (.logical m n data) := by
  have hc : VSOctaveH5ReaderCellArray.loadMatrix
      (matrix "bool" m n (data.map (fun b => if b then 1 else 0))) = .ok (.logical m n data) := by
    show Except.ok (mxArray.logical (toUnsigned m) (toUnsigned n)
      (fillBuffer (List.replicate (toUnsigned m * toUnsigned n) false)
        ((data.map (fun b => if b then (1 : ℚ) else 0)).map (fun v => decide (v ≠ 0))))) = _
    rw [toUnsigned_of_lt hm, toUnsigned_of_lt hn, map_bool_roundtrip,
      fillBuffer_of_length_eq _ _ (by simp [hlen])]
  have hs : VSOctaveH5ReaderStruct.loadMatrix
      (matrix "bool" m n (data.map (fun b => if b then 1 else 0))) = .ok (.logical m n data) :=
    hc
  constructor
  · rw [encode, matrix, loadCell.element]; exact hc
  · rw [encode, matrix, loadStruct.element]; exact hs

theorem roundtrip_int64 (v : ℚ) (ifield : Nat) :
    loadCell.element (encode (.numeric .mxINT64_CLASS 1 1 [v])) ifield
      = .ok (.numeric .mxINT64_CLASS 1 1 [v])
    ∧ loadStruct.element (encode (.numeric .mxINT64_CLASS 1 1 [v])) ifield
      = .ok (.numeric .mxINT64_CLASS 1 1 [v]) := by
  constructor
  · rw [encode, scalar, loadCell.element]; rfl
  · rw [encode, scalar, loadStruct.element]; rfl

theorem encode_struct_eq (names : List String) (fields : List mxArray) :
    encode (.struct names fields) = nested (encodeStruct names fields) := by
  rw [encode]; rfl


theorem element_nested (rs : VSOctaveH5ReaderStruct) (ifield : Nat) :
    loadCell.element (nested rs) ifield = loadStruct rs
    ∧ loadStruct.element (nested rs) ifield = loadStruct rs := by
  constructor
  · rw [nested, loadCell.element]; rfl
  · rw [nested, loadStruct.element]; rfl

theorem element_grid (rc : VSOctaveH5ReaderCellArray) (ifield : Nat) :
    loadCell.element (grid rc) ifield = loadCell rc
    ∧ loadStruct.element (grid rc) ifield = loadCell rc := by
  constructor
  · rw [grid, loadCell.element]; rfl
  · rw [grid, loadStruct.element]; rfl

theorem getD_mem_or_default {α : Type} (l : List α) (i : Nat) (d : α) (hi : i < l.length) :
    l.getD i d ∈ l := by
  rw [List.getD_eq_getElem _ _ hi]
  exact List.getElem_mem _

/-- A struct whose values all decode from their encodings decodes from its encoding. -/
theorem roundtrip_struct (names : List String) (fields : List mxArray)
    (hlen : names.length = fields.length) (hcount : names.length < UINT_RANGE)
    (hnd : names.Nodup) (hnul : ∀ fn, fn ∈ names → c_str fn = fn)
    (hfields : ∀ t, t ∈ fields → ∀ i, loadStruct.element (encode t) i = .ok t) :
    loadStruct (encodeStruct names fields) = .ok (.struct names fields) := by
  rw [encodeStruct, loadStruct_all_ok names _ (fun i => fields.getD i .null)]
  · rw [toUnsigned_of_lt hcount, List.take_length]
    have hmap : names.map newStrCpy = names := by
      conv_rhs => rw [← List.map_id names]
      exact List.map_congr_left (fun fn hfn => hnul fn hfn)
    rw [hmap, hlen]
    congr 2
    apply List.ext_getElem
    · simp
    · intro i h1 h2
      simp [h2]
  · intro i hi
    rw [toUnsigned_of_lt hcount] at hi
    rw [lookup_zip names _ i hnd (by rw [length_encodeAll]; exact hlen) hi, getD_encodeAll]
    exact hfields _ (getD_mem_or_default _ _ _ (hlen ▸ hi)) i

theorem getElem?_ext_of_length {α : Type} (l1 l2 : List α) (hlen : l1.length = l2.length)
    (h : ∀ j, j < l2.length → l1[j]? = l2[j]?) : l1 = l2 := by
  apply List.ext_getElem? 
  intro j
  by_cases hj : j < l2.length
  · exact h j hj
  · rw [List.getElem?_eq_none (by omega), List.getElem?_eq_none (by omega)]

/-- A grid of at most `2^32` cells whose cells all decode from their encodings decodes from its
encoding. -/
theorem roundtrip_cell (m n : Nat) (data : List mxArray) (hm : m < UINT_RANGE)
    (hn : n < UINT_RANGE) (hsize : m * n ≤ UINT_RANGE) (hlen : data.length = m * n)
    (hcells : ∀ t, t ∈ data → ∀ i, loadCell.element (encode t) i = .ok t) :
    loadCell (cellArrayOf m n (encodeAll data)) = .ok (.cell m n data) := by
  have hd : (cellArrayOf m n (encodeAll data)).dimensions = .ok (m, n) := by
    show Except.ok (toUnsigned m, toUnsigned n) = _
    rw [toUnsigned_of_lt hm, toUnsigned_of_lt hn]
  rw [loadCell_all_ok _ m n (fun irow icol => data.getD (icol * m + irow) .null) hd]
  · congr 2
    apply getElem?_ext_of_length
    · rw [length_storedCells, hlen]
    · intro j hj
      rw [hlen] at hj
      have hpos : 0 < m := by
        rcases Nat.eq_zero_or_pos m with h | h
        · subst h; simp at hj
        · exact h
      have hr : j % m < m := Nat.mod_lt _ hpos
      have hk : j / m < n := Nat.div_lt_of_lt_mul hj
      have hj2 : j / m * m + j % m = j := Nat.div_add_mod' j m
      have := storedCells_flat (fun irow icol => data.getD (icol * m + irow) mxArray.null)
        hsize hr hk
      rw [hj2] at this
      have hjd : j < data.length := by rw [hlen]; exact hj
      rw [this]
      show some (data.getD (j / m * m + j % m) mxArray.null) = data[j]?
      rw [hj2, List.getD_eq_getElem _ _ hjd]
      exact (List.getElem?_eq_getElem hjd).symm
  · intro irow hr icol hk
    show loadCell.element ((encodeAll data).getD (icol * m + irow) unrecognized) _ = _
    rw [getD_encodeAll]
    exact hcells _ (getD_mem_or_default _ _ _ (hlen ▸ flat_index_lt hr hk)) _

/-- Every value tree decodes from its encoding, as a cell and as a struct field. -/
theorem roundtrip_element (t : mxArray) (h : ValueTree t) :
    ∀ ifield, loadCell.element (encode t) ifield = .ok t
      ∧ loadStruct.element (encode t) ifield = .ok t := by
  induction h with
  | text s hs => exact roundtrip_text s hs
  | boolMatrix m n data hm hn hlen => exact roundtrip_boolMatrix m n data hm hn hlen
  | int64 v => exact roundtrip_int64 v
  | struct names fields hlen hcount hnd hnul _ ih =>
    intro ifield
    have := roundtrip_struct names fields hlen hcount hnd hnul (fun t ht i => (ih t ht i).2)
    rw [encode_struct_eq, (element_nested _ ifield).1, (element_nested _ ifield).2]
    exact ⟨this, this⟩
  | cell m n data hm hn hsize hlen _ ih =>
    intro ifield
    have := roundtrip_cell m n data hm hn hsize hlen (fun t ht i => (ih t ht i).1)
    have he : encode (.cell m n data) = grid (cellArrayOf m n (encodeAll data)) := by
      rw [encode]
    rw [he, (element_grid _ ifield).1, (element_grid _ ifield).2]
    exact ⟨this, this⟩


theorem roundtrip_single_field (fn : String) (t v : mxArray) (hnul : c_str fn = fn)
    (h : loadStruct.element (encode t) 0 = .ok v) :
    loadStruct (encodeStruct [fn] [t]) = .ok (.struct [fn] [v]) := by
  have h1 : toUnsigned [fn].length = 1 :=
    toUnsigned_of_lt (show (1 : Nat) < UINT_RANGE by decide)
  rw [encodeStruct, loadStruct_all_ok [fn] _ (fun _ => v)]
  · rw [h1]
    simp [newStrCpy, hnul]
  · intro i hi
    rw [h1] at hi
    have hi0 : i = 0 := by omega
    subst hi0
    simpa [encodeAll, lookup] using h

/-- The load of the encoding of a grid whose cells all hold the same 64-bit scalar. -/
theorem load_uniform_grid (m n : Nat) (v : ℚ) (hm : m < UINT_RANGE) (hn : n < UINT_RANGE) :
    loadCell (cellArrayOf m n (encodeAll (List.replicate (m * n)
        (mxArray.numeric .mxINT64_CLASS 1 1 [v]))))
      = .ok (.cell m n (storedCells m n (fun _ _ => .numeric .mxINT64_CLASS 1 1 [v]))) := by
  have hd : (cellArrayOf m n (encodeAll (List.replicate (m * n)
      (mxArray.numeric .mxINT64_CLASS 1 1 [v])))).dimensions = .ok (m, n) := by
    show Except.ok (toUnsigned m, toUnsigned n) = _
    rw [toUnsigned_of_lt hm, toUnsigned_of_lt hn]
  refine loadCell_all_ok _ m n _ hd ?_
  intro irow hr icol hk
  show loadCell.element ((encodeAll _).getD (icol * m + irow) unrecognized) _ = _
  rw [getD_encodeAll, List.getD_eq_getElem _ _ (by
    rw [List.length_replicate]; exact flat_index_lt hr hk), List.getElem_replicate]
  exact (roundtrip_int64 v _).1

/-- C11, as stated, fails.  A string with a NUL character comes back cut; so does a field name.
A nested struct with a repeated field name comes back with the first value twice, since the
reader is queried by name.  A grid with `2^32` rows comes back with no rows, a struct with `2^32`
fields with no fields, and a grid of 2 rows and `2^31 + 1` columns with the slot `2^32` unset. -/
theorem c11_counterexample :
    loadStruct (encodeStruct ["s"] [.char 1 3 "a\x00b"]) = .ok (.struct ["s"] [.char 1 1 "a"])
    ∧ loadStruct (encodeStruct ["a\x00b"] [.numeric .mxINT64_CLASS 1 1 [1]])
        = .ok (.struct ["a"] [.numeric .mxINT64_CLASS 1 1 [1]])
    ∧ loadStruct (encodeStruct ["outer"]
          [.struct ["x", "x"] [.numeric .mxINT64_CLASS 1 1 [1], .numeric .mxINT64_CLASS 1 1 [2]]])
        = .ok (.struct ["outer"]
          [.struct ["x", "x"] [.numeric .mxINT64_CLASS 1 1 [1], .numeric .mxINT64_CLASS 1 1 [1]]])
    ∧ loadStruct (encodeStruct ["g"] [.cell (2 ^ 32) 0 []]) = .ok (.struct ["g"] [.cell 0 0 []])
    ∧ (∃ names fields, names.length = 2 ^ 32 ∧ fields.length = 2 ^ 32
        ∧ loadStruct (encodeStruct names fields) = .ok (.struct [] []))
    ∧ (∃ data, loadStruct (encodeStruct ["g"] [.cell 2 (2 ^ 31 + 1)
            (List.replicate (2 * (2 ^ 31 + 1)) (.numeric .mxINT64_CLASS 1 1 [0]))])
          = .ok (.struct ["g"] [.cell 2 (2 ^ 31 + 1) data])
        ∧ data[2 ^ 32]? = some .null) := by
  refine ⟨rfl, rfl, rfl, rfl,
    ⟨(List.range UINT_RANGE).map (fun i => "f" ++ toString i),
      List.replicate UINT_RANGE (.numeric .mxINT64_CLASS 1 1 [0]),
      (List.length_map _ _).trans (List.length_range _), List.length_replicate _ _,
      loadStruct_wraps_count _ _ ((List.length_map _ _).trans (List.length_range _))⟩,
    ⟨storedCells 2 (2 ^ 31 + 1) (fun _ _ => .numeric .mxINT64_CLASS 1 1 [0]), ?_,
      storedCells_beyond_unsigned 2 (2 ^ 31 + 1) _ (2 ^ 32) (by decide) (by decide)⟩⟩
  refine roundtrip_single_field "g" _ _ rfl ?_
  have he : ∀ data : List mxArray, encode (.cell 2 (2 ^ 31 + 1) data)
      = grid (cellArrayOf 2 (2 ^ 31 + 1) (encodeAll data)) := by
    intro data; rw [encode]
  rw [he, (element_grid _ 0).2]
  exact load_uniform_grid 2 (2 ^ 31 + 1) 0 (by decide) (by decide)

/-- C11 (amended): for every value tree whose root is a struct and whose nodes are structs,
cells, strings, logical matrices and signed 64-bit integer scalars, such that every struct, the
root and the nested ones, has as many values as names, fewer than `2^32` of them, pairwise
distinct and without NUL, every string is without NUL, every logical matrix has rows times
columns elements and dimensions below `2^32`, and every grid has rows times columns cells,
dimensions below `2^32` and at most `2^32` cells: loading the encoding of the tree with
`loadStruct` returns the tree. -/
theorem decode_encode (names : List String) (fields : List mxArray)
    (h : ValueTree (.struct names fields)) :
    loadStruct (encodeStruct names fields) = .ok (.struct names fields) := by
  cases h with
  | struct _ _ hlen hcount hnd hnul hfields =>
    exact roundtrip_struct names fields hlen hcount hnd hnul
      (fun t ht i => (roundtrip_element t (hfields t ht) i).2)

theorem valueTree_sample : ValueTree (.struct sampleNames sampleFields) := by
  refine ValueTree.struct _ _ rfl (by decide) (by decide) ?_ ?_
  · intro fn hfn
    simp only [sampleNames, List.mem_cons, List.mem_singleton, List.not_mem_nil,
      or_false] at hfn
    rcases hfn with h | h | h | h | h <;> subst h <;> rfl
  · intro t ht
    simp only [sampleFields, List.mem_cons, List.mem_singleton, List.not_mem_nil,
      or_false] at ht
    rcases ht with h | h | h | h | h <;> subst h
    · refine ValueTree.struct _ _ rfl (by decide) (by decide) ?_ ?_
      · intro fn hfn
        simp only [List.mem_singleton] at hfn
        subst hfn; rfl
      · intro t ht
        simp only [List.mem_singleton] at ht
        subst ht
        exact ValueTree.int64 7
    · refine ValueTree.cell _ _ _ (by decide) (by decide) (by decide) rfl ?_
      intro t ht
      simp only [List.mem_cons, List.mem_singleton, List.not_mem_nil, or_false] at ht
      rcases ht with h | h <;> subst h
      · exact ValueTree.text "a" rfl
      · exact ValueTree.int64 2
    · exact ValueTree.text "hello" rfl
    · exact ValueTree.boolMatrix 2 2 _ (by decide) (by decide) rfl
    · exact ValueTree.int64 (-5)

/-- C11 on the scenario of section 8: the struct with a nested struct, a nested cell grid, a
string, a logical matrix and a signed 64-bit scalar is a value tree, and loading its encoding
returns it. -/
theorem decode_encode_witness :
    ValueTree (.struct sampleNames sampleFields)
    ∧ loadStruct (encodeStruct sampleNames sampleFields)
        = .ok (.struct ["inner", "grid", "label", "mask", "count"]
            [.struct ["x"] [.numeric .mxINT64_CLASS 1 1 [7]],
             .cell 1 2 [.char 1 1 "a", .numeric .mxINT64_CLASS 1 1 [2]],
             .char 1 5 "hello",
             .logical 2 2 [true, false, false, true],
             .numeric .mxINT64_CLASS 1 1 [-5]]) :=
  ⟨valueTree_sample, decode_encode sampleNames sampleFields valueTree_sample⟩

/-! ## C12: the two loaders dispatch alike -/

/-- C12: at one and the same source content the loop bodies of `loadCell` and of `loadStruct`
compute the same value, whatever the slot indices, unless all five predicates answer no; then
both give the placeholder, each with its own slot index. -/
theorem loaders_dispatch_alike (l : Location) (icell ifield : Nat)
    (h : ¬ (l.isStruct = .ok false ∧ l.isCellArray = .ok false ∧ l.isString = .ok false
          ∧ l.isScalar = .ok false ∧ l.isMatrix = .ok false)) :
    loadCell.element l icell = loadStruct.element l ifield
    ∧ VSOctaveH5ReaderCellArray.loadLogicalScalar l = VSOctaveH5ReaderStruct.loadLogicalScalar l
    ∧ VSOctaveH5ReaderCellArray.loadLogicalMatrix l = VSOctaveH5ReaderStruct.loadLogicalMatrix l
    ∧ (∀ T, VSOctaveH5ReaderCellArray.loadRealScalar T l
          = VSOctaveH5ReaderStruct.loadRealScalar T l)
    ∧ (∀ T, VSOctaveH5ReaderCellArray.loadRealMatrix T l
          = VSOctaveH5ReaderStruct.loadRealMatrix T l)
    ∧ (∀ l2 : Location, l2.isStruct = .ok false → l2.isCellArray = .ok false →
        l2.isString = .ok false → l2.isScalar = .ok false → l2.isMatrix = .ok false →
        loadCell.element l2 icell = .ok (mxCreateDoubleScalar (icell : ℚ))
        ∧ loadStruct.element l2 ifield = .ok (mxCreateDoubleScalar (ifield : ℚ))) := by
  refine ⟨?_, rfl, rfl, fun _ => rfl, fun _ => rfl, ?_⟩
  · cases l with
    | mk a1 a2 a3 a4 a5 rs rc str ty sc dims mat =>
      simp only [Location.isStruct, Location.isCellArray, Location.isString, Location.isScalar,
        Location.isMatrix] at h
      rw [loadCell.element, loadStruct.element]
      rcases a1 with e | b1
      · rfl
      cases b1
      swap
      · rfl
      rcases a2 with e | b2
      · rfl
      cases b2
      swap
      · rfl
      rcases a3 with e | b3
      · rfl
      cases b3
      swap
      · rfl
      rcases a4 with e | b4
      · rfl
      cases b4
      swap
      · rfl
      rcases a5 with e | b5
      · rfl
      cases b5
      swap
      · rfl
      exact absurd ⟨rfl, rfl, rfl, rfl, rfl⟩ h
  · intro l2 h1 h2 h3 h4 h5
    exact ⟨(element_none_holds l2 icell h1 h2 h3 h4 h5).1,
      (element_none_holds l2 ifield h1 h2 h3 h4 h5).2⟩

/-- C12 at a 16-bit scalar, read as the cell of slot 3 and as the field of position 8: the same
value; the unrecognized location gives the doubles 3 and 8. -/
theorem loaders_dispatch_alike_witness :
    loadCell.element (scalar "uint16" 9) 3 = .ok (.numeric .mxUINT16_CLASS 1 1 [9])
    ∧ loadStruct.element (scalar "uint16" 9) 8 = .ok (.numeric .mxUINT16_CLASS 1 1 [9])
    ∧ loadCell.element (scalar "uint16" 9) 3 = loadStruct.element (scalar "uint16" 9) 8
    ∧ loadCell.element unrecognized 3 = .ok (mxCreateDoubleScalar ((3 : Nat) : ℚ))
    ∧ loadStruct.element unrecognized 8 = .ok (mxCreateDoubleScalar ((8 : Nat) : ℚ)) :=
  ⟨rfl, rfl,
    (loaders_dispatch_alike (scalar "uint16" 9) 3 8 (by
      intro h
      have := h.2.2.2.1
      simp [scalar, Location.isScalar] at this)).1,
    rfl, rfl⟩

/-! ## C13: the field names of a loaded struct -/

/-- C13, as stated, fails: `loadStruct` has no check of the names.  A reader whose enumeration
repeats a name loads to a struct with that name twice, and two distinct names that agree up to
a NUL character load to one name twice. -/
theorem c13_counterexample :
    repeatedName.variables_ = .ok ["a", "b", "a"]
    ∧ loadStruct repeatedName
        = .ok (.struct ["a", "b", "a"]
            [mxCreateString "first", mxCreateString "second", mxCreateString "first"])
    ∧ ¬ (["a", "b", "a"] : List String).Nodup
    ∧ nulTwins.variables_ = .ok ["a\x00b", "a\x00c"]
    ∧ (["a\x00b", "a\x00c"] : List String).Nodup
    ∧ loadStruct nulTwins
        = .ok (.struct ["a", "a"] [mxCreateString "first", mxCreateString "second"])
    ∧ ¬ (["a", "a"] : List String).Nodup :=
  ⟨rfl, rfl, by decide, rfl, by decide, rfl, by decide⟩

/-- C13 (amended): the field names of the struct that `loadStruct` returns are the enumerated
names, as many as the `unsigned` count, each cut at its first NUL character and in the order of
the enumeration.  They are pairwise distinct whenever the enumerated names are pairwise distinct
and without NUL; and when the source enumerates fewer than `2^32` names and repeats one, the
output repeats it. -/
theorem fieldnames_as_enumerated (s : VSOctaveH5ReaderStruct) (names : List String)
    (sv : mxArray) (hvars : s.variables_ = .ok names) (hload : loadStruct s = .ok sv) :
    ∃ vals, sv = .struct ((names.take (toUnsigned names.length)).map c_str) vals
      ∧ (names.Nodup → (∀ fn, fn ∈ names → c_str fn = fn) →
          ((names.take (toUnsigned names.length)).map c_str).Nodup)
      ∧ (names.length < UINT_RANGE → ¬ names.Nodup →
          ¬ ((names.take (toUnsigned names.length)).map c_str).Nodup) := by
  obtain ⟨names2, vals, hvars2, _, hsv, _⟩ := loadStruct_ok_all_fields s sv hload
  rw [hvars] at hvars2
  cases hvars2
  refine ⟨vals, hsv, ?_, ?_⟩
  · intro hnd hnul
    have hsub : (names.take (toUnsigned names.length)).Nodup :=
      hnd.sublist (List.take_sublist _ _)
    have hmap : (names.take (toUnsigned names.length)).map c_str
        = names.take (toUnsigned names.length) := by
      conv_rhs => rw [← List.map_id (names.take (toUnsigned names.length))]
      exact List.map_congr_left (fun fn hfn => hnul fn (List.mem_of_mem_take hfn))
    rw [hmap]
    exact hsub
  · intro hlt hrep hout
    rw [toUnsigned_of_lt hlt, List.take_length] at hout
    exact hrep (List.Nodup.of_map _ hout)

/-- C13 on the struct of the first scenario of section 8, three distinct names without NUL: the
loaded struct has those three names, pairwise distinct.  And on the reader whose enumeration is
`a`, `b`, `a`: the loaded struct has the name `a` twice. -/
theorem fieldnames_as_enumerated_witness :
    sensor.variables_ = .ok ["name", "readings", "calibrated"]
    ∧ loadStruct sensor
        = .ok (.struct ["name", "readings", "calibrated"]
            [mxCreateString "sensor-1", .numeric .mxDOUBLE_CLASS 2 3 [1, 2, 3, 4, 5, 6],
             .logical 1 1 [true]])
    ∧ (["name", "readings", "calibrated"] : List String).Nodup
    ∧ ((["name", "readings", "calibrated"].take
          (toUnsigned ["name", "readings", "calibrated"].length)).map c_str).Nodup
    ∧ repeatedName.variables_ = .ok ["a", "b", "a"]
    ∧ loadStruct repeatedName
        = .ok (.struct ["a", "b", "a"]
            [mxCreateString "first", mxCreateString "second", mxCreateString "first"])
    ∧ (["a", "b", "a"] : List String).length < UINT_RANGE
    ∧ ¬ (["a", "b", "a"] : List String).Nodup
    ∧ ¬ ((["a", "b", "a"].take (toUnsigned ["a", "b", "a"].length)).map c_str).Nodup := by
  obtain ⟨_, _, hdistinct, _⟩ :=
    fieldnames_as_enumerated sensor ["name", "readings", "calibrated"] _ rfl rfl
  obtain ⟨_, _, _, hrepeats⟩ := fieldnames_as_enumerated repeatedName ["a", "b", "a"] _ rfl rfl
  refine ⟨rfl, rfl, by decide, hdistinct (by decide) ?_, rfl, rfl, by decide, by decide,
    hrepeats (by decide) (by decide)⟩
  intro fn hfn
  rcases List.mem_cons.mp hfn with rfl | hfn
  · rfl
  · rcases List.mem_cons.mp hfn with rfl | hfn
    · rfl
    · rcases List.mem_cons.mp hfn with rfl | hfn
      · rfl
      · cases hfn

/-! ## C14: independence of siblings -/

/-- The last write to a slot is what the slot holds at the end. -/
theorem getElem?_foldl_set_last {ι α : Type} (g : ι → Nat) (v : ι → α) (before after : List ι)
    (p : ι) (init : List α) (hafter : ∀ q, q ∈ after → g q ≠ g p) (hlt : g p < init.length) :
    ((before ++ p :: after).foldl (fun l q => l.set (g q) (v q)) init)[g p]? = some (v p) := by
  rw [List.foldl_append, List.foldl_cons, getElem?_foldl_set_of_not_mem g v after _ _ hafter]
  exact List.getElem?_set_self (by rw [length_foldl_set]; exact hlt)

theorem cellOrder_two_rows (n : Nat) :
    cellOrder 2 (n + 1)
      = (List.range n).map (fun k => (0, k)) ++ (0, n) ::
          (List.range (n + 1)).map (fun k => (1, k)) := by
  have h2 : List.range 2 = [0, 1] := rfl
  rw [cellOrder, h2]
  simp only [List.flatMap_cons, List.flatMap_nil, List.append_nil]
  rw [List.range_succ n, List.map_append, List.map_singleton, List.append_assoc]
  rfl

/-- In a grid of 2 rows and `2^31 + 1` columns the slot 0 ends up with the value of the cell
`(0, 2^31)`. -/
theorem storedCells_wrapped_slot (n : Nat) (val : Nat → Nat → mxArray)
    (hn : n * 2 = UINT_RANGE) :
    (storedCells 2 (n + 1) val)[0]? = some (val 0 n) := by
  have hidx : cellIndex 2 0 n = 0 := by
    show (n * 2 + 0) % UINT_RANGE = 0
    rw [Nat.add_zero, hn, Nat.mod_self]
  have h := getElem?_foldl_set_last (fun p : Nat × Nat => cellIndex 2 p.1 p.2)
    (fun p : Nat × Nat => val p.1 p.2) ((List.range n).map (fun k => (0, k))) 
    ((List.range (n + 1)).map (fun k => (1, k))) (0, n)
    (List.replicate (2 * (n + 1)) mxArray.null) ?_ ?_
  · rw [storedCells, cellOrder_two_rows]
    simp only [hidx] at h
    exact h
  · intro q hq
    simp only [List.mem_map, List.mem_range] at hq
    obtain ⟨k, _, rfl⟩ := hq
    show (k * 2 + 1) % UINT_RANGE ≠ cellIndex 2 0 n
    rw [hidx]
    have hr : UINT_RANGE = 4294967296 := by norm_num [UINT_RANGE]
    rw [hr]
    omega
  · show cellIndex 2 0 n < _
    rw [hidx]
    simp

theorem load_wideGridEnding (last : String) (hnul : c_str last = last) :
    loadCell (wideGridEnding last)
      = .ok (.cell 2 (2 ^ 31 + 1) (storedCells 2 (2 ^ 31 + 1)
          (fun row col => if row = 0 ∧ col = 2 ^ 31 then mxCreateString last
            else mxCreateString "same"))) := by
  have hdims : (wideGridEnding last).dimensions = .ok (2, 2 ^ 31 + 1) := by
    have h1 : toUnsigned 2 = 2 := by decide
    have h2 : toUnsigned (2 ^ 31 + 1) = 2 ^ 31 + 1 := by decide
    show Except.ok (toUnsigned 2, toUnsigned (2 ^ 31 + 1)) = _
    rw [h1, h2]
  refine loadCell_all_ok _ 2 (2 ^ 31 + 1) _ hdims ?_
  intro irow _ icol _
  show loadCell.element (if irow = 0 ∧ icol = 2 ^ 31 then text last else text "same") _ = _
  have htext : ∀ (s : String) (i : Nat), c_str s = s →
      loadCell.element (text s) i = .ok (mxCreateString s) := by
    intro s i hs
    rw [text, loadCell.element]
    show Except.ok (mxCreateString (c_str s)) = _
    rw [hs]
  split_ifs
  · exact htext last _ hnul
  · exact htext "same" _ rfl

/-- C14, as stated, fails for grids of more than `2^32` cells: two grids of 2 rows and
`2^31 + 1` columns that agree on the cell `(0, 0)` and load hold different values in the slot
of that cell, because the cell `(0, 2^31)`, on which they differ, is stored in the same slot. -/
theorem c14_counterexample :
    (wideGridEnding "A").dimensions = (wideGridEnding "B").dimensions
    ∧ (wideGridEnding "A").loc 0 0 = (wideGridEnding "B").loc 0 0
    ∧ ∃ dataA dataB, loadCell (wideGridEnding "A") = .ok (.cell 2 (2 ^ 31 + 1) dataA)
        ∧ loadCell (wideGridEnding "B") = .ok (.cell 2 (2 ^ 31 + 1) dataB)
        ∧ dataA[0 * 2 + 0]? = some (mxCreateString "A")
        ∧ dataB[0 * 2 + 0]? = some (mxCreateString "B") := by
  have hn : 2 ^ 31 * 2 = UINT_RANGE := by decide
  refine ⟨rfl, ?_, _, _, load_wideGridEnding "A" rfl, load_wideGridEnding "B" rfl, ?_, ?_⟩
  · show Except.ok (if (0 : Nat) = 0 ∧ (0 : Nat) = 2 ^ 31 then text "A" else text "same")
      = Except.ok (if (0 : Nat) = 0 ∧ (0 : Nat) = 2 ^ 31 then text "B" else text "same")
    have h0 : ¬ ((0 : Nat) = 0 ∧ (0 : Nat) = 2 ^ 31) := by decide
    rw [if_neg h0, if_neg h0]
  · have h := storedCells_wrapped_slot (2 ^ 31)
      (fun row col => if row = 0 ∧ col = 2 ^ 31 then mxCreateString "A"
        else mxCreateString "same") hn
    simpa using h
  · have h := storedCells_wrapped_slot (2 ^ 31)
      (fun row col => if row = 0 ∧ col = 2 ^ 31 then mxCreateString "B"
        else mxCreateString "same") hn
    simpa using h


theorem fieldValue_of_loc (s : VSOctaveH5ReaderStruct) (fn : String) (l : Location)
    (ifield : Nat) (h : s.loc fn = .ok l) :
    s.fieldValue fn ifield = loadStruct.element l ifield := by
  cases s with
  | failed e => cases h
  | mk ns field =>
    simp only [VSOctaveH5ReaderStruct.loc] at h
    cases h
    rfl

theorem cellValue_of_loc (c : VSOctaveH5ReaderCellArray) (nrow irow icol : Nat) (l : Location)
    (h : c.loc irow icol = .ok l) :
    c.cellValue nrow irow icol = loadCell.element l (cellIndex nrow irow icol) := by
  cases c with
  | failed e => cases h
  | mk dims cell =>
    simp only [VSOctaveH5ReaderCellArray.loc] at h
    cases h
    rfl

/-- The value at a position of a loaded struct is the value computed for the field there. -/
theorem loadStruct_value_at (s : VSOctaveH5ReaderStruct) (names : List String) (sv : mxArray)
    (i : Nat) (l : Location) (hvars : s.variables_ = .ok names)
    (hloc : s.loc (names.getD i "") = .ok l) (hload : loadStruct s = .ok sv) :
    ∃ vals, sv = .struct ((names.take (toUnsigned names.length)).map newStrCpy) vals
      ∧ vals[i]? = if i < toUnsigned names.length
          then some (valueOrNull (loadStruct.element l i)) else none := by
  obtain ⟨names2, vals, hvars2, hlen, hsv, hall⟩ := loadStruct_ok_all_fields s sv hload
  rw [hvars] at hvars2
  cases hvars2
  refine ⟨vals, hsv, ?_⟩
  split_ifs with hi
  · obtain ⟨v, hv, hget⟩ := hall i hi
    rw [fieldValue_of_loc s _ l i hloc] at hv
    rw [hget, hv]
    rfl
  · exact List.getElem?_eq_none (by omega)

/-- C14 (amended): the value at a position of a loaded struct depends only on the enumeration
and on the content of the field at that position: two struct readers with the same enumeration
and the same content there load the same names and the same value at that position, whatever
their other fields hold.  Likewise two grids of the same shape with at most `2^32` cells and the
same content in the cell `(row, col)` load the same value at the flat index of that cell. -/
theorem siblings_independent (l : Location) :
    (∀ (s1 s2 : VSOctaveH5ReaderStruct) (names : List String) (i : Nat) (sv1 sv2 : mxArray),
        s1.variables_ = .ok names → s2.variables_ = .ok names →
        s1.loc (names.getD i "") = .ok l → s2.loc (names.getD i "") = .ok l →
        loadStruct s1 = .ok sv1 → loadStruct s2 = .ok sv2 →
        ∃ fnames vals1 vals2, sv1 = .struct fnames vals1 ∧ sv2 = .struct fnames vals2
          ∧ vals1[i]? = vals2[i]?)
    ∧ (∀ (c1 c2 : VSOctaveH5ReaderCellArray) (nrow ncol irow icol : Nat) (out1 out2 : mxArray),
        c1.dimensions = .ok (nrow, ncol) → c2.dimensions = .ok (nrow, ncol) →
        nrow * ncol ≤ UINT_RANGE → irow < nrow → icol < ncol →
        c1.loc irow icol = .ok l → c2.loc irow icol = .ok l →
        loadCell c1 = .ok out1 → loadCell c2 = .ok out2 →
        ∃ data1 data2, out1 = .cell nrow ncol data1 ∧ out2 = .cell nrow ncol data2
          ∧ data1[icol * nrow + irow]? = data2[icol * nrow + irow]?) := by
  constructor
  · intro s1 s2 names i sv1 sv2 hv1 hv2 hl1 hl2 hload1 hload2
    obtain ⟨vals1, hs1, hg1⟩ := loadStruct_value_at s1 names sv1 i l hv1 hl1 hload1
    obtain ⟨vals2, hs2, hg2⟩ := loadStruct_value_at s2 names sv2 i l hv2 hl2 hload2
    exact ⟨_, vals1, vals2, hs1, hs2, by rw [hg1, hg2]⟩
  · intro c1 c2 nrow ncol irow icol out1 out2 hd1 hd2 hsize hr hk hl1 hl2 hload1 hload2
    obtain ⟨n1, k1, hd1b, hval1, hout1⟩ := loadCell_ok_inv c1 out1 hload1
    obtain ⟨n2, k2, hd2b, hval2, hout2⟩ := loadCell_ok_inv c2 out2 hload2
    rw [hd1] at hd1b
    rw [hd2] at hd2b
    cases hd1b
    cases hd2b
    refine ⟨_, _, hout1, hout2, ?_⟩
    rw [storedCells_flat _ hsize hr hk, storedCells_flat _ hsize hr hk,
      cellValue_of_loc c1 nrow irow icol l hl1, cellValue_of_loc c2 nrow irow icol l hl2]

/-- C14 on two structs with the fields `first` and `probe` that differ in `first`, a string in
one and a matrix in the other: both load the string of `probe` at position 1. -/
theorem siblings_independent_witness :
    loadStruct (pairWith (text "one"))
        = .ok (.struct ["first", "probe"] [mxCreateString "one", mxCreateString "probe"])
    ∧ loadStruct (pairWith (matrix "int8" 1 2 [3, 4]))
        = .ok (.struct ["first", "probe"]
            [.numeric .mxINT8_CLASS 1 2 [3, 4], mxCreateString "probe"])
    ∧ ∃ fnames vals1 vals2,
        mxArray.struct ["first", "probe"] [mxCreateString "one", mxCreateString "probe"]
          = .struct fnames vals1
        ∧ mxArray.struct ["first", "probe"]
            [.numeric .mxINT8_CLASS 1 2 [3, 4], mxCreateString "probe"] = .struct fnames vals2
        ∧ vals1[1]? = vals2[1]? :=
  ⟨rfl, rfl,
    (siblings_independent (text "probe")).1 (pairWith (text "one"))
      (pairWith (matrix "int8" 1 2 [3, 4])) ["first", "probe"] 1 _ _ rfl rfl rfl rfl rfl rfl⟩

/-! ## C15: termination -/

theorem le_foldl_max {ι : Type} (f : ι → Nat) (idx : List ι) (init : Nat) :
    init ≤ idx.foldl (fun m i => max m (f i)) init
    ∧ ∀ x, x ∈ idx → f x ≤ idx.foldl (fun m i => max m (f i)) init := by
  induction idx generalizing init with
  | nil => exact ⟨le_refl _, fun x hx => by cases hx⟩
  | cons i rest ih =>
    simp only [List.foldl_cons]
    have h := ih (max init (f i))
    refine ⟨le_trans (le_max_left _ _) h.1, ?_⟩
    intro x hx
    rcases List.mem_cons.mp hx with heq | hmem
    · subst heq
      exact le_trans (le_max_right _ _) h.1
    · exact h.2 x hmem

theorem nestingDepth_of_opens (l : Location) (child : Reader) (h : l.Opens child) :
    l.nestingDepth = child.nestingDepth := by
  cases h with
  | struct h1 =>
    cases l with
    | mk a1 a2 a3 a4 a5 rs rc str ty sc dims mat =>
      simp only [Location.isStruct] at h1
      subst h1
      rw [Location.nestingDepth]
      rfl
  | cellArray h1 h2 =>
    cases l with
    | mk a1 a2 a3 a4 a5 rs rc str ty sc dims mat =>
      simp only [Location.isStruct, Location.isCellArray] at h1 h2
      subst h1 h2
      rw [Location.nestingDepth]
      rfl

/-- Every nested call of a loader is on a strictly shallower node. -/
theorem nestingDepth_lt_of_descends (parent child : Reader) (h : Descends parent child) :
    child.nestingDepth < parent.nestingDepth := by
  cases h with
  | field s names ifield l child hvars hi hloc hopen =>
    cases s with
    | failed e => cases hvars
    | mk ns field =>
      simp only [VSOctaveH5ReaderStruct.variables_] at hvars
      subst hvars
      simp only [VSOctaveH5ReaderStruct.loc] at hloc
      cases hloc
      rw [← nestingDepth_of_opens _ child hopen]
      show _ < VSOctaveH5ReaderStruct.nestingDepth (.mk (.ok names) field)
      rw [VSOctaveH5ReaderStruct.nestingDepth]
      have := (le_foldl_max (fun i => Location.nestingDepth (field (names.getD i "")))
        (List.range (toUnsigned names.length)) 0).2 ifield (List.mem_range.mpr hi)
      omega
  | cell c nrow ncol irow icol l child hd hr hk hloc hopen =>
    cases c with
    | failed e => cases hd
    | mk dims cell =>
      cases dims with
      | error e => cases hd
      | ok d =>
        have h1 : toUnsigned d.1 = nrow := by
          have := hd; simp only [VSOctaveH5ReaderCellArray.dimensions] at this
          cases this; rfl
        have h2 : toUnsigned d.2 = ncol := by
          have := hd; simp only [VSOctaveH5ReaderCellArray.dimensions] at this
          cases this; rfl
        simp only [VSOctaveH5ReaderCellArray.loc] at hloc
        cases hloc
        rw [← nestingDepth_of_opens _ child hopen]
        show _ < VSOctaveH5ReaderCellArray.nestingDepth (.mk (.ok d) cell)
        rw [VSOctaveH5ReaderCellArray.nestingDepth, h1, h2]
        have : Location.nestingDepth (cell irow icol)
            ≤ (cellOrder nrow ncol).foldl
                (fun m p => max m (Location.nestingDepth (cell p.1 p.2))) 0 :=
          (le_foldl_max (fun p : Nat × Nat => Location.nestingDepth (cell p.1 p.2))
            (cellOrder nrow ncol) 0).2 (irow, icol) (mem_cellOrder.mpr ⟨hr, hk⟩)
        omega

theorem descends_wellFounded : WellFounded (fun child parent : Reader => Descends parent child) :=
  Subrelation.wf (fun {child parent} h => nestingDepth_lt_of_descends parent child h)
    (measure Reader.nestingDepth).wf

theorem mexFunction_arg_count (newReader : String → VSOctaveH5ReaderStruct) (nlhs : Int)
    (prhs : List mxArray) (h : prhs.length ≠ 1) :
    mexFunction newReader nlhs prhs = mexErrMsgTxt "One input required." := by
  simp only [mexFunction, ne_eq, h, not_false_eq_true, if_true]

theorem mexFunction_output_count (newReader : String → VSOctaveH5ReaderStruct) (nlhs : Int)
    (prhs : List mxArray) (h1 : prhs.length = 1) (h2 : nlhs > 1) :
    mexFunction newReader nlhs prhs = mexErrMsgTxt "Too many output arguments." := by
  simp only [mexFunction, ne_eq, h1, not_true_eq_false, if_false, h2, if_true]

theorem mexFunction_not_string (newReader : String → VSOctaveH5ReaderStruct) (nlhs : Int)
    (prhs : List mxArray) (h1 : prhs.length = 1) (h2 : nlhs ≤ 1)
    (h3 : mxIsChar (prhs.headD .null) = false) :
    mexFunction newReader nlhs prhs = mexErrMsgTxt "Input must be a string." := by
  have h2b : ¬ (nlhs > 1) := by omega
  simp only [mexFunction, ne_eq, h1, not_true_eq_false, if_false, h2b, h3,
    Bool.false_eq_true, not_false_eq_true, if_true]

theorem mexFunction_not_row (newReader : String → VSOctaveH5ReaderStruct) (nlhs : Int)
    (prhs : List mxArray) (h1 : prhs.length = 1) (h2 : nlhs ≤ 1)
    (h3 : mxIsChar (prhs.headD .null) = true) (h4 : mxGetM (prhs.headD .null) ≠ 1) :
    mexFunction newReader nlhs prhs = mexErrMsgTxt "Input must be a row vector." := by
  have h2b : ¬ (nlhs > 1) := by omega
  simp only [mexFunction, ne_eq, h1, not_true_eq_false, if_false, h2b, h3, h4,
    not_false_eq_true, if_true]

theorem mexFunction_loads (newReader : String → VSOctaveH5ReaderStruct) (nlhs : Int)
    (n : Nat) (text : String) (hl : nlhs ≤ 1) (hn : n + 1 < UINT_RANGE) :
    mexFunction newReader nlhs [.char 1 n text]
      = match loadStruct (newReader (c_str text)) with
        | .ok sv => { plhs0 := some sv, errmsg := none }
        | .error e => mexErrMsgTxt e.message := by
  have h1 : ¬ (nlhs > 1) := by omega
  have h2 : toUnsigned (n + 1) = n + 1 := toUnsigned_of_lt hn
  simp only [mexFunction, List.length_singleton, ne_eq, not_true_eq_false, if_false, h1,
    List.headD_cons, mxIsChar, mxGetM, mxGetN, h2, mxGetString, Nat.one_mul, le_refl,
    if_true]

theorem mexFunction_no_space (newReader : String → VSOctaveH5ReaderStruct) (nlhs : Int)
    (n : Nat) (text : String) (hl : nlhs ≤ 1) (hn : UINT_RANGE ≤ n + 1) :
    mexFunction newReader nlhs [.char 1 n text]
      = mexErrMsgTxt "Not enough space for filename string." := by
  have h1 : ¬ (nlhs > 1) := by omega
  have h2 : ¬ (n + 1 ≤ toUnsigned (n + 1)) := by
    have : toUnsigned (n + 1) < UINT_RANGE := Nat.mod_lt _ (by decide)
    omega
  simp only [mexFunction, List.length_singleton, ne_eq, not_true_eq_false, if_false, h1,
    List.headD_cons, mxIsChar, mxGetM, mxGetN, mxGetString, Nat.one_mul, h2,
    one_ne_zero, not_false_eq_true, if_true]

/-- C16, as stated, fails for a file name of `2^32 - 1` characters: the four checks pass, but
the length of the buffer, `N + 1` as an `unsigned`, is 0, and the gateway reports that there is
not enough space. -/
theorem c16_counterexample :
    ∃ text : String, text.length = 2 ^ 32 - 1
      ∧ mxIsChar (.char 1 (2 ^ 32 - 1) text) = true
      ∧ mxGetM (.char 1 (2 ^ 32 - 1) text) = 1
      ∧ toUnsigned (1 * (2 ^ 32 - 1) + 1) = 0
      ∧ mexFunction (fun _ => sensor) 1 [.char 1 (2 ^ 32 - 1) text]
          = mexErrMsgTxt "Not enough space for filename string." :=
  ⟨String.mk (List.replicate (2 ^ 32 - 1) 'a'), List.length_replicate _ _, rfl, rfl,
    by decide, mexFunction_no_space _ 1 (2 ^ 32 - 1) _ (by decide) (by decide)⟩

/-- C16 (amended): the gateway applies its checks in the order argument count, output count,
character array, one row, and reports the message of the first check that is violated, whatever
the reader would give: it opens nothing.  For one row of `N` characters with `N + 1` below
`2^32` the buffer of `N + 1` characters holds the string and its terminator, and the outcome is
that of `loadStruct` on the file of that name.  For `N + 1` of `2^32` or more the buffer is too
small and the gateway reports that, opening nothing. -/
theorem gateway_checks (newReader : String → VSOctaveH5ReaderStruct) (nlhs : Int)
    (prhs : List mxArray) :
    (prhs.length ≠ 1 → mexFunction newReader nlhs prhs = mexErrMsgTxt "One input required.")
    ∧ (prhs.length = 1 → nlhs > 1 →
        mexFunction newReader nlhs prhs = mexErrMsgTxt "Too many output arguments.")
    ∧ (prhs.length = 1 → nlhs ≤ 1 → mxIsChar (prhs.headD .null) = false →
        mexFunction newReader nlhs prhs = mexErrMsgTxt "Input must be a string.")
    ∧ (prhs.length = 1 → nlhs ≤ 1 → mxIsChar (prhs.headD .null) = true →
        mxGetM (prhs.headD .null) ≠ 1 →
        mexFunction newReader nlhs prhs = mexErrMsgTxt "Input must be a row vector.")
    ∧ (∀ (n : Nat) (text : String), prhs = [.char 1 n text] → nlhs ≤ 1 →
        n + 1 < UINT_RANGE →
        mxGetString (.char 1 n text) (toUnsigned (1 * n + 1)) = (0, text)
        ∧ mexFunction newReader nlhs prhs
          = match loadStruct (newReader (c_str text)) with
            | .ok sv => { plhs0 := some sv, errmsg := none }
            | .error e => mexErrMsgTxt e.message)
    ∧ (∀ (n : Nat) (text : String), prhs = [.char 1 n text] → nlhs ≤ 1 →
        UINT_RANGE ≤ n + 1 →
        mexFunction newReader nlhs prhs
          = mexErrMsgTxt "Not enough space for filename string.")
    ∧ (∀ sv, (mexFunction newReader nlhs prhs).plhs0 = some sv →
        prhs.length = 1 ∧ nlhs ≤ 1 ∧ mxIsChar (prhs.headD .null) = true
        ∧ mxGetM (prhs.headD .null) = 1) := by
  refine ⟨mexFunction_arg_count newReader nlhs prhs,
    mexFunction_output_count newReader nlhs prhs,
    mexFunction_not_string newReader nlhs prhs,
    mexFunction_not_row newReader nlhs prhs, ?_, ?_, ?_⟩
  · intro n text hp hl hn
    subst hp
    refine ⟨?_, mexFunction_loads newReader nlhs n text hl hn⟩
    rw [Nat.one_mul, toUnsigned_of_lt hn]
    simp [mxGetString]
  · intro n text hp hl hn
    subst hp
    exact mexFunction_no_space newReader nlhs n text hl hn
  · intro sv hsv
    by_cases h1 : prhs.length = 1
    swap
    · rw [mexFunction_arg_count newReader nlhs prhs h1] at hsv; cases hsv
    by_cases h2 : nlhs ≤ 1
    swap
    · rw [mexFunction_output_count newReader nlhs prhs h1 (by omega)] at hsv; cases hsv
    cases h3 : mxIsChar (prhs.headD .null) with
    | false => rw [mexFunction_not_string newReader nlhs prhs h1 h2 h3] at hsv; cases hsv
    | true =>
      by_cases h4 : mxGetM (prhs.headD .null) = 1
      · exact ⟨h1, h2, rfl, h4⟩
      · rw [mexFunction_not_row newReader nlhs prhs h1 h2 h3 h4] at hsv; cases hsv

/-- C16 on concrete calls: with two arguments that are no strings and three outputs the message
is the one of the argument count; with one numeric 2-by-2 argument it is the one of the string
check; with a 2-by-3 character array the one of the row check; and with the name of a file the
struct of that file is assigned. -/
theorem gateway_checks_witness :
    mexFunction (fun _ => sensor) 3 [mxCreateDoubleScalar 1, mxCreateDoubleScalar 2]
        = mexErrMsgTxt "One input required."
    ∧ mexFunction (fun _ => sensor) 3 [mxCreateString "f.h5"]
        = mexErrMsgTxt "Too many output arguments."
    ∧ mexFunction (fun _ => sensor) 1 [mxCreateNumericMatrix 2 2 .mxDOUBLE_CLASS]
        = mexErrMsgTxt "Input must be a string."
    ∧ mexFunction (fun _ => sensor) 0 [.char 2 3 "abcdef"]
        = mexErrMsgTxt "Input must be a row vector."
    ∧ mexFunction (fun _ => sensor) 1 [.char 1 4 "f.h5"]
        = { plhs0 := some (.struct ["name", "readings", "calibrated"]
              [mxCreateString "sensor-1", .numeric .mxDOUBLE_CLASS 2 3 [1, 2, 3, 4, 5, 6],
               .logical 1 1 [true]]),
            errmsg := none } :=
  ⟨(gateway_checks (fun _ => sensor) 3 [mxCreateDoubleScalar 1, mxCreateDoubleScalar 2]).1
      (by decide),
    (gateway_checks (fun _ => sensor) 3 [mxCreateString "f.h5"]).2.1 rfl (by decide),
    (gateway_checks (fun _ => sensor) 1 [mxCreateNumericMatrix 2 2 .mxDOUBLE_CLASS]).2.2.1
      rfl (by decide) rfl,
    (gateway_checks (fun _ => sensor) 0 [.char 2 3 "abcdef"]).2.2.2.1 rfl (by decide) rfl
      (by decide),
    ((gateway_checks (fun _ => sensor) 1 [.char 1 4 "f.h5"]).2.2.2.2.1 4 "f.h5" rfl
      (by decide) (by decide)).2⟩

/-! ## C17: the flat index in 32-bit arithmetic -/

/-- C17: in a grid of fewer than `2^32` cells the flat index of the cell `(irow, icol)`,
computed in `unsigned` as `icol*nrow + irow`, does not wrap: neither the product nor the sum
does, the index is the mathematical value and lies below `nrow*ncol`, so the write of the cell
sets a slot of the allocated grid. -/
theorem flat_index_no_wrap (nrow ncol irow icol : Nat) (hsize : nrow * ncol < 2 ^ 32)
    (hr : irow < nrow) (hk : icol < ncol) :
    toUnsigned (icol * nrow) = icol * nrow
    ∧ toUnsigned (toUnsigned (icol * nrow) + irow) = icol * nrow + irow
    ∧ cellIndex nrow irow icol = icol * nrow + irow
    ∧ cellIndex nrow irow icol < nrow * ncol
    ∧ ∃ data, mxCreateCellMatrix nrow ncol = .cell nrow ncol data
        ∧ cellIndex nrow irow icol < data.length
        ∧ ∀ ev, mxSetFieldByNumber (mxCreateCellMatrix nrow ncol) 0 (cellIndex nrow irow icol) ev
              = .cell nrow ncol (data.set (icol * nrow + irow) ev)
            ∧ (data.set (icol * nrow + irow) ev)[icol * nrow + irow]? = some ev := by
  have hsz : nrow * ncol ≤ UINT_RANGE := Nat.le_of_lt hsize
  have hflat := flat_index_lt hr hk
  have hidx : cellIndex nrow irow icol = icol * nrow + irow := cellIndex_eq_flat hsz hr hk
  have hprod : toUnsigned (icol * nrow) = icol * nrow :=
    toUnsigned_of_lt (by
      have : icol * nrow + irow < UINT_RANGE := Nat.lt_of_lt_of_le hflat hsz
      omega)
  refine ⟨hprod, ?_, hidx, hidx ▸ hflat, List.replicate (nrow * ncol) .null, rfl, ?_, ?_⟩
  · rw [hprod]; exact hidx
  · rw [hidx, List.length_replicate]; exact hflat
  · intro ev
    refine ⟨?_, List.getElem?_set_self (by rw [List.length_replicate]; exact hflat)⟩
    rw [hidx]
    rfl

/-- C17 in a grid of 3 rows and 4 columns: the last cell `(2, 3)` has the index 11, below 12. -/
theorem flat_index_no_wrap_witness :
    3 * 4 < 2 ^ 32 ∧ 2 < 3 ∧ 3 < 4
    ∧ cellIndex 3 2 3 = 3 * 3 + 2 ∧ cellIndex 3 2 3 < 3 * 4 :=
  ⟨by decide, by decide, by decide,
    (flat_index_no_wrap 3 4 2 3 (by decide) (by decide) (by decide)).2.2.1,
    (flat_index_no_wrap 3 4 2 3 (by decide) (by decide) (by decide)).2.2.2.1⟩

/-! ## C18: no unset slot in the output -/

/-- Whatever a decoder returns is a logical or a numeric array. -/
theorem decode_shape (P : mxArray → Prop) (hl : ∀ m n d, P (.logical m n d))
    (hn : ∀ c m n d, P (.numeric c m n d)) (k : ElementKind) (l : Location) (out : mxArray)
    (h : decodeWith VSOctaveH5ReaderCellArray.loadLogicalScalar
            VSOctaveH5ReaderCellArray.loadRealScalar k l = .ok out
        ∨ decodeWith VSOctaveH5ReaderCellArray.loadLogicalMatrix
            VSOctaveH5ReaderCellArray.loadRealMatrix k l = .ok out
        ∨ decodeWith VSOctaveH5ReaderStruct.loadLogicalScalar
            VSOctaveH5ReaderStruct.loadRealScalar k l = .ok out
        ∨ decodeWith VSOctaveH5ReaderStruct.loadLogicalMatrix
            VSOctaveH5ReaderStruct.loadRealMatrix k l = .ok out) :
    P out := by
  rcases h with h | h | h | h <;> cases k <;> simp only [decodeWith] at h <;>
    first
      | (obtain ⟨v, _, ho⟩ := cell_loadLogicalScalar_inv _ _ h; subst ho
         exact hl _ _ _)
      | (obtain ⟨v, _, ho⟩ := cell_loadRealScalar_inv _ _ _ h; subst ho
         exact hn _ _ _ _)
      | (obtain ⟨r, c, d, _, ho, _⟩ := cell_loadLogicalMatrix_inv _ _ h; subst ho
         exact hl _ _ _)
      | (obtain ⟨r, c, d, _, ho, _⟩ := cell_loadRealMatrix_inv _ _ _ h; subst ho
         exact hn _ _ _ _)

/-- Whatever a tag chain returns is a logical or a numeric array. -/
theorem chain_shape (P : mxArray → Prop) (hl : ∀ m n d, P (.logical m n d))
    (hn : ∀ c m n d, P (.numeric c m n d)) (l : Location) (out : mxArray)
    (h : VSOctaveH5ReaderCellArray.loadScalar l = .ok out
        ∨ VSOctaveH5ReaderCellArray.loadMatrix l = .ok out
        ∨ VSOctaveH5ReaderStruct.loadScalar l = .ok out
        ∨ VSOctaveH5ReaderStruct.loadMatrix l = .ok out) : P out := by
  cases htag : l.elementType with
  | error e =>
    simp only [VSOctaveH5ReaderCellArray.loadScalar, VSOctaveH5ReaderCellArray.loadMatrix,
      VSOctaveH5ReaderStruct.loadScalar, VSOctaveH5ReaderStruct.loadMatrix, htag] at h
    rcases h with h | h | h | h <;> cases h
  | ok tag =>
    rw [loadScalar_cell_eq l tag htag, loadMatrix_cell_eq l tag htag,
      loadScalar_struct_eq l tag htag, loadMatrix_struct_eq l tag htag] at h
    exact decode_shape P hl hn _ l out h

/-- Whatever `loadString` returns is a character array. -/
theorem loadString_shape (P : mxArray → Prop) (hc : ∀ m n t, P (.char m n t)) (l : Location)
    (out : mxArray)
    (h : VSOctaveH5ReaderCellArray.loadString l = .ok out
        ∨ VSOctaveH5ReaderStruct.loadString l = .ok out) : P out := by
  have hc2 : VSOctaveH5ReaderCellArray.loadString l = .ok out := by
    rcases h with h | h
    · exact h
    · exact h
  obtain ⟨str, _, ho⟩ := bind_eq_ok hc2
  cases ho
  exact hc _ _ _

/-- The value that a loop body computes for a location is a logical, numeric or character
array, or the load of the nested reader the dispatch opens there: a property of all of these
is a property of the value. -/
theorem element_shape (P : mxArray → Prop) (hl : ∀ m n d, P (.logical m n d))
    (hn : ∀ c m n d, P (.numeric c m n d)) (hc : ∀ m n t, P (.char m n t))
    (l : Location) (ifield : Nat) (v : mxArray)
    (h : loadCell.element l ifield = .ok v ∨ loadStruct.element l ifield = .ok v)
    (ih : ∀ child, l.Opens child → child.load = .ok v → P v) : P v := by
  cases l with
  | mk a1 a2 a3 a4 a5 rs rc str ty sc dims mat =>
    rw [loadCell.element, loadStruct.element] at h
    rcases a1 with e | b1
    · rcases h with h | h <;> cases h
    cases b1
    swap
    · refine ih (.struct rs) (Location.Opens.struct _ rfl) ?_
      rcases h with h | h <;> exact h
    rcases a2 with e | b2
    · rcases h with h | h <;> cases h
    cases b2
    swap
    · refine ih (.cellArray rc) (Location.Opens.cellArray _ rfl rfl) ?_
      rcases h with h | h <;> exact h
    rcases a3 with e | b3
    · rcases h with h | h <;> cases h
    cases b3
    swap
    · exact loadString_shape P hc (Location.mk (.ok false) (.ok false) (.ok true) a4 a5 rs rc
        str ty sc dims mat) v h
    rcases a4 with e | b4
    · rcases h with h | h <;> cases h
    cases b4
    swap
    · refine chain_shape P hl hn (Location.mk (.ok false) (.ok false) (.ok false) (.ok true) a5
        rs rc str ty sc dims mat) v ?_
      rcases h with h | h
      · exact Or.inl h
      · exact Or.inr (Or.inr (Or.inl h))
    rcases a5 with e | b5
    · rcases h with h | h <;> cases h
    cases b5
    swap
    · refine chain_shape P hl hn (Location.mk (.ok false) (.ok false) (.ok false) (.ok false)
        (.ok true) rs rc str ty sc dims mat) v ?_
      rcases h with h | h
      · exact Or.inr (Or.inl h)
      · exact Or.inr (Or.inr (Or.inr h))
    rcases h with h | h <;> cases h <;> exact hn _ _ _ _

/-- The value of a location is without unset slot when the loads of the nested readers it may
open are. -/
theorem element_noNull (l : Location) (ifield : Nat) (v : mxArray)
    (h : loadCell.element l ifield = .ok v ∨ loadStruct.element l ifield = .ok v)
    (ih : ∀ child, l.Opens child → child.load = .ok v → NoNull v) : NoNull v :=
  element_shape NoNull NoNull.logical NoNull.numeric NoNull.char l ifield v h ih

/-- A load returns a struct or a cell array, never the null pointer. -/
theorem load_ne_null (root : Reader) (v : mxArray) (h : root.load = .ok v) : v ≠ .null := by
  cases root with
  | struct s =>
    obtain ⟨names, vals, _, _, hsv, _⟩ := loadStruct_ok_all_fields s v h
    rw [hsv]
    exact fun hn => mxArray.noConfusion hn
  | cellArray c =>
    obtain ⟨nrow, ncol, _, _, hout⟩ := loadCell_ok_inv c v h
    rw [hout]
    exact fun hn => mxArray.noConfusion hn

/-- The value that a loop body stores is never the initial null of `ev`. -/
theorem element_ne_null (l : Location) (ifield : Nat) (ev : mxArray)
    (h : loadCell.element l ifield = .ok ev ∨ loadStruct.element l ifield = .ok ev) :
    ev ≠ .null :=
  element_shape (fun v => v ≠ .null) (fun _ _ _ hn => mxArray.noConfusion hn)
    (fun _ _ _ _ hn => mxArray.noConfusion hn) (fun _ _ _ hn => mxArray.noConfusion hn)
    l ifield ev h (fun child _ hc => load_ne_null child ev hc)

theorem mem_storedCells {nrow ncol : Nat} (val : Nat → Nat → mxArray)
    (hsize : nrow * ncol ≤ UINT_RANGE) (v : mxArray) (hv : v ∈ storedCells nrow ncol val) :
    ∃ irow icol, irow < nrow ∧ icol < ncol ∧ v = val irow icol := by
  obtain ⟨j, hj, hget⟩ := List.mem_iff_getElem.mp hv
  rw [length_storedCells] at hj
  have hpos : 0 < nrow := by
    rcases Nat.eq_zero_or_pos nrow with h | h
    · subst h; simp at hj
    · exact h
  have hr : j % nrow < nrow := Nat.mod_lt _ hpos
  have hk : j / nrow < ncol := Nat.div_lt_of_lt_mul hj
  have h := storedCells_flat val hsize hr hk
  rw [Nat.div_add_mod' j nrow, List.getElem?_eq_getElem (by rw [length_storedCells]; exact hj),
    hget] at h
  exact ⟨j % nrow, j / nrow, hr, hk, Option.some.inj h⟩

/-- The output of a load in which every grid has at most `2^32` cells has no unset slot. -/
theorem load_noNull (root : Reader) :
    ∀ v, root.load = .ok v → GridsWithin v → NoNull v := by
  refine descends_wellFounded.induction
    (C := fun r => ∀ v, r.load = .ok v → GridsWithin v → NoNull v) root ?_
  intro r ih v hload hg
  cases r with
  | struct s =>
    obtain ⟨names, vals, hvars, hlen, hsv, hall⟩ := loadStruct_ok_all_fields s v hload
    subst hsv
    cases hg with
    | struct _ _ hchildren =>
      refine NoNull.struct _ _ ?_
      intro w hw
      obtain ⟨i, hi, hget⟩ := List.mem_iff_getElem.mp hw
      obtain ⟨w2, hw2, hget2⟩ := hall i (hlen ▸ hi)
      rw [List.getElem?_eq_getElem hi, hget] at hget2
      cases hget2
      cases s with
      | failed e => cases hvars
      | mk ns field =>
        simp only [VSOctaveH5ReaderStruct.fieldValue] at hw2
        refine element_noNull _ i w (Or.inr hw2) ?_
        intro child hopen hchild
        exact ih child (Descends.field _ names i _ child hvars (hlen ▸ hi) rfl hopen) w hchild
          (hchildren w hw)
  | cellArray c =>
    obtain ⟨nrow, ncol, hd, hval, hout⟩ := loadCell_ok_inv c v hload
    subst hout
    cases hg with
    | cell _ _ _ hsize hchildren =>
      refine NoNull.cell _ _ _ ?_
      intro w hw
      obtain ⟨irow, icol, hr, hk, hweq⟩ := mem_storedCells _ hsize w hw
      have hcv := hval irow hr icol hk
      rw [← hweq] at hcv
      cases c with
      | failed e => cases hd
      | mk dims cell =>
        simp only [VSOctaveH5ReaderCellArray.cellValue] at hcv
        refine element_noNull _ _ w (Or.inl hcv) ?_
        intro child hopen hchild
        exact ih child (Descends.cell _ nrow ncol irow icol _ child hd hr hk rfl hopen) w
          hchild (hchildren w hw)

/-- The load of a struct with a single field. -/
theorem load_single_field (fn : String) (l : Location) (v : mxArray) (hnul : c_str fn = fn)
    (h : loadStruct.element l 0 = .ok v) :
    loadStruct (structOf [(fn, l)]) = .ok (.struct [fn] [v]) := by
  have h1 : toUnsigned [fn].length = 1 :=
    toUnsigned_of_lt (show (1 : Nat) < UINT_RANGE by decide)
  show loadStruct (.mk (.ok [fn]) (lookup [(fn, l)])) = _
  rw [loadStruct_all_ok [fn] _ (fun _ => v)]
  · rw [h1]
    simp [newStrCpy, hnul]
  · intro i hi
    rw [h1] at hi
    have hi0 : i = 0 := by omega
    subst hi0
    simpa [lookup] using h

/-- The load of the file whose root struct holds the grid of 2 rows and `2^31 + 1` columns. -/
theorem load_wideFile :
    loadStruct wideFile = .ok (.struct ["g"] [.cell 2 (2 ^ 31 + 1) (storedCells 2 (2 ^ 31 + 1)
      (fun r k => mxCreateDoubleScalar (cellIndex 2 r k : ℚ)))]) := by
  have hdims : wideGrid.dimensions = .ok (2, 2 ^ 31 + 1) := by
    have h1 : toUnsigned 2 = 2 := by decide
    have h2 : toUnsigned (2 ^ 31 + 1) = 2 ^ 31 + 1 := by decide
    show Except.ok (toUnsigned 2, toUnsigned (2 ^ 31 + 1)) = _
    rw [h1, h2]
  have hgrid : loadCell wideGrid = .ok (.cell 2 (2 ^ 31 + 1) (storedCells 2 (2 ^ 31 + 1)
      (fun r k => mxCreateDoubleScalar (cellIndex 2 r k : ℚ)))) :=
    loadCell_all_ok wideGrid 2 (2 ^ 31 + 1) _ hdims
      (fun irow _ icol _ => (element_unrecognized (cellIndex 2 irow icol)).1)
  exact load_single_field "g" (grid wideGrid) _ rfl (((element_grid wideGrid 0).2).trans hgrid)

/-- C18, as stated, fails for a grid of more than `2^32` cells: the file whose root struct holds
the grid of 2 rows and `2^31 + 1` columns loads, and the slot `2^32` of the grid in the result,
which no 32-bit index reaches, still holds the null pointer of the allocation. -/
theorem c18_counterexample :
    ∃ data, loadStruct wideFile = .ok (.struct ["g"] [.cell 2 (2 ^ 31 + 1) data])
      ∧ data.length = 2 * (2 ^ 31 + 1)
      ∧ data[2 ^ 32]? = some .null
      ∧ ¬ NoNull (.struct ["g"] [.cell 2 (2 ^ 31 + 1) data]) := by
  have hnull : (storedCells 2 (2 ^ 31 + 1)
      (fun r k => mxCreateDoubleScalar (cellIndex 2 r k : ℚ)))[2 ^ 32]? = some .null :=
    storedCells_beyond_unsigned 2 (2 ^ 31 + 1) _ _ (by decide) (by decide)
  refine ⟨_, load_wideFile, length_storedCells _ _ _, hnull, ?_⟩
  intro h
  cases h with
  | struct _ _ hfields =>
    cases hfields _ (List.mem_singleton_self _) with
    | cell _ _ _ hcells =>
      cases hcells .null (List.mem_iff_getElem?.mpr ⟨_, hnull⟩)

/-- C18 (amended): in the result of every successful load in which every grid, at any depth,
has at most `2^32` cells, no field slot of a struct and no cell slot of a grid holds the null
pointer, at any depth.  For every successful load, whatever the size of its grids: the result
itself is not null, the value that either loop body computes for a location is never the
initial null of `ev`, and when the result is a struct none of its own field slots is null. -/
theorem no_null_in_output (root : Reader) (v : mxArray) (hload : root.load = .ok v) :
    (GridsWithin v → NoNull v)
    ∧ v ≠ .null
    ∧ (∀ (l : Location) (i : Nat) (ev : mxArray),
        (loadCell.element l i = .ok ev ∨ loadStruct.element l i = .ok ev) → ev ≠ .null)
    ∧ (∀ names fields, v = .struct names fields → ∀ w, w ∈ fields → w ≠ .null) := by
  refine ⟨load_noNull root v hload, load_ne_null root v hload, element_ne_null, ?_⟩
  intro names fields hv w hw
  cases root with
  | cellArray c =>
    obtain ⟨nrow, ncol, _, _, hout⟩ := loadCell_ok_inv c v hload
    rw [hout] at hv
    cases hv
  | struct s =>
    obtain ⟨ns, vals, hvars, hlen, hsv, hall⟩ := loadStruct_ok_all_fields s v hload
    rw [hsv] at hv
    cases hv
    obtain ⟨i, hi, hget⟩ := List.mem_iff_getElem.mp hw
    obtain ⟨w2, hw2, hget2⟩ := hall i (hlen ▸ hi)
    rw [List.getElem?_eq_getElem hi, hget] at hget2
    cases hget2
    cases s with
    | failed e => cases hvars
    | mk nms field =>
      simp only [VSOctaveH5ReaderStruct.fieldValue] at hw2
      exact element_ne_null _ i w (Or.inr hw2)

/-- C18 on the grid of the second scenario of section 8, a 32-bit integer beside a nested
struct: the grid and the struct inside it hold no null.  And on the file whose root struct holds
the grid of 2 rows and `2^31 + 1` columns: the field slot of the root struct is not null. -/
theorem no_null_in_output_witness :
    (Reader.cellArray mixedGrid).load
        = .ok (.cell 1 2 [.numeric .mxINT32_CLASS 1 1 [42],
                          .struct ["x"] [.numeric .mxDOUBLE_CLASS 1 1 [1.5]]])
    ∧ NoNull (.cell 1 2 [.numeric .mxINT32_CLASS 1 1 [42],
                         .struct ["x"] [.numeric .mxDOUBLE_CLASS 1 1 [1.5]]])
    ∧ ∃ data, (Reader.struct wideFile).load = .ok (.struct ["g"] [.cell 2 (2 ^ 31 + 1) data])
        ∧ mxArray.cell 2 (2 ^ 31 + 1) data ≠ .null :=
  ⟨rfl, (no_null_in_output (.cellArray mixedGrid) _ rfl).1
    (GridsWithin.cell 1 2 _ (by decide) (by
      intro w hw
      rcases List.mem_cons.mp hw with rfl | hw
      · exact GridsWithin.numeric _ _ _ _
      · rcases List.mem_cons.mp hw with rfl | hw
        · refine GridsWithin.struct _ _ ?_
          intro u hu
          rcases List.mem_cons.mp hu with rfl | hu
          · exact GridsWithin.numeric _ _ _ _
          · cases hu
        · cases hw)),
    _, load_wideFile,
    (no_null_in_output (.struct wideFile) _ load_wideFile).2.2.2 _ _ rfl _
      (List.mem_singleton_self _)⟩

end LoadH5
